import Mathlib

/-!
# PvMonitorBase: decoding of a pvData record tree

A shallow embedding of `psdaq/epicstools/PvMonitorBase.cc` (namespace `Pds_Epics`).

The record tree is the pvData `PVStructure` held in `_strct`.  The embedding keeps
what the decoder reads from it: the kind of every node, the scalar encoding, the stored
values, the field names, and the field offsets pvData assigns (depth first, the root
at offset 0, one slot per leaf, a structure taking one slot plus those of its children).

C++ outcomes are explicit: a function returns, throws a string literal, dereferences a
null `shared_ptr`, or never leaves a loop.  Reference parameters are passed in and
handed back next to the outcome, so that what was written before a `throw` stays
visible.
-/

namespace Pds_Epics

/-! ## pvData: introspection enums and the data tree -/

/-- The `pvd::ScalarType` enumeration: eleven fixed-width encodings and the string. -/
inductive ScalarType where
  | pvBoolean | pvByte | pvShort | pvInt | pvLong
  | pvUByte | pvUShort | pvUInt | pvULong
  | pvFloat | pvDouble | pvString
  deriving DecidableEq, Repr

/-- The `pvd::Type` values the decoder switches on. -/
inductive FieldType where
  | scalar : FieldType
  | scalarArray : FieldType
  | structure : FieldType
  | structureArray : FieldType
  | union_ : FieldType
  deriving DecidableEq, Repr

/-- A `PVScalar`: its encoding and its stored value.  An integer or boolean is stored
as its value, a `pvFloat` or `pvDouble` as its IEEE-754 bit pattern; the text of a
`pvString` is never read by the decoder and `value` stands for it. -/
structure PVScalar where
  scalarType : ScalarType
  value : Int
  deriving DecidableEq, Repr

/-- A `PVScalarArray`: the element encoding and the stored elements, in order. -/
structure PVScalarArray where
  elementType : ScalarType
  values : List Int
  deriving DecidableEq, Repr

/-- A node of the record tree (`pvd::PVField`).
* `union_ n v`: `n` is what `PVUnion::getNumberFields()` reports and `v` the selected
  value, `none` while nothing is selected (`PVUnion::get()` is then null).
* `structure fs`: the named children, in declaration order.
* `structureArray es`: the elements; pvData allows a null element. -/
inductive PVField where
  | scalar (s : PVScalar)
  | scalarArray (a : PVScalarArray)
  | union_ (numberFields : Nat) (value : Option PVField)
  | structure (fields : List (String × PVField))
  | structureArray (elems : List (Option (List (String × PVField))))

/-- The children of a `PVStructure`, by name, in declaration order. -/
abbrev PVStructure := List (String × PVField)

/-- A `PVUnion` seen through a typed pointer. -/
structure PVUnion where
  numberFields : Nat
  value : Option PVField

/-- The result of `field->getField()->getType()`. -/
def PVField.getType : PVField → FieldType
  | .scalar _ => .scalar
  | .scalarArray _ => .scalarArray
  | .union_ _ _ => .union_
  | .structure _ => .structure
  | .structureArray _ => .structureArray

/-- The cast `dynamic_pointer_cast<PVScalar>`. -/
def PVField.asPVScalar : PVField → Option PVScalar
  | .scalar s => some s
  | _ => none

/-- The cast `dynamic_pointer_cast<PVScalarArray>`. -/
def PVField.asPVScalarArray : PVField → Option PVScalarArray
  | .scalarArray a => some a
  | _ => none

/-- The cast `dynamic_pointer_cast<PVUnion>`. -/
def PVField.asPVUnion : PVField → Option PVUnion
  | .union_ n v => some ⟨n, v⟩
  | _ => none

/-- The cast `dynamic_pointer_cast<PVStructureArray>`, giving the `view()` of the array. -/
def PVField.asPVStructureArray : PVField → Option (List (Option PVStructure))
  | .structureArray es => some es
  | _ => none

/-- The cast `dynamic_pointer_cast<PVInt>`: a scalar whose encoding is `pvInt`. -/
def PVField.asPVInt : PVField → Option Int
  | .scalar s => if s.scalarType = .pvInt then some s.value else none
  | _ => none

/-- The templated getter `pvUnion->get<PVScalar>()`. -/
def PVUnion.get_PVScalar (u : PVUnion) : Option PVScalar :=
  u.value.bind PVField.asPVScalar

/-- The templated getter `pvUnion->get<PVScalarArray>()`. -/
def PVUnion.get_PVScalarArray (u : PVUnion) : Option PVScalarArray :=
  u.value.bind PVField.asPVScalarArray

/-! ## pvData: field offsets and sub-field lookup -/

mutual
/-- The number of offset slots a node takes (`getNextFieldOffset() - getFieldOffset()`). -/
def span : PVField → Nat
  | .structure fs => 1 + spans fs
  | _ => 1
/-- The slots taken by a run of sibling fields. -/
def spans : List (String × PVField) → Nat
  | [] => 0
  | (_, f) :: fs => span f + spans fs
end

/-- A pointer to a node of the tree: the node and its offset from the root. -/
structure PVFieldPtr where
  offset : Nat
  field : PVField

/-- The child called `name` among siblings that start at offset `o`. -/
def findField (name : String) (o : Nat) : PVStructure → Option PVFieldPtr
  | [] => none
  | (n, f) :: fs => if n = name then some ⟨o, f⟩ else findField name (o + span f) fs

/-- The walk of `PVStructure::getSubFieldImpl(const char*)` over a dotted name: `cur` is
the segment read so far, the list is what is left of the name.  A blank or an empty
segment gives null, a dot descends into the child, which must be a structure. -/
def getSubFieldImpl (o : Nat) (fs : PVStructure) (cur : List Char) :
    List Char → Option PVFieldPtr
  | [] => if cur = [] then none else findField (String.mk cur) o fs
  | c :: cs =>
    if c = ' ' then none
    else if c = '.' then
      if cur = [] then none
      else
        match findField (String.mk cur) o fs with
        | some ⟨o1, .structure fs1⟩ => getSubFieldImpl (o1 + 1) fs1 [] cs
        | _ => none
    else getSubFieldImpl o fs (cur ++ [c]) cs

/-- The lookup `strct->getSubField<PVField>(name)` from the root structure. -/
def getSubField (strct : PVStructure) (name : String) : Option PVFieldPtr :=
  getSubFieldImpl 1 strct [] name.data

mutual
/-- The loop of `PVStructure::getSubFieldImpl(size_t)`: the node at offset `target`
among siblings that start at offset `o`. -/
def fieldAt (target : Nat) (o : Nat) : PVStructure → Option PVFieldPtr
  | [] => none
  | (_, f) :: fs =>
    if o = target then some ⟨o, f⟩
    else if o + span f ≤ target then fieldAt target (o + span f) fs
    else fieldIn target o f
/-- The descent of that loop into the child at offset `o` that spans `target`: a leaf
takes its own slot only, so the child is a structure. -/
def fieldIn (target : Nat) (o : Nat) : PVField → Option PVFieldPtr
  | .structure fs1 => fieldAt target (o + 1) fs1
  | _ => none
end

/-- The lookup `strct->getSubField<PVField>(offset)` from the root structure: null
unless the offset lies strictly inside the root. -/
def getSubFieldOffset (strct : PVStructure) (offset : Nat) : Option PVFieldPtr :=
  if offset ≤ 0 ∨ 1 + spans strct ≤ offset then none else fieldAt offset 1 strct

/-! ## Outcomes -/

/-- How a C++ call ends: it returns, throws a string literal, dereferences a null
`shared_ptr`, or never leaves a loop. -/
inductive Outcome (α : Type) where
  | returned (a : α)
  | thrown (what : String)
  | nullDeref
  | diverges
  deriving DecidableEq, Repr

/-- The loop `for (unsigned i = 0; i < n; ++i) body` over a `size_t` bound `n`, started
as `forUnsigned body n 0 s`: the first argument counts the passes still to run.  The
counter is 32 bits wide, so a bound of `2 ^ 32` or more is never reached: `++i` wraps
to zero and the loop starts over. -/
def forUnsigned {σ : Type} (body : Nat → σ → Outcome σ) : Nat → Nat → σ → Outcome σ
  | 0, _, s => .returned s
  | k + 1, i, s =>
    match body i s with
    | .returned s1 => if i + 1 = 2 ^ 32 then .diverges else forUnsigned body k (i + 1) s1
    | .thrown w => .thrown w
    | .nullDeref => .nullDeref
    | .diverges => .diverges

/-- Conversion of an integer to a signed C++ integer of `bits` bits. -/
def wrapSigned (bits : Nat) (v : Int) : Int :=
  (v + 2 ^ (bits - 1)) % 2 ^ bits - 2 ^ (bits - 1)

/-- Conversion of an integer to an unsigned C++ integer of `bits` bits. -/
def wrapUnsigned (bits : Nat) (v : Int) : Nat :=
  (v % 2 ^ bits).toNat

/-- The encodings stored as an integer value: the boolean and the eight integers. -/
def ScalarType.isIntegral : ScalarType → Bool
  | .pvFloat | .pvDouble | .pvString => false
  | _ => true

/-- The conversion `pvScalar->getAs<T>()` to a signed integer `T` of `bits` bits.  An
integer or boolean converts by the C++ integral conversion.  What pvData does with a
floating-point number or a text (it may throw) is the argument `conv`. -/
def getAs (conv : Nat → PVScalar → Outcome Int) (bits : Nat) (s : PVScalar) : Outcome Int :=
  if s.scalarType.isIntegral then .returned (wrapSigned bits s.value)
  else
    match conv bits s with
    | .returned v => .returned (wrapSigned bits v)
    | o => o

/-! ## PvMonitorBase -/

/-- The monitor object; `_strct` is null until the first update arrives. -/
structure PvMonitorBase where
  _strct : Option PVStructure

/-- The three reference parameters of `getParams`. -/
structure Params where
  type : ScalarType
  nelem : Nat
  rank : Nat
  deriving DecidableEq, Repr

/-- The typed lookup `strct->getSubField<PVStructureArray>(name)`. -/
def getSubField_PVStructureArray (strct : PVStructure) (name : String) :
    Option (List (Option PVStructure)) :=
  (getSubField strct name).bind fun p => p.field.asPVStructureArray

/-- The typed lookup `strct->getSubField<PVScalar>(name)`. -/
def getSubField_PVScalar (strct : PVStructure) (name : String) : Option PVScalar :=
  (getSubField strct name).bind fun p => p.field.asPVScalar

/-- The typed lookup `strct->getSubField<PVInt>(name)`. -/
def getSubField_PVInt (strct : PVStructure) (name : String) : Option Int :=
  (getSubField strct name).bind fun p => p.field.asPVInt

/-- The typed lookup `strct->getSubField<PVScalar>(offset)`. -/
def getSubFieldOffset_PVScalar (strct : PVStructure) (offset : Nat) : Option PVScalar :=
  (getSubFieldOffset strct offset).bind fun p => p.field.asPVScalar

/-- The typed lookup `strct->getSubField<PVScalarArray>(offset)`. -/
def getSubFieldOffset_PVScalarArray (strct : PVStructure) (offset : Nat) :
    Option PVScalarArray :=
  (getSubFieldOffset strct offset).bind fun p => p.field.asPVScalarArray

/-- The typed lookup `strct->getSubField<PVUnion>(offset)`. -/
def getSubFieldOffset_PVUnion (strct : PVStructure) (offset : Nat) : Option PVUnion :=
  (getSubFieldOffset strct offset).bind fun p => p.field.asPVUnion

/-- The method `PvMonitorBase::getParams(name, type, nelem, rank)`: the return code, or
the throw, and the reference parameters as they stand at that point.  The introspection
objects (`getScalar()`, `getScalarArray()`, `getUnion()`) are never null in pvData. -/
def getParams (self : PvMonitorBase) (name : String) (p : Params) : Outcome Nat × Params :=
  match self._strct with
  | none => (.returned 1, p)
  | some strct =>
    let pvStructureArray := getSubField_PVStructureArray strct "dimension"
    let p := { p with rank := match pvStructureArray with
                              | some a => a.length
                              | none => 1 }
    match getSubField strct name with
    | none => (.thrown "No payload.  Is FieldMask empty?", p)
    | some pvField =>
      let offset := pvField.offset
      match pvField.field.getType with
      | .scalar =>
        match getSubFieldOffset_PVScalar strct offset with
        | none => (.returned 1, p)
        | some pvScalar =>
          let p := { p with type := pvScalar.scalarType }
          if p.type = .pvString then (.thrown "Unsupported string type", p)
          else (.returned 0, { p with nelem := 1, rank := 0 })
      | .scalarArray =>
        match getSubFieldOffset_PVScalarArray strct offset with
        | none => (.returned 1, p)
        | some pvScalarArray =>
          let p := { p with type := pvScalarArray.elementType }
          if p.type = .pvString then (.thrown "Unsupported string type", p)
          else (.returned 0, { p with nelem := pvScalarArray.values.length })
      | .union_ =>
        match getSubFieldOffset_PVUnion strct offset with
        | none => (.returned 1, p)
        | some pvUnion =>
          match pvUnion.get_PVScalarArray with
          | none => (.returned 1, p)
          | some pvScalarArray =>
            let p := { p with type := pvScalarArray.elementType }
            if p.type = .pvString then (.thrown "Unsupported string type", p)
            else (.returned 0, { p with nelem := pvScalarArray.values.length })
      | _ => (.returned 1, p)

/-- The method `PvMonitorBase::getTimestamp(seconds, nanoseconds)`, `long` being 64 and
`int` 32 bits wide.  `m_epochDiff` is declared in the header; `seconds -= m_epochDiff`
is a 64-bit subtraction. -/
def getTimestamp (conv : Nat → PVScalar → Outcome Int) (m_epochDiff : Int)
    (self : PvMonitorBase) (seconds nanoseconds : Int) : Outcome Unit × Int × Int :=
  match self._strct with
  | none => (.nullDeref, seconds, nanoseconds)
  | some strct =>
    match getSubField_PVScalar strct "timeStamp.secondsPastEpoch" with
    | none => (.nullDeref, seconds, nanoseconds)
    | some pvSeconds =>
      match getAs conv 64 pvSeconds with
      | .returned e =>
        let seconds := e
        match getSubField_PVScalar strct "timeStamp.nanoseconds" with
        | none => (.nullDeref, seconds, nanoseconds)
        | some pvNanoseconds =>
          match getAs conv 32 pvNanoseconds with
          | .returned n => (.returned (), wrapSigned 64 (seconds - m_epochDiff), n)
          | .thrown w => (.thrown w, seconds, nanoseconds)
          | .nullDeref => (.nullDeref, seconds, nanoseconds)
          | .diverges => (.diverges, seconds, nanoseconds)
      | .thrown w => (.thrown w, seconds, nanoseconds)
      | .nullDeref => (.nullDeref, seconds, nanoseconds)
      | .diverges => (.diverges, seconds, nanoseconds)

/-! ## The value extractor -/

/-- The C++ element types the templates `_getScalar<T>` and `_getArray<T>` are
instantiated with. -/
inductive CType where
  | uint8_t | int8_t | int16_t | int32_t | int64_t
  | uint16_t | uint32_t | uint64_t | float | double
  deriving DecidableEq, Repr

/-- The width `sizeof(T)` in bytes. -/
def CType.sizeof : CType → Nat
  | .uint8_t | .int8_t => 1
  | .int16_t | .uint16_t => 2
  | .int32_t | .uint32_t | .float => 4
  | .int64_t | .uint64_t | .double => 8

/-- The `w` low-order bytes of `n`, least significant first. -/
def toBytes : Nat → Nat → List Nat
  | 0, _ => []
  | w + 1, n => n % 256 :: toBytes w (n / 256)

/-- The object representation of a stored value converted to `T`: its bit pattern at
the width of `T`, in the byte order of the host (little endian). -/
def encode (T : CType) (v : Int) : List Nat :=
  toBytes T.sizeof (wrapUnsigned (8 * T.sizeof) v)

/-- The memory behind `data` after `bs` is stored at its start. -/
def store (bs : List Nat) (data : List Nat) : List Nat :=
  bs ++ data.drop bs.length

/-- Modelled from the spec: the template `_getScalar<T>` is defined in the header
`PvMonitorBase.hh`.  Section 4.2: "Scalar: convert the single stored value to
`elementType`'s canonical width and write it; `bytesWritten = sizeof(elementType)`",
and "a capacity violation fails with BufferTooSmallError rather than performing a
partial write".  The capacity is the incoming `size`; the count returned is the one
element of a scalar (section 3). -/
def _getScalar (T : CType) (pvScalar : PVScalar) (data : List Nat) (size : Nat) :
    Outcome Nat × List Nat × Nat :=
  if size < T.sizeof then (.thrown "BufferTooSmallError", data, size)
  else (.returned 1, store (encode T pvScalar.value) data, T.sizeof)

/-- Modelled from the spec: the template `_getArray<T>` is defined in the header
`PvMonitorBase.hh`.  Section 4.2: "ScalarArray: copy `elementCount` values converted to
`elementType`'s width in source order; `bytesWritten = elementCount *
sizeof(elementType)`", and "a capacity violation fails with BufferTooSmallError rather
than performing a partial write".  The count returned is the element count. -/
def _getArray (T : CType) (pvScalarArray : PVScalarArray) (data : List Nat) (size : Nat) :
    Outcome Nat × List Nat × Nat :=
  if size < pvScalarArray.values.length * T.sizeof then
    (.thrown "BufferTooSmallError", data, size)
  else
    (.returned pvScalarArray.values.length,
     store ((pvScalarArray.values.map (encode T)).flatten) data,
     pvScalarArray.values.length * T.sizeof)

/-- The overload `PvMonitorBase::_getData(PVScalar, data, size)`; a null pointer is
dereferenced by `pvScalar->getScalar()`. -/
def _getData_PVScalar (pvScalar : Option PVScalar) (data : List Nat) (size : Nat) :
    Outcome Nat × List Nat × Nat :=
  match pvScalar with
  | none => (.nullDeref, data, size)
  | some s =>
    match s.scalarType with
    | .pvBoolean => _getScalar .uint8_t s data size
    | .pvByte => _getScalar .int8_t s data size
    | .pvShort => _getScalar .int16_t s data size
    | .pvInt => _getScalar .int32_t s data size
    | .pvLong => _getScalar .int64_t s data size
    | .pvUByte => _getScalar .uint8_t s data size
    | .pvUShort => _getScalar .uint16_t s data size
    | .pvUInt => _getScalar .uint32_t s data size
    | .pvULong => _getScalar .uint64_t s data size
    | .pvFloat => _getScalar .float s data size
    | .pvDouble => _getScalar .double s data size
    | .pvString => (.thrown "Unsupported scalar field type", data, size)

/-- The overload `PvMonitorBase::_getData(PVScalarArray, data, size)`. -/
def _getData_PVScalarArray (pvScalarArray : Option PVScalarArray) (data : List Nat)
    (size : Nat) : Outcome Nat × List Nat × Nat :=
  match pvScalarArray with
  | none => (.nullDeref, data, size)
  | some a =>
    match a.elementType with
    | .pvBoolean => _getArray .uint8_t a data size
    | .pvByte => _getArray .int8_t a data size
    | .pvShort => _getArray .int16_t a data size
    | .pvInt => _getArray .int32_t a data size
    | .pvLong => _getArray .int64_t a data size
    | .pvUByte => _getArray .uint8_t a data size
    | .pvUShort => _getArray .uint16_t a data size
    | .pvUInt => _getArray .uint32_t a data size
    | .pvULong => _getArray .uint64_t a data size
    | .pvFloat => _getArray .float a data size
    | .pvDouble => _getArray .double a data size
    | .pvString => (.thrown "Unsupported scalarArray field type", data, size)

/-- The overload `PvMonitorBase::_getData(PVUnion, data, size)`; `pvUnion->get()` is
null while nothing is selected. -/
def _getData_PVUnion (pvUnion : Option PVUnion) (data : List Nat) (size : Nat) :
    Outcome Nat × List Nat × Nat :=
  match pvUnion with
  | none => (.nullDeref, data, size)
  | some u =>
    if u.numberFields ≠ 1 then (.thrown "Unsupported union field count", data, size)
    else
      match u.value with
      | none => (.nullDeref, data, size)
      | some field =>
        match field.getType with
        | .scalar => _getData_PVScalar u.get_PVScalar data size
        | .scalarArray => _getData_PVScalarArray u.get_PVScalarArray data size
        | _ => (.thrown "Unsupported union field type", data, size)

/-! ## The dimension resolver and `getData` -/

/-- The body of the loop in `_getDimensions`:
`counts[i] = pvStructure[counts.size() - 1 - i]->getSubField<PVInt>("size")->getAs<uint32_t>()`.
-/
def _getDimensions.body (pvStructure : List (Option PVStructure)) (i : Nat)
    (counts : List Nat) : Outcome (List Nat) :=
  match pvStructure.get? (counts.length - 1 - i) with
  | some (some elem) =>
    match getSubField_PVInt elem "size" with
    | some v => .returned (counts.set i (wrapUnsigned 32 v))
    | none => .nullDeref
  | _ => .nullDeref

/-- The method `PvMonitorBase::_getDimensions(count)`; the result is a
`std::vector<uint32_t>`, so `count` is narrowed to 32 bits. -/
def _getDimensions (self : PvMonitorBase) (count : Nat) : Outcome (List Nat) :=
  match self._strct with
  | none => .nullDeref
  | some strct =>
    match getSubField_PVStructureArray strct "dimension" with
    | some pvStructure =>
      let counts := List.replicate pvStructure.length 0
      forUnsigned (_getDimensions.body pvStructure) counts.length 0 counts
    | none => .returned (List.replicate 1 (count % 2 ^ 32))

/-- The method `PvMonitorBase::getData(data, payloadSize)`: the shape returned, or the
failure, and `data` and `payloadSize` as they stand at that point. -/
def getData (self : PvMonitorBase) (data : List Nat) (payloadSize : Nat) :
    Outcome (List Nat) × List Nat × Nat :=
  match self._strct with
  | none => (.nullDeref, data, payloadSize)
  | some strct =>
    match getSubField strct "value" with
    | none => (.nullDeref, data, payloadSize)
    | some pvField =>
      let offset := pvField.offset
      let size := payloadSize
      match pvField.field.getType with
      | .scalar =>
        match _getData_PVScalar (getSubFieldOffset_PVScalar strct offset) data size with
        | (.returned _, data1, size1) => (.returned [], data1, size1)
        | (.thrown w, data1, _) => (.thrown w, data1, payloadSize)
        | (.nullDeref, data1, _) => (.nullDeref, data1, payloadSize)
        | (.diverges, data1, _) => (.diverges, data1, payloadSize)
      | .scalarArray =>
        match _getData_PVScalarArray (getSubFieldOffset_PVScalarArray strct offset)
            data size with
        | (.returned count, data1, size1) => (_getDimensions self count, data1, size1)
        | (.thrown w, data1, _) => (.thrown w, data1, payloadSize)
        | (.nullDeref, data1, _) => (.nullDeref, data1, payloadSize)
        | (.diverges, data1, _) => (.diverges, data1, payloadSize)
      | .union_ =>
        match _getData_PVUnion (getSubFieldOffset_PVUnion strct offset) data size with
        | (.returned count, data1, size1) => (_getDimensions self count, data1, size1)
        | (.thrown w, data1, _) => (.thrown w, data1, payloadSize)
        | (.nullDeref, data1, _) => (.nullDeref, data1, payloadSize)
        | (.diverges, data1, _) => (.diverges, data1, payloadSize)
      | _ => (.thrown "Unsupported field type", data, payloadSize)

/-! ## Vocabulary of the statements -/

/-- The outcome with its returned value mapped. -/
def Outcome.map {α β : Type} (f : α → β) : Outcome α → Outcome β
  | .returned a => .returned (f a)
  | .thrown w => .thrown w
  | .nullDeref => .nullDeref
  | .diverges => .diverges

/-- The integer `size` a per-axis descriptor carries, if it is there. -/
def descriptorSize (e : Option PVStructure) : Option Int :=
  e.bind fun elem => getSubField_PVInt elem "size"

/-- The rank `getParams` stores first: the length of the "dimension" structure array,
or 1 without one. -/
def dimensionRank (strct : PVStructure) : Nat :=
  match getSubField_PVStructureArray strct "dimension" with
  | some a => a.length
  | none => 1

/-- The byte width the specification gives for each of the eleven encodings: 1 for
bool, int8 and uint8, 2 for int16 and uint16, 4 for int32, uint32 and float32, 8 for
int64, uint64 and float64.  The string has no fixed width. -/
def encodingWidth : ScalarType → Nat
  | .pvBoolean | .pvByte | .pvUByte => 1
  | .pvShort | .pvUShort => 2
  | .pvInt | .pvUInt | .pvFloat => 4
  | .pvLong | .pvULong | .pvDouble => 8
  | .pvString => 0

/-- The representation of the stored value `v` at a width of `w` bytes: its bit pattern
(two's complement for a negative integer), least significant byte first. -/
def representation (w : Nat) (v : Int) : List Nat :=
  toBytes w (wrapUnsigned (8 * w) v)

/-- The number a run of bytes represents, least significant byte first. -/
def fromBytes : List Nat → Nat
  | [] => 0
  | b :: bs => b + 256 * fromBytes bs

/-- The first `n` elements of `w` bytes each read back from a run of bytes. -/
def elements (w : Nat) : Nat → List Nat → List Nat
  | 0, _ => []
  | n + 1, bs => fromBytes (bs.take w) :: elements w n (bs.drop w)

/-- The number of bytes the payload of a "value" node needs, for the nodes the
extractor resolves: a Scalar or ScalarArray of one of the eleven encodings, or a Union
reporting one field that holds one of these. -/
def PVField.payloadBytes : PVField → Option Nat
  | .scalar s =>
    if s.scalarType = .pvString then none else some (encodingWidth s.scalarType)
  | .scalarArray a =>
    if a.elementType = .pvString then none
    else some (a.values.length * encodingWidth a.elementType)
  | .union_ n (some (.scalar s)) =>
    if n = 1 ∧ s.scalarType ≠ .pvString then some (encodingWidth s.scalarType) else none
  | .union_ n (some (.scalarArray a)) =>
    if n = 1 ∧ a.elementType ≠ .pvString then
      some (a.values.length * encodingWidth a.elementType)
    else none
  | _ => none

/-! ## Sample record trees -/

/-- The `timeStamp` structure of a normative type, ten seconds after the EPICS epoch. -/
def sampleTimeStamp : PVField :=
  .structure [("secondsPastEpoch", .scalar ⟨.pvLong, 631152010⟩),
    ("nanoseconds", .scalar ⟨.pvInt, 7⟩), ("userTag", .scalar ⟨.pvInt, 0⟩)]

/-- A record whose "value" is a plain `int32` scalar. -/
def sampleScalar : PVStructure :=
  [("value", .scalar ⟨.pvInt, 5⟩), ("timeStamp", sampleTimeStamp)]

/-- The same record with "value" a union whose selected value is that scalar. -/
def sampleUnionScalar : PVStructure :=
  [("value", .union_ 1 (some (.scalar ⟨.pvInt, 5⟩))), ("timeStamp", sampleTimeStamp)]

/-- A record whose "value" is a text. -/
def sampleString : PVStructure :=
  [("value", .scalar ⟨.pvString, 0⟩), ("timeStamp", sampleTimeStamp)]

/-- A 2 x 3 image of `int16`: "value" is a plain array, "dimension" gives the axes. -/
def sampleArray : PVStructure :=
  [("value", .scalarArray ⟨.pvShort, [1, 2, 3, 4, 5, -6]⟩),
   ("timeStamp", sampleTimeStamp),
   ("dimension", .structureArray
      [some [("size", .scalar ⟨.pvInt, 2⟩), ("offset", .scalar ⟨.pvInt, 0⟩)],
       some [("size", .scalar ⟨.pvInt, 3⟩), ("offset", .scalar ⟨.pvInt, 0⟩)]])]

/-- An area-detector record: "value" is a union whose selected value is an array of
six `uint8` pixels, "dimension" gives the axes 3 and 2. -/
def sampleNDArray : PVStructure :=
  [("value", .union_ 1 (some (.scalarArray ⟨.pvUByte, [10, 20, 30, 40, 50, 60]⟩))),
   ("timeStamp", sampleTimeStamp),
   ("dimension", .structureArray
      [some [("size", .scalar ⟨.pvInt, 3⟩)], some [("size", .scalar ⟨.pvInt, 2⟩)]])]

/-- A record with one axis whose stored size is negative. -/
def sampleNegativeAxis : PVStructure :=
  [("value", .scalarArray ⟨.pvShort, [1]⟩),
   ("dimension", .structureArray [some [("size", .scalar ⟨.pvInt, -1⟩)]])]

/-- A record whose "value" is a union with nothing selected. -/
def sampleEmptyUnion : PVStructure :=
  [("value", .union_ 1 none), ("timeStamp", sampleTimeStamp)]

/-- A record whose "value" is itself a structure. -/
def sampleStructureValue : PVStructure :=
  [("value", .structure [("x", .scalar ⟨.pvInt, 1⟩), ("y", .scalar ⟨.pvInt, 2⟩)]),
   ("timeStamp", sampleTimeStamp)]

/-- Six `int16` elements under axes of sizes 2 and 2. -/
def sampleMismatch : PVStructure :=
  [("value", .scalarArray ⟨.pvShort, [1, 2, 3, 4, 5, 6]⟩),
   ("dimension", .structureArray
      [some [("size", .scalar ⟨.pvInt, 2⟩)], some [("size", .scalar ⟨.pvInt, 2⟩)]])]

/-- A 2 x 2 image whose second axis descriptor has no `size` field. -/
def sampleNoSize : PVStructure :=
  [("value", .scalarArray ⟨.pvShort, [1, 2, 3, 4]⟩),
   ("dimension", .structureArray
      [some [("size", .scalar ⟨.pvInt, 2⟩)], some [("offset", .scalar ⟨.pvInt, 0⟩)]])]

/-- A record without a "timeStamp" structure. -/
def sampleNoTimeStamp : PVStructure :=
  [("value", .scalar ⟨.pvInt, 5⟩)]

/-- A record whose "timeStamp" has the seconds but not the nanoseconds. -/
def sampleNoNanoseconds : PVStructure :=
  [("value", .scalar ⟨.pvInt, 5⟩),
   ("timeStamp", .structure [("secondsPastEpoch", .scalar ⟨.pvLong, 631152010⟩)])]

/-- The 2 x 2 image of the `float32` values 1.0, 2.0, 3.0 and 4.0, stored as their
IEEE-754 bit patterns 0x3F800000, 0x40000000, 0x40400000 and 0x40800000. -/
def sampleFloatImage : PVStructure :=
  [("value", .scalarArray ⟨.pvFloat, [1065353216, 1073741824, 1077936128, 1082130432]⟩),
   ("dimension", .structureArray
      [some [("size", .scalar ⟨.pvInt, 2⟩)], some [("size", .scalar ⟨.pvInt, 2⟩)]])]

/-! ## The diagnostic structure walker `printStructure` -/

/-- The cast `dynamic_pointer_cast<PVStructure>`. -/
def PVField.asPVStructure : PVField → Option PVStructure
  | .structure fs => some fs
  | _ => none

/-- The typed lookup `strct->getSubField<PVStructure>(offset)`. -/
def getSubFieldOffset_PVStructure (strct : PVStructure) (offset : Nat) : Option PVStructure :=
  (getSubFieldOffset strct offset).bind fun p => p.field.asPVStructure

/-- The typed lookup `strct->getSubField<PVStructureArray>(offset)`. -/
def getSubFieldOffset_PVStructureArray (strct : PVStructure) (offset : Nat) :
    Option (List (Option PVStructure)) :=
  (getSubFieldOffset strct offset).bind fun p => p.field.asPVStructureArray

/-- A line of the report `printStructure` writes.  Lines that show only a pointer, or
introspection data of a union that the tree does not carry (its declared alternatives,
the variant flag, the type ID), are left out. -/
inductive Event where
  | error (what : String)
  | field (name : String) (offset : Nat) (type : FieldType)
  | fieldType (type : FieldType)
  | scalarType (t : ScalarType)
  | scalarArrayType (t : ScalarType)
  | unionNumberFields (n : Nat)
  | unionType (type : FieldType)
  | unionScalarArray (offset : Nat) (t : ScalarType)
  | child (name : String) (offset : Nat)
  | length (n : Nat)
  | element (j : Nat)
  | nonSize (name : String) (offset : Nat)
  | size (j : Nat) (v : Int)
  deriving DecidableEq, Repr

/-- A stretch of code with the lines it wrote: it falls through with its state
(`Sum.inl`), returns from the function with a status (`Sum.inr`), or fails. -/
abbrev Run (σ ρ : Type) := Outcome (σ ⊕ ρ) × List Event

/-- Two stretches of code in sequence: the second runs when the first falls through. -/
def andThen {σ τ ρ : Type} (r : Run σ ρ) (f : σ → Run τ ρ) : Run τ ρ :=
  match r with
  | (.returned (.inl s), es) =>
    match f s with
    | (o, es1) => (o, es ++ es1)
  | (.returned (.inr x), es) => (.returned (.inr x), es)
  | (.thrown w, es) => (.thrown w, es)
  | (.nullDeref, es) => (.nullDeref, es)
  | (.diverges, es) => (.diverges, es)

/-- The loop `for (unsigned i = 0; i < v.size(); ++i)` whose body reads `v[i]`, started
as `forUnsignedOver body 0 v s`: the list is what is left of `v`.  The counter is 32
bits wide: past `2 ^ 32 - 1` it wraps to zero and the loop starts over. -/
def forUnsignedOver {α σ ρ : Type} (body : Nat → α → σ → Run σ ρ) :
    Nat → List α → σ → Run σ ρ
  | _, [], s => (.returned (.inl s), [])
  | i, a :: as, s =>
    andThen (body i a s) fun s1 =>
      if i + 1 = 2 ^ 32 then (.diverges, []) else forUnsignedOver body (i + 1) as s1

/-- The body of the loop over the children of a Structure field at `offset`
(`printStructure`, lines 79 to 81); the pointer is not tested. -/
def printStructure.child (offset : Nat) (pvStructure : PVStructure) (_k : Nat)
    (fieldName : String) (_ : Unit) : Run Unit Nat :=
  match getSubFieldImpl (offset + 1) pvStructure [] fieldName.data with
  | none => (.nullDeref, [])
  | some pvField => (.returned (.inl ()), [.child fieldName pvField.offset])

/-- The body of the loop over the fields of element `j` of a structure array
(`printStructure`, lines 99 to 107); `name` is the name of the structure array. -/
def printStructure.elementField (name : String) (j : Nat) (elem : PVStructure) (_k : Nat)
    (fieldName : String) (sizes : List Int) : Run (List Int) Nat :=
  match getSubField elem fieldName with
  | none => (.returned (.inr 1), [.error "pvField is NULL"])
  | some pvField =>
    if name = "dimension" ∧ fieldName = "size" then
      (.returned (.inl (sizes.set j (match getSubField_PVInt elem "size" with
                                     | some v => wrapSigned 32 v
                                     | none => 0))), [])
    else (.returned (.inl sizes), [.nonSize fieldName pvField.offset])

/-- The body of the loop over the elements of a structure array (`printStructure`,
lines 96 to 108); a null element is dereferenced by `pvStructure[j]->getStructure()`. -/
def printStructure.element (name : String) (j : Nat) (elem : Option PVStructure)
    (sizes : List Int) : Run (List Int) Nat :=
  match elem with
  | none => (.nullDeref, [.element j])
  | some e =>
    andThen (.returned (.inl sizes), [.element j]) fun sizes =>
      forUnsignedOver (printStructure.elementField name j e) 0 (e.map Prod.fst) sizes

/-- The body of the loop that prints the collected sizes (`printStructure`, line 112). -/
def printStructure.sizeLine (j : Nat) (v : Int) (_ : Unit) : Run Unit Nat :=
  (.returned (.inl ()), [.size j v])

/-- The case `pvd::structureArray` of `printStructure` from line 92 on, for the
structure array `pvStructureArray` found under the top-level field `name`. -/
def printStructure.structureArray (name : String)
    (pvStructureArray : List (Option PVStructure)) : Run Unit Nat :=
  andThen (.returned (.inl ()), [.length pvStructureArray.length]) fun _ =>
  andThen (forUnsignedOver (printStructure.element name) 0 pvStructureArray
      (List.replicate pvStructureArray.length 0)) fun sizes =>
    if name = "dimension" then forUnsignedOver printStructure.sizeLine 0 sizes ()
    else (.returned (.inl ()), [])

/-- The body of the loop over the top-level fields (`printStructure`, lines 21 to 120):
`nf` is `names[i]` with the type of `fields[i]`. -/
def printStructure.field (strct : PVStructure) (_i : Nat) (nf : String × FieldType)
    (_ : Unit) : Run Unit Nat :=
  match getSubField strct nf.1 with
  | none => (.returned (.inr 1), [.error ("pvField " ++ nf.1 ++ " is NULL")])
  | some pvField =>
    let offset := pvField.offset
    andThen (.returned (.inl ()),
        [.field nf.1 offset nf.2, .fieldType pvField.field.getType]) fun _ =>
      match nf.2 with
      | .scalar =>
        match getSubFieldOffset_PVScalar strct offset with
        | none => (.returned (.inr 1), [.error "pvScalar is NULL"])
        | some pvScalar => (.returned (.inl ()), [.scalarType pvScalar.scalarType])
      | .scalarArray =>
        match getSubFieldOffset_PVScalarArray strct offset with
        | none => (.returned (.inr 1), [.error "pvScalarArray is NULL"])
        | some pvScalarArray =>
          (.returned (.inl ()), [.scalarArrayType pvScalarArray.elementType])
      | .union_ =>
        match getSubFieldOffset_PVUnion strct offset with
        | none => (.returned (.inr 1), [.error "pvUnion is NULL"])
        | some pvUnion =>
          andThen (.returned (.inl ()), [.unionNumberFields pvUnion.numberFields]) fun _ =>
            match pvUnion.value with
            | none => (.returned (.inr 1), [.error "pvField is NULL"])
            | some value =>
              andThen (.returned (.inl ()), [.unionType value.getType]) fun _ =>
                match pvUnion.get_PVScalarArray with
                | none => (.returned (.inr 1), [.error "Union's pvScalarArray is NULL"])
                | some pvScalarArray =>
                  (.returned (.inl ()), [.unionScalarArray 0 pvScalarArray.elementType])
      | .structure =>
        match getSubFieldOffset_PVStructure strct offset with
        | none => (.returned (.inr 1), [.error "pvStructure is NULL"])
        | some pvStructure =>
          forUnsignedOver (printStructure.child offset pvStructure) 0
            (pvStructure.map Prod.fst) ()
      | .structureArray =>
        match getSubFieldOffset_PVStructureArray strct offset with
        | none => (.returned (.inr 1), [.error "pvStructureArray is NULL"])
        | some pvStructureArray => printStructure.structureArray nf.1 pvStructureArray

/-- The method `PvMonitorBase::printStructure()`: the status returned, or the failure,
and the report written up to that point.  The introspection objects are never null
in pvData. -/
def printStructure (self : PvMonitorBase) : Outcome Nat × List Event :=
  match self._strct with
  | none => (.returned 1, [.error "_strct is NULL"])
  | some strct =>
    match forUnsignedOver (printStructure.field strct) 0
        (strct.map fun nf => (nf.1, nf.2.getType)) () with
    | (.returned (.inl _), es) => (.returned 0, es)
    | (.returned (.inr status), es) => (.returned status, es)
    | (.thrown w, es) => (.thrown w, es)
    | (.nullDeref, es) => (.nullDeref, es)
    | (.diverges, es) => (.diverges, es)

/-! ## Vocabulary of the statements about the walker -/

/-- The lines a loop writes when every pass falls through: those of each pass, for the
counter `i` and the element read, in order. -/
def linesFrom {α : Type} (lines : Nat → α → List Event) : Nat → List α → List Event
  | _, [] => []
  | i, a :: as => lines i a ++ linesFrom lines (i + 1) as

/-- The sizes printed in a report, in the order of their lines. -/
def sizesOf : List Event → List Int
  | [] => []
  | .size _ v :: es => v :: sizesOf es
  | _ :: es => sizesOf es

/-- A structure as pvData builds them: fewer than 2^32 fields, each of them found
under its own name (a field name holds no dot and no blank). -/
def resolvable (fs : PVStructure) : Prop :=
  fs.length < 2 ^ 32 ∧ ∀ nf ∈ fs, (getSubField fs nf.1).isSome = true

/-- The statuses `printStructure` can end a stretch of code with: it falls through,
returns 1, dereferences a null pointer or does not leave a loop. -/
def Run.plain {σ : Type} (r : Run σ Nat) : Prop :=
  (∃ s, r.1 = .returned (.inl s)) ∨ r.1 = .returned (.inr 1) ∨ r.1 = .nullDeref ∨
    r.1 = .diverges

/-- The line of one child of a structure at `offset`: its name and its offset. -/
def childLine (offset : Nat) (fs : PVStructure) (_k : Nat) (name : String) : List Event :=
  match getSubFieldImpl (offset + 1) fs [] name.data with
  | some p => [.child name p.offset]
  | none => []

/-- The line of one field of an element of the structure array `name`: its name and
its offset, and nothing for the `size` of a "dimension" element. -/
def elementFieldLine (name : String) (elem : PVStructure) (_k : Nat)
    (fieldName : String) : List Event :=
  if name = "dimension" ∧ fieldName = "size" then []
  else
    match getSubField elem fieldName with
    | some p => [.nonSize fieldName p.offset]
    | none => []

/-- The lines of element `j` of the structure array `name`: its index, then the lines
of its fields. -/
def elementLines (name : String) (j : Nat) (e : Option PVStructure) : List Event :=
  match e with
  | some elem => .element j :: linesFrom (elementFieldLine name elem) 0 (elem.map Prod.fst)
  | none => [.element j]

/-- The integer read from the `size` of an element: its value as an `int`, or 0 when
the field is no integer. -/
def readSize (elem : PVStructure) : Int :=
  match getSubField_PVInt elem "size" with
  | some v => wrapSigned 32 v
  | none => 0

/-- The size collected for an element of the structure array `name`: the integer read
when the array is "dimension" and the element has a `size`, and 0 otherwise. -/
def collectedSize (name : String) (e : Option PVStructure) : Int :=
  match e with
  | some elem => if name = "dimension" ∧ "size" ∈ elem.map Prod.fst then readSize elem else 0
  | none => 0

/-- The lines of the structure array `name`: its length, the lines of its elements, and
for "dimension" one line for each collected size. -/
def structureArrayLines (name : String) (es : List (Option PVStructure)) : List Event :=
  .length es.length :: linesFrom (elementLines name) 0 es ++
    (if name = "dimension" then linesFrom (fun j v => [.size j v]) 0 (es.map (collectedSize name))
     else [])

/-- The lines of one top-level field: name, offset and kind; then the element type of a
scalar or scalar array, the selected array of a union, the children of a structure by
name and offset, or the lines of a structure array.  Nothing below a child is read. -/
def fieldLines (strct : PVStructure) (_i : Nat) (nf : String × FieldType) : List Event :=
  match getSubField strct nf.1 with
  | none => []
  | some p =>
    .field nf.1 p.offset nf.2 :: .fieldType p.field.getType ::
      match p.field with
      | .scalar s => [.scalarType s.scalarType]
      | .scalarArray a => [.scalarArrayType a.elementType]
      | .union_ n v =>
        .unionNumberFields n ::
          (match v with
           | some f =>
             .unionType f.getType ::
               (match f with
                | .scalarArray a => [.unionScalarArray 0 a.elementType]
                | _ => [])
           | none => [])
      | .structure fs => linesFrom (childLine p.offset fs) 0 (fs.map Prod.fst)
      | .structureArray es => structureArrayLines nf.1 es

/-- The report of a record: the lines of its top-level fields, in order. -/
def report (strct : PVStructure) : List Event :=
  linesFrom (fieldLines strct) 0 (strct.map fun nf => (nf.1, nf.2.getType))

/-! ## Sample record trees for the walker -/

/-- A 2 x 2 image whose second axis descriptor is a null element. -/
def sampleNullElement : PVStructure :=
  [("value", .scalarArray ⟨.pvShort, [1, 2, 3, 4]⟩),
   ("dimension", .structureArray [some [("size", .scalar ⟨.pvInt, 2⟩)], none])]

/-- A record with a field nested three levels deep: "c" inside "b" inside "a". -/
def sampleNested : PVStructure :=
  [("a", .structure [("b", .structure [("c", .scalar ⟨.pvInt, 1⟩)]),
                     ("d", .scalar ⟨.pvDouble, 0⟩)]),
   ("value", .scalar ⟨.pvInt, 5⟩)]

end Pds_Epics

/-!
# Si570: the register encoding of the clock synthesizer

A shallow embedding of the integer part of `psdaq/drp/Si570.cc` (namespace `Drp`): the
decoding of the registers 7 to 12 in `Si570::read` and their encoding in
`Si570::program`.  Registers hold `unsigned` values of 32 bits, a C array read out of
bounds gives no value.
-/

namespace Drp

/-- The table `hsd_divn` of `Si570::read`: the divider for each of the eight codes of
the three-bit field, zero for the two reserved codes. -/
def hsd_divn : List Nat := [4, 5, 6, 7, 0, 9, 0, 11]

/-- The table `_hsd_div` of `Si570::program`. -/
def _hsd_div : List Nat := [7, 3]

/-- The table `_n1` of `Si570::program`. -/
def _n1 : List Nat := [3, 3]

/-- The table `_rfreq` of `Si570::program`; its entries 5236. and 5200. are doubles
with these integer values. -/
def _rfreq : List Nat := [5236, 5200]

/-- The element `table[index]` of a C array read with an `int` index: defined only
when the index is in bounds. -/
def tableAt (table : List Nat) (index : Int) : Option Nat :=
  if 0 ≤ index then table.get? index.toNat else none

/-- The three fields `Si570::read` decodes and logs. -/
structure Si570Fields where
  hs_div : Nat
  n1 : Nat
  rfreq : Nat
  deriving DecidableEq, Repr

/-- The decoding of `Si570::read`: `reg i` is what `dmaReadRegister` delivers for
register `i`, an `unsigned` of 32 bits; `n1` is an `unsigned`, `rfreq` a `uint64_t`.
The frequency computed from the three fields is floating point and is left out.  The
result is `none` when the table is read out of bounds. -/
def Si570.read (reg : Nat → Nat) : Option Si570Fields :=
  let v := reg 7 % 2 ^ 32
  match hsd_divn.get? ((v >>> 5) &&& 7) with
  | none => none
  | some hs_div =>
    let n1 := ((v &&& 0x1f) <<< 2) % 2 ^ 32
    let v := reg 8 % 2 ^ 32
    let n1 := n1 ||| ((v >>> 6) &&& 3)
    let rfreq := v &&& 0x3f
    let rfreq := [9, 10, 11, 12].foldl
      (fun rfreq i => ((rfreq <<< 8) % 2 ^ 64) ||| ((reg i % 2 ^ 32) &&& 0xff)) rfreq
    some ⟨hs_div, n1, rfreq⟩

/-- The six calls of `dmaWriteRegister` in `Si570::program` (lines 73 to 78): the
register and the `unsigned` value written, for the `unsigned` values `hs_div` and `n1`
and the `uint64_t` value `rfreq`. -/
def Si570.program.writes (hs_div n1 rfreq : Nat) : List (Nat × Nat) :=
  [(7, (((hs_div &&& 7) <<< 5) % 2 ^ 32) ||| ((n1 >>> 2) &&& 0x1f)),
   (8, ((((n1 &&& 3) <<< 6) % 2 ^ 32) ||| ((rfreq >>> 32) &&& 0x3f)) % 2 ^ 32),
   (9, ((rfreq >>> 24) &&& 0xff) % 2 ^ 32),
   (10, ((rfreq >>> 16) &&& 0xff) % 2 ^ 32),
   (11, ((rfreq >>> 8) &&& 0xff) % 2 ^ 32),
   (12, ((rfreq >>> 0) &&& 0xff) % 2 ^ 32)]

/-- The table lookups and register writes of `Si570::program(index)`.  The value of
`rfreq`, computed in floating point from `_rfreq[index]` and the calibration read
back, is the argument `rfreq`.  The result is `none` when a table is read out of
bounds. -/
def Si570.program (index : Int) (rfreq : Nat) : Option (List (Nat × Nat)) :=
  match tableAt _hsd_div index, tableAt _n1 index, tableAt _rfreq index with
  | some hs_div, some n1, some _ => some (Si570.program.writes hs_div n1 rfreq)
  | _, _, _ => none

/-- The register file in which the given writes have been made, zero elsewhere. -/
def registersAfter (writes : List (Nat × Nat)) (i : Nat) : Nat :=
  match writes.find? (fun w => w.1 = i) with
  | some w => w.2
  | none => 0

end Drp

namespace Pds_Epics

/-! ## Lookup by offset finds what lookup by name found -/

theorem span_pos (f : PVField) : 0 < span f := by
  cases f <;> simp [span]

theorem findField_fieldAt (name : String) :
    ∀ (fs : PVStructure) (o : Nat) (p : PVFieldPtr), findField name o fs = some p →
      o ≤ p.offset ∧ p.offset + span p.field ≤ o + spans fs ∧
      fieldAt p.offset o fs = some p ∧
      ∀ t, p.offset < t → t < p.offset + span p.field →
        fieldAt t o fs = fieldIn t p.offset p.field := by
  intro fs
  induction fs with
  | nil => intro o p h; simp [findField] at h
  | cons hd tl ih =>
    obtain ⟨n, f⟩ := hd
    intro o p h
    simp only [findField] at h
    by_cases hn : n = name
    · simp only [hn, if_true, Option.some.injEq] at h
      subst h
      refine ⟨le_refl _, ?_, ?_, ?_⟩
      · simp only [spans]; omega
      · simp [fieldAt]
      · intro t h1 h2
        simp only at h1 h2
        simp only [fieldAt]
        rw [if_neg (by omega), if_neg (by omega)]
    · simp only [hn, if_false] at h
      obtain ⟨h1, h2, h3, h4⟩ := ih (o + span f) p h
      have hpos := span_pos f
      refine ⟨by omega, ?_, ?_, ?_⟩
      · simp only [spans]; omega
      · simp only [fieldAt]
        rw [if_neg (by omega), if_pos (by omega)]
        exact h3
      · intro t ht1 ht2
        simp only [fieldAt]
        rw [if_neg (by omega), if_pos (by omega)]
        exact h4 t ht1 ht2

theorem getSubFieldImpl_fieldAt :
    ∀ (cs cur : List Char) (o : Nat) (fs : PVStructure) (p : PVFieldPtr),
      getSubFieldImpl o fs cur cs = some p →
      o ≤ p.offset ∧ p.offset < o + spans fs ∧ fieldAt p.offset o fs = some p := by
  intro cs
  induction cs with
  | nil =>
    intro cur o fs p h
    simp only [getSubFieldImpl] at h
    by_cases hc : cur = []
    · simp [hc] at h
    · simp only [hc, if_false] at h
      obtain ⟨h1, h2, h3, -⟩ := findField_fieldAt _ fs o p h
      have := span_pos p.field
      exact ⟨h1, by omega, h3⟩
  | cons c cs ih =>
    intro cur o fs p h
    simp only [getSubFieldImpl] at h
    by_cases hb : c = ' '
    · simp [hb] at h
    · simp only [hb, if_false] at h
      by_cases hd : c = '.'
      · simp only [hd, if_true] at h
        by_cases hc : cur = []
        · simp [hc] at h
        · simp only [hc, if_false] at h
          cases hq : findField (String.mk cur) o fs with
          | none => simp [hq] at h
          | some q =>
            obtain ⟨o1, f1⟩ := q
            rcases f1 with s | a | ⟨n, v⟩ | fs1 | es
            · simp [hq] at h
            · simp [hq] at h
            · simp [hq] at h
            · simp only [hq] at h
              obtain ⟨i1, i2, i3⟩ := ih [] (o1 + 1) fs1 p h
              obtain ⟨h1, h2, -, h4⟩ := findField_fieldAt _ fs o _ hq
              simp only [span] at h1 h2 h4
              refine ⟨by omega, by omega, ?_⟩
              rw [h4 p.offset (by omega) (by omega)]
              simpa [fieldIn] using i3
            · simp [hq] at h
      · simp only [hd, if_false] at h
        exact ih _ o fs p h

/-- A field found by name is the field found at its own offset: the round trip
`getSubField(name)`, `getFieldOffset()`, `getSubField(offset)` of the decoder. -/
theorem getSubFieldOffset_of_getSubField (strct : PVStructure) (name : String)
    (p : PVFieldPtr) (h : getSubField strct name = some p) :
    getSubFieldOffset strct p.offset = some p := by
  obtain ⟨h1, h2, h3⟩ := getSubFieldImpl_fieldAt _ _ _ _ _ h
  simp only [getSubFieldOffset]
  rw [if_neg (by omega)]
  exact h3

/-! ## The loop of the dimension resolver -/

theorem _getDimensions.body_eq (es : List (Option PVStructure)) (sizes : List Int)
    (h : es.map descriptorSize = sizes.map some) (i : Nat) (counts : List Nat)
    (hi : i < es.length) (hc : counts.length = es.length) :
    ∃ x, ((sizes.map (wrapUnsigned 32)).reverse)[i]? = some x ∧
      _getDimensions.body es i counts = .returned (counts.set i x) := by
  have hlen : sizes.length = es.length := by
    have := congrArg List.length h
    simpa using this.symm
  have hj : es.length - 1 - i < es.length := by omega
  have hget := congrArg (fun l => l[es.length - 1 - i]?) h
  simp only [List.getElem?_map] at hget
  rw [List.getElem?_eq_getElem hj, List.getElem?_eq_getElem (by omega)] at hget
  simp only [Option.map_some', Option.some.injEq] at hget
  refine ⟨wrapUnsigned 32 (sizes.get ⟨es.length - 1 - i, by omega⟩), ?_, ?_⟩
  · rw [List.getElem?_reverse (by simpa [hlen] using hi)]
    simp only [List.length_map, hlen, List.getElem?_map]
    rw [List.getElem?_eq_getElem (by omega)]
    rfl
  · simp only [_getDimensions.body, hc, List.get?_eq_getElem?]
    rw [List.getElem?_eq_getElem hj]
    cases he : es[es.length - 1 - i] with
    | none => simp [he, descriptorSize] at hget
    | some elem =>
      simp only [he, descriptorSize, Option.some_bind] at hget
      simp only [hget]
      rfl

theorem _getDimensions.loop_eq (es : List (Option PVStructure)) (sizes : List Int)
    (h : es.map descriptorSize = sizes.map some) (hn : es.length < 2 ^ 32) :
    ∀ (k i : Nat) (counts : List Nat), i + k = es.length →
      counts = ((sizes.map (wrapUnsigned 32)).reverse).take i ++ List.replicate k 0 →
      forUnsigned (_getDimensions.body es) k i counts =
        .returned (sizes.map (wrapUnsigned 32)).reverse := by
  have hlen : sizes.length = es.length := by
    have := congrArg List.length h
    simpa using this.symm
  intro k
  induction k with
  | zero =>
    intro i counts hik hc
    have : (sizes.map (wrapUnsigned 32)).reverse.length ≤ i := by simp [hlen]; omega
    simp [forUnsigned, hc, List.take_of_length_le this]
  | succ k ih =>
    intro i counts hik hc
    have hcl : counts.length = es.length := by
      rw [hc]; simp [hlen]; omega
    obtain ⟨x, hx, hb⟩ := _getDimensions.body_eq es sizes h i counts (by omega) hcl
    simp only [forUnsigned, hb]
    rw [if_neg (by omega)]
    apply ih (i + 1) _ (by omega)
    rw [hc, List.take_succ, hx]
    have hti : (List.take i (sizes.map (wrapUnsigned 32)).reverse).length = i := by
      simp [hlen]; omega
    rw [List.set_append_right _ _ (by omega), hti]
    simp [List.replicate_succ]

/-! ## The dimension resolver -/

theorem _getDimensions_of_absent (strct : PVStructure) (count : Nat)
    (hd : getSubField_PVStructureArray strct "dimension" = none) :
    _getDimensions ⟨some strct⟩ count = .returned [count % 2 ^ 32] := by
  simp [_getDimensions, hd]

/-- Claim C1, at a negative stored size: the axis descriptor carries the integer -1 and
the shape entry is 4294967295, not the stored size. -/
theorem getDimensions_negative_size_counterexample :
    getSubField_PVStructureArray sampleNegativeAxis "dimension"
        = some [some [("size", .scalar ⟨.pvInt, -1⟩)]] ∧
      descriptorSize (some [("size", .scalar ⟨.pvInt, -1⟩)]) = some (-1) ∧
      (_getDimensions ⟨some sampleNegativeAxis⟩ 1).map (List.map Int.ofNat)
        = .returned [4294967295] ∧
      (_getDimensions ⟨some sampleNegativeAxis⟩ 1).map (List.map Int.ofNat)
        ≠ .returned [-1] := by
  refine ⟨rfl, by decide, by decide, by decide⟩

/-- Claim C1, as amended: when the top-level "dimension" structure array holds n axis
descriptors (n below 2^32) that each carry an integer `size`, `_getDimensions` returns,
whatever the count argument, a vector of length n whose i-th entry is the size of
descriptor n-1-i converted to `uint32_t`; the entries are the stored sizes themselves,
in reversed order, when these are non-negative. -/
theorem getDimensions_reversed (self : PvMonitorBase) (strct : PVStructure)
    (es : List (Option PVStructure)) (sizes : List Int) (count : Nat)
    (hs : self._strct = some strct)
    (hd : getSubField_PVStructureArray strct "dimension" = some es)
    (hn : es.length < 2 ^ 32)
    (hsz : es.map descriptorSize = sizes.map some) :
    _getDimensions self count = .returned (sizes.reverse.map (wrapUnsigned 32)) ∧
      (sizes.reverse.map (wrapUnsigned 32)).length = es.length ∧
      (∀ i, i < es.length →
        (sizes.reverse.map (wrapUnsigned 32))[i]?
          = (sizes[es.length - 1 - i]?).map (wrapUnsigned 32)) ∧
      ((∀ v ∈ sizes, 0 ≤ v ∧ v < 2 ^ 32) →
        (sizes.reverse.map (wrapUnsigned 32)).map Int.ofNat = sizes.reverse) := by
  have hlen : sizes.length = es.length := by
    have := congrArg List.length hsz
    simpa using this.symm
  refine ⟨?_, by simp [hlen], ?_, ?_⟩
  · simp only [_getDimensions, hs, hd, List.length_replicate]
    rw [List.map_reverse]
    exact _getDimensions.loop_eq es sizes hsz hn es.length 0 _ (by omega) (by simp)
  · intro i hi
    rw [List.getElem?_map, List.getElem?_reverse (by omega), hlen]
  · intro hv
    rw [List.map_map]
    have : ∀ v ∈ sizes.reverse, (Int.ofNat ∘ wrapUnsigned 32) v = id v := by
      intro v hmem
      obtain ⟨h0, h1⟩ := hv v (List.mem_reverse.mp hmem)
      simp only [Function.comp, wrapUnsigned, id]
      rw [Int.emod_eq_of_lt h0 (by simpa using h1)]
      exact Int.toNat_of_nonneg h0
    rw [List.map_congr_left this, List.map_id]

/-- A 2 x 3 image: the stored axes [2, 3] come back as [3, 2]. -/
theorem getDimensions_reversed_witness :
    getSubField_PVStructureArray sampleArray "dimension"
        = some [some [("size", .scalar ⟨.pvInt, 2⟩), ("offset", .scalar ⟨.pvInt, 0⟩)],
                some [("size", .scalar ⟨.pvInt, 3⟩), ("offset", .scalar ⟨.pvInt, 0⟩)]] ∧
      _getDimensions ⟨some sampleArray⟩ 6 = .returned [3, 2] :=
  ⟨rfl, (getDimensions_reversed ⟨some sampleArray⟩ sampleArray _ [2, 3] 6 rfl rfl
    (by decide) (by decide)).1⟩

/-- Claim C2, at the count 2^32: the shape is [0], not [4294967296]. -/
theorem getDimensions_absent_counterexample :
    getSubField_PVStructureArray sampleScalar "dimension" = none ∧
      _getDimensions ⟨some sampleScalar⟩ 4294967296 = .returned [0] ∧
      _getDimensions ⟨some sampleScalar⟩ 4294967296 ≠ .returned [4294967296] := by
  refine ⟨rfl, by decide, by decide⟩

/-- Claim C2, as amended: without a "dimension" structure array, `_getDimensions(c)`
returns the one-element shape holding c narrowed to `uint32_t`, which is [c] for every
count c below 2^32 (count 7 gives [7]). -/
theorem getDimensions_absent (self : PvMonitorBase) (strct : PVStructure) (count : Nat)
    (hs : self._strct = some strct)
    (hd : getSubField_PVStructureArray strct "dimension" = none) :
    _getDimensions self count = .returned [count % 2 ^ 32] ∧
      (count < 2 ^ 32 → _getDimensions self count = .returned [count]) := by
  obtain ⟨strct0⟩ := self
  simp only at hs
  subst hs
  have h := _getDimensions_of_absent strct count hd
  refine ⟨h, fun hc => ?_⟩
  rw [h, Nat.mod_eq_of_lt hc]

/-- The count 7 without dimension metadata gives the shape [7]. -/
theorem getDimensions_absent_witness :
    getSubField_PVStructureArray sampleScalar "dimension" = none ∧
      _getDimensions ⟨some sampleScalar⟩ 7 = .returned [7] :=
  ⟨rfl, (getDimensions_absent ⟨some sampleScalar⟩ sampleScalar 7 rfl rfl).2 (by decide)⟩

/-! ## The type descriptor resolver -/

theorem getParams_of_scalar (strct : PVStructure) (name : String) (ptr : PVFieldPtr)
    (s : PVScalar) (p : Params)
    (hf : getSubField strct name = some ptr)
    (hk : ptr.field = .scalar s)
    (hty : s.scalarType ≠ .pvString) :
    getParams ⟨some strct⟩ name p = (.returned 0, ⟨s.scalarType, 1, 0⟩) := by
  have hoff := getSubFieldOffset_of_getSubField strct name ptr hf
  simp [getParams, hf, hk, PVField.getType, getSubFieldOffset_PVScalar, hoff,
    PVField.asPVScalar, hty]

/-- Claim C3: when the name resolves to a Scalar field whose encoding is not the string,
`getParams` returns 0 and sets type to the field's scalar type, nelem to 1 and rank to
0, whatever the tree holds under "dimension". -/
theorem getParams_scalar (self : PvMonitorBase) (strct : PVStructure) (name : String)
    (ptr : PVFieldPtr) (s : PVScalar) (p : Params)
    (hs : self._strct = some strct)
    (hf : getSubField strct name = some ptr)
    (hk : ptr.field = .scalar s)
    (hty : s.scalarType ≠ .pvString) :
    getParams self name p = (.returned 0, ⟨s.scalarType, 1, 0⟩) := by
  obtain ⟨strct0⟩ := self
  simp only at hs
  subst hs
  exact getParams_of_scalar strct name ptr s p hf hk hty

/-- The `int32` scalar "value", and a scalar nested in "timeStamp" of a record that
has a "dimension" array. -/
theorem getParams_scalar_witness :
    getParams ⟨some sampleScalar⟩ "value" ⟨.pvString, 9, 9⟩ = (.returned 0, ⟨.pvInt, 1, 0⟩) ∧
      getParams ⟨some sampleArray⟩ "timeStamp.secondsPastEpoch" ⟨.pvString, 9, 9⟩
        = (.returned 0, ⟨.pvLong, 1, 0⟩) :=
  ⟨getParams_scalar ⟨some sampleScalar⟩ sampleScalar "value" ⟨1, .scalar ⟨.pvInt, 5⟩⟩
      ⟨.pvInt, 5⟩ _ rfl rfl rfl (by decide),
   getParams_scalar ⟨some sampleArray⟩ sampleArray "timeStamp.secondsPastEpoch"
      ⟨3, .scalar ⟨.pvLong, 631152010⟩⟩ ⟨.pvLong, 631152010⟩ _ rfl rfl rfl (by decide)⟩

/-- Claim C4: when the name resolves to a ScalarArray, or to a Union whose selected
value is a ScalarArray, with an element type other than the string, `getParams` returns
0 and sets type to the element type, nelem to the array's length, and rank to the
number of entries of the "dimension" structure array when there is one, to 1 when
there is none. -/
theorem getParams_array (self : PvMonitorBase) (strct : PVStructure) (name : String)
    (ptr : PVFieldPtr) (a : PVScalarArray) (p : Params)
    (hs : self._strct = some strct)
    (hf : getSubField strct name = some ptr)
    (hk : ptr.field = .scalarArray a ∨ ∃ n, ptr.field = .union_ n (some (.scalarArray a)))
    (hty : a.elementType ≠ .pvString) :
    (∀ es, getSubField_PVStructureArray strct "dimension" = some es →
        getParams self name p = (.returned 0, ⟨a.elementType, a.values.length, es.length⟩)) ∧
      (getSubField_PVStructureArray strct "dimension" = none →
        getParams self name p = (.returned 0, ⟨a.elementType, a.values.length, 1⟩)) := by
  have hoff := getSubFieldOffset_of_getSubField strct name ptr hf
  rcases hk with hk | ⟨n, hk⟩
  · constructor
    · intro es hd
      simp [getParams, hs, hf, hk, hd, PVField.getType, getSubFieldOffset_PVScalarArray,
        hoff, PVField.asPVScalarArray, hty]
    · intro hd
      simp [getParams, hs, hf, hk, hd, PVField.getType, getSubFieldOffset_PVScalarArray,
        hoff, PVField.asPVScalarArray, hty]
  · constructor
    · intro es hd
      simp [getParams, hs, hf, hk, hd, PVField.getType, getSubFieldOffset_PVUnion,
        hoff, PVField.asPVUnion, PVUnion.get_PVScalarArray, PVField.asPVScalarArray, hty]
    · intro hd
      simp [getParams, hs, hf, hk, hd, PVField.getType, getSubFieldOffset_PVUnion,
        hoff, PVField.asPVUnion, PVUnion.get_PVScalarArray, PVField.asPVScalarArray, hty]

/-- The six `int16` elements of the 2 x 3 image and the six pixels held in a union
have rank 2; a lone array without dimension metadata has rank 1. -/
theorem getParams_array_witness :
    getParams ⟨some sampleArray⟩ "value" ⟨.pvString, 9, 9⟩
        = (.returned 0, ⟨.pvShort, 6, 2⟩) ∧
      getParams ⟨some sampleNDArray⟩ "value" ⟨.pvString, 9, 9⟩
        = (.returned 0, ⟨.pvUByte, 6, 2⟩) ∧
      getParams ⟨some [("value", .scalarArray ⟨.pvDouble, [0, 0, 0]⟩)]⟩ "value"
          ⟨.pvString, 9, 9⟩
        = (.returned 0, ⟨.pvDouble, 3, 1⟩) :=
  ⟨(getParams_array ⟨some sampleArray⟩ sampleArray "value"
      ⟨1, .scalarArray ⟨.pvShort, [1, 2, 3, 4, 5, -6]⟩⟩ ⟨.pvShort, [1, 2, 3, 4, 5, -6]⟩ _
      rfl rfl (Or.inl rfl) (by decide)).1 _ rfl,
   (getParams_array ⟨some sampleNDArray⟩ sampleNDArray "value"
      ⟨1, .union_ 1 (some (.scalarArray ⟨.pvUByte, [10, 20, 30, 40, 50, 60]⟩))⟩
      ⟨.pvUByte, [10, 20, 30, 40, 50, 60]⟩ _
      rfl rfl (Or.inr ⟨1, rfl⟩) (by decide)).1 _ rfl,
   (getParams_array ⟨some [("value", .scalarArray ⟨.pvDouble, [0, 0, 0]⟩)]⟩ _ "value"
      ⟨1, .scalarArray ⟨.pvDouble, [0, 0, 0]⟩⟩ ⟨.pvDouble, [0, 0, 0]⟩ _
      rfl rfl (Or.inl rfl) (by decide)).2 rfl⟩

/-- Claim C6: on a non-null record tree, a field name that does not resolve makes
`getParams` throw; no return code is produced and type and nelem are left as they
were (rank already holds the dimension length, or 1). -/
theorem getParams_missing (self : PvMonitorBase) (strct : PVStructure) (name : String)
    (p : Params)
    (hs : self._strct = some strct)
    (hf : getSubField strct name = none) :
    getParams self name p
      = (.thrown "No payload.  Is FieldMask empty?",
         ⟨p.type, p.nelem, dimensionRank strct⟩) := by
  simp only [getParams, hs, hf, dimensionRank]

/-- The plain scalar record has no field "data". -/
theorem getParams_missing_witness :
    getSubField sampleScalar "data" = none ∧
      getParams ⟨some sampleScalar⟩ "data" ⟨.pvString, 9, 9⟩
        = (.thrown "No payload.  Is FieldMask empty?", ⟨.pvString, 9, 1⟩) :=
  ⟨rfl, getParams_missing ⟨some sampleScalar⟩ sampleScalar "data" _ rfl rfl⟩

/-- Claim C7: when the name resolves to a Scalar, a ScalarArray, or a Union holding a
ScalarArray, whose encoding is the string, `getParams` throws "Unsupported string type";
it does not return, so never with the success code, and nelem is left as it was. -/
theorem getParams_string (self : PvMonitorBase) (strct : PVStructure) (name : String)
    (ptr : PVFieldPtr) (p : Params)
    (hs : self._strct = some strct)
    (hf : getSubField strct name = some ptr)
    (hk : (∃ s, ptr.field = .scalar s ∧ s.scalarType = .pvString) ∨
      ∃ a, (ptr.field = .scalarArray a ∨ ∃ n, ptr.field = .union_ n (some (.scalarArray a)))
        ∧ a.elementType = .pvString) :
    getParams self name p
        = (.thrown "Unsupported string type", ⟨.pvString, p.nelem, dimensionRank strct⟩) ∧
      (getParams self name p).1 ≠ .returned 0 := by
  have hoff := getSubFieldOffset_of_getSubField strct name ptr hf
  have h : getParams self name p
      = (.thrown "Unsupported string type", ⟨.pvString, p.nelem, dimensionRank strct⟩) := by
    rcases hk with ⟨s, hk, hty⟩ | ⟨a, hk | ⟨n, hk⟩, hty⟩
    · simp [getParams, hs, hf, hk, PVField.getType, getSubFieldOffset_PVScalar, hoff,
        PVField.asPVScalar, hty, dimensionRank]
    · simp [getParams, hs, hf, hk, PVField.getType, getSubFieldOffset_PVScalarArray, hoff,
        PVField.asPVScalarArray, hty, dimensionRank]
    · simp [getParams, hs, hf, hk, PVField.getType, getSubFieldOffset_PVUnion, hoff,
        PVField.asPVUnion, PVUnion.get_PVScalarArray, PVField.asPVScalarArray, hty,
        dimensionRank]
  refine ⟨h, ?_⟩
  rw [h]
  simp

/-- A text "value" is refused. -/
theorem getParams_string_witness :
    getSubField sampleString "value" = some ⟨1, .scalar ⟨.pvString, 0⟩⟩ ∧
      getParams ⟨some sampleString⟩ "value" ⟨.pvInt, 9, 9⟩
        = (.thrown "Unsupported string type", ⟨.pvString, 9, 1⟩) :=
  ⟨rfl, (getParams_string ⟨some sampleString⟩ sampleString "value"
      ⟨1, .scalar ⟨.pvString, 0⟩⟩ _ rfl rfl (Or.inl ⟨_, rfl, rfl⟩)).1⟩

/-! ## The timestamp accessor -/

theorem wrapSigned_64_of_range (v : Int) (h : -2 ^ 63 ≤ v ∧ v < 2 ^ 63) :
    wrapSigned 64 v = v := by
  obtain ⟨h0, h1⟩ := h
  simp only [wrapSigned]
  norm_num at h0 h1 ⊢
  omega

theorem wrapSigned_32_of_range (v : Int) (h : -2 ^ 31 ≤ v ∧ v < 2 ^ 31) :
    wrapSigned 32 v = v := by
  obtain ⟨h0, h1⟩ := h
  simp only [wrapSigned]
  norm_num at h0 h1 ⊢
  omega

/-- Claim C5: when timeStamp.secondsPastEpoch stores the integer E (a 64-bit value) and
timeStamp.nanoseconds stores the integer N (a 32-bit value), `getTimestamp` returns
seconds = E - m_epochDiff computed in 64 bits, which is the exact difference whenever
that is a 64-bit value, and nanoseconds = N unchanged. -/
theorem getTimestamp_exact (conv : Nat → PVScalar → Outcome Int) (m_epochDiff : Int)
    (self : PvMonitorBase) (strct : PVStructure) (p1 p2 : PVFieldPtr) (sE sN : PVScalar)
    (seconds nanoseconds : Int)
    (hs : self._strct = some strct)
    (h1 : getSubField strct "timeStamp.secondsPastEpoch" = some p1)
    (hk1 : p1.field = .scalar sE)
    (h2 : getSubField strct "timeStamp.nanoseconds" = some p2)
    (hk2 : p2.field = .scalar sN)
    (hi1 : sE.scalarType.isIntegral = true)
    (hi2 : sN.scalarType.isIntegral = true)
    (hE : -2 ^ 63 ≤ sE.value ∧ sE.value < 2 ^ 63)
    (hN : -2 ^ 31 ≤ sN.value ∧ sN.value < 2 ^ 31) :
    getTimestamp conv m_epochDiff self seconds nanoseconds
        = (.returned (), wrapSigned 64 (sE.value - m_epochDiff), sN.value) ∧
      (-2 ^ 63 ≤ sE.value - m_epochDiff ∧ sE.value - m_epochDiff < 2 ^ 63 →
        getTimestamp conv m_epochDiff self seconds nanoseconds
          = (.returned (), sE.value - m_epochDiff, sN.value)) := by
  have h : getTimestamp conv m_epochDiff self seconds nanoseconds
      = (.returned (), wrapSigned 64 (sE.value - m_epochDiff), sN.value) := by
    simp only [getTimestamp, hs, getSubField_PVScalar, h1, h2, hk1, hk2, Option.some_bind,
      PVField.asPVScalar, getAs, hi1, hi2, if_true, wrapSigned_64_of_range _ hE,
      wrapSigned_32_of_range _ hN]
  refine ⟨h, fun hr => ?_⟩
  rw [h, wrapSigned_64_of_range _ hr]

/-- Ten seconds after the EPICS epoch, with the epoch difference 631152000. -/
theorem getTimestamp_exact_witness :
    getSubField sampleScalar "timeStamp.secondsPastEpoch"
        = some ⟨3, .scalar ⟨.pvLong, 631152010⟩⟩ ∧
      getSubField sampleScalar "timeStamp.nanoseconds" = some ⟨4, .scalar ⟨.pvInt, 7⟩⟩ ∧
      getTimestamp (fun _ _ => .nullDeref) 631152000 ⟨some sampleScalar⟩ 0 0
        = (.returned (), 10, 7) :=
  ⟨rfl, rfl,
   (getTimestamp_exact (fun _ _ => .nullDeref) 631152000 ⟨some sampleScalar⟩ sampleScalar
      ⟨3, .scalar ⟨.pvLong, 631152010⟩⟩ ⟨4, .scalar ⟨.pvInt, 7⟩⟩ ⟨.pvLong, 631152010⟩
      ⟨.pvInt, 7⟩ 0 0 rfl rfl rfl rfl rfl rfl rfl (by decide) (by decide)).2 (by decide)⟩

/-! ## The value extractor -/

theorem _getScalar_not_unsupported (T : CType) (s : PVScalar) (data : List Nat)
    (size : Nat) (w : String) (hw : w ≠ "BufferTooSmallError") :
    (_getScalar T s data size).1 ≠ .thrown w := by
  simp only [_getScalar]
  split
  · intro h
    exact hw (Outcome.thrown.inj h).symm
  · simp

theorem _getArray_not_unsupported (T : CType) (a : PVScalarArray) (data : List Nat)
    (size : Nat) (w : String) (hw : w ≠ "BufferTooSmallError") :
    (_getArray T a data size).1 ≠ .thrown w := by
  simp only [_getArray]
  split
  · intro h
    exact hw (Outcome.thrown.inj h).symm
  · simp

/-- Claim C8: on a Scalar or ScalarArray node whose encoding is the string, `_getData`
throws and hands back the destination buffer and the size argument exactly as they
were; for each of the other eleven encodings the switch does not throw: it reaches an
instance of the template `_getScalar<T>` or `_getArray<T>` and the result is that
instance's result. -/
theorem getData_dispatch (s : PVScalar) (a : PVScalarArray) (data : List Nat) (size : Nat) :
    (s.scalarType = .pvString →
        _getData_PVScalar (some s) data size
          = (.thrown "Unsupported scalar field type", data, size)) ∧
      (a.elementType = .pvString →
        _getData_PVScalarArray (some a) data size
          = (.thrown "Unsupported scalarArray field type", data, size)) ∧
      (s.scalarType ≠ .pvString →
        (∃ T, _getData_PVScalar (some s) data size = _getScalar T s data size) ∧
        (_getData_PVScalar (some s) data size).1
          ≠ .thrown "Unsupported scalar field type") ∧
      (a.elementType ≠ .pvString →
        (∃ T, _getData_PVScalarArray (some a) data size = _getArray T a data size) ∧
        (_getData_PVScalarArray (some a) data size).1
          ≠ .thrown "Unsupported scalarArray field type") := by
  have hS : s.scalarType ≠ .pvString →
      ∃ T, _getData_PVScalar (some s) data size = _getScalar T s data size := by
    intro h
    obtain ⟨t, v⟩ := s
    cases t <;> first
      | exact absurd rfl h
      | exact ⟨_, rfl⟩
  have hA : a.elementType ≠ .pvString →
      ∃ T, _getData_PVScalarArray (some a) data size = _getArray T a data size := by
    intro h
    obtain ⟨t, vs⟩ := a
    cases t <;> first
      | exact absurd rfl h
      | exact ⟨_, rfl⟩
  refine ⟨fun h => ?_, fun h => ?_, fun h => ⟨hS h, ?_⟩, fun h => ⟨hA h, ?_⟩⟩
  · simp [_getData_PVScalar, h]
  · simp [_getData_PVScalarArray, h]
  · obtain ⟨T, hT⟩ := hS h
    rw [hT]
    exact _getScalar_not_unsupported T s data size _ (by decide)
  · obtain ⟨T, hT⟩ := hA h
    rw [hT]
    exact _getArray_not_unsupported T a data size _ (by decide)

/-- A text leaves a six-byte buffer untouched; an `int32` scalar and `int16` elements
are written through their template instances. -/
theorem getData_dispatch_witness :
    _getData_PVScalar (some ⟨.pvString, 0⟩) [9, 9, 9, 9, 9, 9] 6
        = (.thrown "Unsupported scalar field type", [9, 9, 9, 9, 9, 9], 6) ∧
      _getData_PVScalarArray (some ⟨.pvString, [0, 1]⟩) [9, 9, 9, 9, 9, 9] 6
        = (.thrown "Unsupported scalarArray field type", [9, 9, 9, 9, 9, 9], 6) ∧
      (∃ T, _getData_PVScalar (some ⟨.pvInt, 5⟩) [9, 9, 9, 9, 9, 9] 6
        = _getScalar T ⟨.pvInt, 5⟩ [9, 9, 9, 9, 9, 9] 6) ∧
      (∃ T, _getData_PVScalarArray (some ⟨.pvShort, [1, 2]⟩) [9, 9, 9, 9, 9, 9] 6
        = _getArray T ⟨.pvShort, [1, 2]⟩ [9, 9, 9, 9, 9, 9] 6) :=
  ⟨(getData_dispatch ⟨.pvString, 0⟩ ⟨.pvString, [0, 1]⟩ _ 6).1 rfl,
   (getData_dispatch ⟨.pvString, 0⟩ ⟨.pvString, [0, 1]⟩ _ 6).2.1 rfl,
   ((getData_dispatch ⟨.pvInt, 5⟩ ⟨.pvShort, [1, 2]⟩ _ 6).2.2.1 (by decide)).1,
   ((getData_dispatch ⟨.pvInt, 5⟩ ⟨.pvShort, [1, 2]⟩ _ 6).2.2.2 (by decide)).1⟩

/-! ## A union whose selected value is a scalar -/

/-- Claim C9, on the records `sampleUnionScalar` and `sampleScalar`, which differ only
in "value" being a Union holding the `int32` 5 or that scalar itself: `getParams`
returns 1 for the Union and 0 for the plain scalar. -/
theorem getParams_union_scalar_counterexample :
    getParams ⟨some sampleUnionScalar⟩ "value" ⟨.pvBoolean, 9, 9⟩
        = (.returned 1, ⟨.pvBoolean, 9, 1⟩) ∧
      getParams ⟨some sampleScalar⟩ "value" ⟨.pvBoolean, 9, 9⟩
        = (.returned 0, ⟨.pvInt, 1, 0⟩) ∧
      getParams ⟨some sampleUnionScalar⟩ "value" ⟨.pvBoolean, 9, 9⟩
        ≠ getParams ⟨some sampleScalar⟩ "value" ⟨.pvBoolean, 9, 9⟩ := by
  refine ⟨by decide, by decide, by decide⟩

/-- Claim C9, as amended: when "value" is a Union whose selected value is a Scalar of
type `int32`, `getParams("value")` does not succeed: it looks for a ScalarArray in the
Union, finds none and returns the failure code 1, leaving type and nelem as they were
and rank at the dimension length (or 1); on a tree whose "value" is a plain Scalar
`int32` it returns 0 with type `int32`, nelem 1 and rank 0. -/
theorem getParams_union_scalar (strctU strctS : PVStructure) (ptrU ptrS : PVFieldPtr)
    (n : Nat) (v : Int) (p : Params)
    (hU : getSubField strctU "value" = some ptrU)
    (hkU : ptrU.field = .union_ n (some (.scalar ⟨.pvInt, v⟩)))
    (hS : getSubField strctS "value" = some ptrS)
    (hkS : ptrS.field = .scalar ⟨.pvInt, v⟩) :
    getParams ⟨some strctU⟩ "value" p
        = (.returned 1, ⟨p.type, p.nelem, dimensionRank strctU⟩) ∧
      getParams ⟨some strctS⟩ "value" p = (.returned 0, ⟨.pvInt, 1, 0⟩) := by
  have hoffU := getSubFieldOffset_of_getSubField strctU "value" ptrU hU
  refine ⟨?_, getParams_of_scalar strctS "value" ptrS ⟨.pvInt, v⟩ p hS hkS (by simp)⟩
  simp [getParams, hU, hkU, PVField.getType, getSubFieldOffset_PVUnion, hoffU,
    PVField.asPVUnion, PVUnion.get_PVScalarArray, PVField.asPVScalarArray, dimensionRank]

/-- The two sample records. -/
theorem getParams_union_scalar_witness :
    getSubField sampleUnionScalar "value"
        = some ⟨1, .union_ 1 (some (.scalar ⟨.pvInt, 5⟩))⟩ ∧
      getSubField sampleScalar "value" = some ⟨1, .scalar ⟨.pvInt, 5⟩⟩ ∧
      getParams ⟨some sampleUnionScalar⟩ "value" ⟨.pvBoolean, 9, 9⟩
        = (.returned 1, ⟨.pvBoolean, 9, 1⟩) :=
  ⟨rfl, rfl,
   (getParams_union_scalar sampleUnionScalar sampleScalar
      ⟨1, .union_ 1 (some (.scalar ⟨.pvInt, 5⟩))⟩ ⟨1, .scalar ⟨.pvInt, 5⟩⟩ 1 5 _
      rfl rfl rfl rfl).1⟩

/-- Claim C10, on the records `sampleUnionScalar` and `sampleScalar` with a six-byte
destination: the bytes and the payload size agree, the shape is [1] for the Union and
empty for the plain scalar. -/
theorem getData_union_scalar_counterexample :
    getData ⟨some sampleUnionScalar⟩ [9, 9, 9, 9, 9, 9] 6
        = (.returned [1], [5, 0, 0, 0, 9, 9], 4) ∧
      getData ⟨some sampleScalar⟩ [9, 9, 9, 9, 9, 9] 6
        = (.returned [], [5, 0, 0, 0, 9, 9], 4) ∧
      (getData ⟨some sampleUnionScalar⟩ [9, 9, 9, 9, 9, 9] 6).1
        ≠ (getData ⟨some sampleScalar⟩ [9, 9, 9, 9, 9, 9] 6).1 := by
  refine ⟨by decide, by decide, by decide⟩

/-- Claim C10, as amended: when "value" is a Union reporting one field whose selected
value is a Scalar of type `int32`, and the destination holds at least four bytes,
`getData` writes the same buffer contents and the same payloadSize (4) as on a tree
whose "value" is a plain Scalar `int32` with that value; the plain scalar gets the empty
shape, while the Union gets what `_getDimensions` gives for the count 1, which is [1]
when the tree has no "dimension" structure array. -/
theorem getData_union_scalar (strctU strctS : PVStructure) (ptrU ptrS : PVFieldPtr)
    (v : Int) (data : List Nat) (payloadSize : Nat)
    (hU : getSubField strctU "value" = some ptrU)
    (hkU : ptrU.field = .union_ 1 (some (.scalar ⟨.pvInt, v⟩)))
    (hS : getSubField strctS "value" = some ptrS)
    (hkS : ptrS.field = .scalar ⟨.pvInt, v⟩)
    (hcap : 4 ≤ payloadSize) :
    getData ⟨some strctU⟩ data payloadSize
        = (_getDimensions ⟨some strctU⟩ 1, store (encode .int32_t v) data, 4) ∧
      getData ⟨some strctS⟩ data payloadSize
        = (.returned [], store (encode .int32_t v) data, 4) ∧
      (getSubField_PVStructureArray strctU "dimension" = none →
        getData ⟨some strctU⟩ data payloadSize
          = (.returned [1], store (encode .int32_t v) data, 4)) := by
  have hoffU := getSubFieldOffset_of_getSubField strctU "value" ptrU hU
  have hoffS := getSubFieldOffset_of_getSubField strctS "value" ptrS hS
  have hlt : ¬ payloadSize < 4 := by omega
  have hu : getData ⟨some strctU⟩ data payloadSize
      = (_getDimensions ⟨some strctU⟩ 1, store (encode .int32_t v) data, 4) := by
    simp [getData, hU, hkU, PVField.getType, getSubFieldOffset_PVUnion, hoffU,
      PVField.asPVUnion, _getData_PVUnion, PVUnion.get_PVScalar, PVField.asPVScalar,
      _getData_PVScalar, _getScalar, CType.sizeof, hlt]
  refine ⟨hu, ?_, fun hd => ?_⟩
  · simp [getData, hS, hkS, PVField.getType, getSubFieldOffset_PVScalar, hoffS,
      PVField.asPVScalar, _getData_PVScalar, _getScalar, CType.sizeof, hlt]
  · rw [hu, _getDimensions_of_absent strctU 1 hd]
    rfl

/-- The two sample records with a six-byte destination. -/
theorem getData_union_scalar_witness :
    getSubField sampleUnionScalar "value"
        = some ⟨1, .union_ 1 (some (.scalar ⟨.pvInt, 5⟩))⟩ ∧
      getSubField sampleScalar "value" = some ⟨1, .scalar ⟨.pvInt, 5⟩⟩ ∧
      getData ⟨some sampleUnionScalar⟩ [9, 9, 9, 9, 9, 9] 6
        = (.returned [1], store (encode .int32_t 5) [9, 9, 9, 9, 9, 9], 4) :=
  ⟨rfl, rfl,
   (getData_union_scalar sampleUnionScalar sampleScalar
      ⟨1, .union_ 1 (some (.scalar ⟨.pvInt, 5⟩))⟩ ⟨1, .scalar ⟨.pvInt, 5⟩⟩ 5 _ 6
      rfl rfl rfl rfl (by decide)).2.2 rfl⟩

/-! ## The extractor on a union -/

theorem _getData_PVUnion_of_count (u : PVUnion) (data : List Nat) (size : Nat)
    (h : u.numberFields ≠ 1) :
    _getData_PVUnion (some u) data size
      = (.thrown "Unsupported union field count", data, size) := by
  simp [_getData_PVUnion, h]

/-- Claim C11, at a Union with nothing selected: `getNumberFields()` reports 1, as it
does for every pvData union, so the field-count guard passes and `pvUnion->get()`, which
is null, is dereferenced; no error is thrown.  Nothing is written.  The guard itself
throws, without writing, on any other reported count. -/
theorem getData_union_empty (data : List Nat) (size : Nat) :
    _getData_PVUnion (some ⟨1, none⟩) data size = (.nullDeref, data, size) ∧
      getData ⟨some sampleEmptyUnion⟩ data size = (.nullDeref, data, size) ∧
      (∀ n v, n ≠ 1 →
        _getData_PVUnion (some ⟨n, v⟩) data size
          = (.thrown "Unsupported union field count", data, size)) := by
  refine ⟨rfl, rfl, fun n v h => ?_⟩
  exact _getData_PVUnion_of_count ⟨n, v⟩ data size h

/-- A union reporting no field at all is refused by the guard. -/
theorem getData_union_empty_witness :
    _getData_PVUnion (some ⟨0, none⟩) [9, 9, 9, 9] 4
      = (.thrown "Unsupported union field count", [9, 9, 9, 9], 4) :=
  (getData_union_empty [9, 9, 9, 9] 4).2.2 0 none (by decide)

/-- Claim C12: on a Union with exactly one active alternative, `_getData` gives what
`_getData` gives on the alternative itself (the same count, bytes and size) when that is
a Scalar or a ScalarArray, and throws "Unsupported union field type", writing nothing,
when the alternative is of any other kind. -/
theorem getData_union_alternative (data : List Nat) (size : Nat) :
    (∀ s : PVScalar,
        _getData_PVUnion (some ⟨1, some (.scalar s)⟩) data size
          = _getData_PVScalar (some s) data size) ∧
      (∀ a : PVScalarArray,
        _getData_PVUnion (some ⟨1, some (.scalarArray a)⟩) data size
          = _getData_PVScalarArray (some a) data size) ∧
      (∀ f : PVField, f.getType ≠ .scalar → f.getType ≠ .scalarArray →
        _getData_PVUnion (some ⟨1, some f⟩) data size
          = (.thrown "Unsupported union field type", data, size)) := by
  refine ⟨fun s => rfl, fun a => rfl, fun f h1 h2 => ?_⟩
  rcases f with s | a | ⟨n, v⟩ | fs | es
  · exact absurd rfl h1
  · exact absurd rfl h2
  · rfl
  · rfl
  · rfl

/-- A union inside a union, a structure and a structure array are refused. -/
theorem getData_union_alternative_witness :
    _getData_PVUnion (some ⟨1, some (.union_ 1 (some (.scalar ⟨.pvInt, 5⟩)))⟩) [9, 9, 9, 9] 4
        = (.thrown "Unsupported union field type", [9, 9, 9, 9], 4) ∧
      _getData_PVUnion (some ⟨1, some (.structure [("x", .scalar ⟨.pvInt, 1⟩)])⟩)
          [9, 9, 9, 9] 4
        = (.thrown "Unsupported union field type", [9, 9, 9, 9], 4) ∧
      _getData_PVUnion (some ⟨1, some (.structureArray [])⟩) [9, 9, 9, 9] 4
        = (.thrown "Unsupported union field type", [9, 9, 9, 9], 4) ∧
      _getData_PVUnion (some ⟨1, some (.scalar ⟨.pvInt, 5⟩)⟩) [9, 9, 9, 9] 4
        = (.returned 1, [5, 0, 0, 0], 4) :=
  ⟨(getData_union_alternative _ 4).2.2 _ (by decide) (by decide),
   (getData_union_alternative _ 4).2.2 _ (by decide) (by decide),
   (getData_union_alternative _ 4).2.2 _ (by decide) (by decide),
   ((getData_union_alternative [9, 9, 9, 9] 4).1 ⟨.pvInt, 5⟩).trans (by decide)⟩

/-! ## `getData` on a value that is not a leaf -/

/-- Claim C13: when "value" is of kind Structure or StructureArray, `getData` throws
"Unsupported field type"; the destination buffer and payloadSize are as they were. -/
theorem getData_structure (self : PvMonitorBase) (strct : PVStructure) (ptr : PVFieldPtr)
    (data : List Nat) (payloadSize : Nat)
    (hs : self._strct = some strct)
    (hf : getSubField strct "value" = some ptr)
    (hk : ptr.field.getType = .structure ∨ ptr.field.getType = .structureArray) :
    getData self data payloadSize = (.thrown "Unsupported field type", data, payloadSize) := by
  rcases hk with hk | hk <;> simp [getData, hs, hf, hk]

/-- The record whose "value" is a structure, and one whose "value" is a structure
array. -/
theorem getData_structure_witness :
    getData ⟨some sampleStructureValue⟩ [9, 9, 9, 9] 4
        = (.thrown "Unsupported field type", [9, 9, 9, 9], 4) ∧
      getData ⟨some [("value", .structureArray [some [("x", .scalar ⟨.pvInt, 1⟩)]])]⟩
          [9, 9, 9, 9] 4
        = (.thrown "Unsupported field type", [9, 9, 9, 9], 4) :=
  ⟨getData_structure ⟨some sampleStructureValue⟩ sampleStructureValue
      ⟨1, .structure [("x", .scalar ⟨.pvInt, 1⟩), ("y", .scalar ⟨.pvInt, 2⟩)]⟩ _ 4
      rfl rfl (Or.inl rfl),
   getData_structure ⟨some [("value", .structureArray [some [("x", .scalar ⟨.pvInt, 1⟩)]])]⟩
      _ ⟨1, .structureArray [some [("x", .scalar ⟨.pvInt, 1⟩)]]⟩ _ 4
      rfl rfl (Or.inr rfl)⟩

/-! ## Rank and shape -/

theorem forUnsigned_invariant {σ : Type} (P : σ → Prop) (body : Nat → σ → Outcome σ)
    (hb : ∀ i s s1, P s → body i s = .returned s1 → P s1) :
    ∀ (k i : Nat) (s r : σ), P s → forUnsigned body k i s = .returned r → P r := by
  intro k
  induction k with
  | zero =>
    intro i s r hs h
    simp only [forUnsigned, Outcome.returned.injEq] at h
    exact h ▸ hs
  | succ k ih =>
    intro i s r hs h
    simp only [forUnsigned] at h
    cases hbody : body i s with
    | returned s1 =>
      simp only [hbody] at h
      by_cases hw : i + 1 = 2 ^ 32
      · simp [hw] at h
      · simp only [hw, if_false] at h
        exact ih (i + 1) s1 r (hb i s s1 hs hbody) h
    | thrown w => simp [hbody] at h
    | nullDeref => simp [hbody] at h
    | diverges => simp [hbody] at h

theorem wrapUnsigned_lt (v : Int) : wrapUnsigned 32 v < 2 ^ 32 := by
  simp only [wrapUnsigned]
  have h1 : (0 : Int) ≤ v % 2 ^ 32 := Int.emod_nonneg _ (by norm_num)
  have h2 : v % 2 ^ 32 < 2 ^ 32 := Int.emod_lt_of_pos _ (by norm_num)
  omega

theorem _getDimensions.body_returned (es : List (Option PVStructure)) (i : Nat)
    (counts c1 : List Nat) (h : _getDimensions.body es i counts = .returned c1) :
    ∃ v, c1 = counts.set i (wrapUnsigned 32 v) := by
  simp only [_getDimensions.body] at h
  split at h
  · split at h
    · exact ⟨_, (Outcome.returned.inj h).symm⟩
    · simp at h
  · simp at h

theorem _getDimensions_shape (strct : PVStructure) (count : Nat) (shape : List Nat)
    (h : _getDimensions ⟨some strct⟩ count = .returned shape) :
    shape.length = dimensionRank strct ∧ ∀ x ∈ shape, x < 2 ^ 32 := by
  simp only [_getDimensions, dimensionRank] at h ⊢
  cases hd : getSubField_PVStructureArray strct "dimension" with
  | none =>
    simp only [hd, Outcome.returned.injEq] at h
    subst h
    refine ⟨by simp, ?_⟩
    intro x hx
    simp only [List.replicate, List.mem_singleton] at hx
    subst hx
    exact Nat.mod_lt _ (by norm_num)
  | some es =>
    simp only [hd] at h
    have hinv := forUnsigned_invariant
      (fun c : List Nat => c.length = es.length ∧ ∀ x ∈ c, x < 2 ^ 32)
      (_getDimensions.body es)
      (by
        intro i c c1 hc hbody
        obtain ⟨v, rfl⟩ := _getDimensions.body_returned es i c c1 hbody
        refine ⟨by simpa using hc.1, ?_⟩
        intro x hx
        rcases List.mem_or_eq_of_mem_set hx with hx | hx
        · exact hc.2 x hx
        · exact hx ▸ wrapUnsigned_lt v)
      _ 0 _ shape
      (by
        refine ⟨by simp, ?_⟩
        intro x hx
        rw [List.eq_of_mem_replicate hx]
        norm_num)
      h
    exact hinv

theorem _getArray_returned (T : CType) (a : PVScalarArray) (data d : List Nat)
    (size sz c : Nat) (h : _getArray T a data size = (.returned c, d, sz)) :
    c = a.values.length := by
  simp only [_getArray] at h
  split at h
  · simp at h
  · simp only [Prod.mk.injEq, Outcome.returned.injEq] at h
    exact h.1.symm

theorem _getData_PVScalarArray_returned (a : PVScalarArray) (data d : List Nat)
    (size sz c : Nat) (h : _getData_PVScalarArray (some a) data size = (.returned c, d, sz)) :
    c = a.values.length := by
  simp only [_getData_PVScalarArray] at h
  split at h
  all_goals first
    | exact _getArray_returned _ a data d size sz c h
    | simp at h

theorem getParams_returned_zero (strct : PVStructure) (name : String) (p q : Params)
    (h : getParams ⟨some strct⟩ name p = (.returned 0, q)) :
    ∃ ptr, getSubField strct name = some ptr ∧
      ((∃ s, ptr.field = .scalar s ∧ s.scalarType ≠ .pvString ∧
          q = ⟨s.scalarType, 1, 0⟩) ∨
       (∃ a, (ptr.field = .scalarArray a ∨ ∃ n, ptr.field = .union_ n (some (.scalarArray a)))
          ∧ a.elementType ≠ .pvString ∧
          q = ⟨a.elementType, a.values.length, dimensionRank strct⟩)) := by
  cases hf : getSubField strct name with
  | none => simp [getParams, hf] at h
  | some ptr =>
    have hoff := getSubFieldOffset_of_getSubField strct name ptr hf
    refine ⟨ptr, rfl, ?_⟩
    obtain ⟨o, f⟩ := ptr
    rcases f with s | a | ⟨n, v⟩ | fs | es
    · left
      by_cases hty : s.scalarType = .pvString
      · simp [getParams, hf, PVField.getType, getSubFieldOffset_PVScalar, hoff,
          PVField.asPVScalar, hty] at h
      · simp [getParams, hf, PVField.getType, getSubFieldOffset_PVScalar, hoff,
          PVField.asPVScalar, hty] at h
        exact ⟨s, rfl, hty, h.symm⟩
    · right
      by_cases hty : a.elementType = .pvString
      · simp [getParams, hf, PVField.getType, getSubFieldOffset_PVScalarArray, hoff,
          PVField.asPVScalarArray, hty] at h
      · simp [getParams, hf, PVField.getType, getSubFieldOffset_PVScalarArray, hoff,
          PVField.asPVScalarArray, hty] at h
        exact ⟨a, Or.inl rfl, hty, by rw [← h]; rfl⟩
    · right
      rcases v with _ | f
      · simp [getParams, hf, PVField.getType, getSubFieldOffset_PVUnion, hoff,
          PVField.asPVUnion, PVUnion.get_PVScalarArray] at h
      · rcases f with s | a | ⟨n1, v1⟩ | fs | es
        · simp [getParams, hf, PVField.getType, getSubFieldOffset_PVUnion, hoff,
            PVField.asPVUnion, PVUnion.get_PVScalarArray, PVField.asPVScalarArray] at h
        · by_cases hty : a.elementType = .pvString
          · simp [getParams, hf, PVField.getType, getSubFieldOffset_PVUnion, hoff,
              PVField.asPVUnion, PVUnion.get_PVScalarArray, PVField.asPVScalarArray,
              hty] at h
          · simp [getParams, hf, PVField.getType, getSubFieldOffset_PVUnion, hoff,
              PVField.asPVUnion, PVUnion.get_PVScalarArray, PVField.asPVScalarArray,
              hty] at h
            exact ⟨a, Or.inr ⟨n, rfl⟩, hty, by rw [← h]; rfl⟩
        · simp [getParams, hf, PVField.getType, getSubFieldOffset_PVUnion, hoff,
            PVField.asPVUnion, PVUnion.get_PVScalarArray, PVField.asPVScalarArray] at h
        · simp [getParams, hf, PVField.getType, getSubFieldOffset_PVUnion, hoff,
            PVField.asPVUnion, PVUnion.get_PVScalarArray, PVField.asPVScalarArray] at h
        · simp [getParams, hf, PVField.getType, getSubFieldOffset_PVUnion, hoff,
            PVField.asPVUnion, PVUnion.get_PVScalarArray, PVField.asPVScalarArray] at h
    · simp [getParams, hf, PVField.getType] at h
    · simp [getParams, hf, PVField.getType] at h

theorem getData_returned (strct : PVStructure) (data data1 : List Nat)
    (payloadSize size1 : Nat) (shape : List Nat)
    (h : getData ⟨some strct⟩ data payloadSize = (.returned shape, data1, size1)) :
    ∃ ptr, getSubField strct "value" = some ptr ∧
      ((ptr.field.getType = .scalar ∧ shape = []) ∨
       (ptr.field.getType ≠ .scalar ∧
          ∃ count, _getDimensions ⟨some strct⟩ count = .returned shape)) := by
  cases hf : getSubField strct "value" with
  | none => simp [getData, hf] at h
  | some ptr =>
    refine ⟨ptr, rfl, ?_⟩
    simp only [getData, hf] at h
    rcases hk : ptr.field.getType with _ | _ | _ | _ | _
    · left
      refine ⟨rfl, ?_⟩
      simp only [hk] at h
      rcases hres : _getData_PVScalar (getSubFieldOffset_PVScalar strct ptr.offset) data
        payloadSize with ⟨o, d, sz⟩
      rw [hres] at h
      cases o <;> simp at h
      exact h.1
    · right
      refine ⟨by simp, ?_⟩
      simp only [hk] at h
      rcases hres : _getData_PVScalarArray (getSubFieldOffset_PVScalarArray strct ptr.offset)
        data payloadSize with ⟨o, d, sz⟩
      rw [hres] at h
      cases o <;> simp at h
      exact ⟨_, h.1⟩
    · simp [hk] at h
    · simp [hk] at h
    · right
      refine ⟨by simp, ?_⟩
      simp only [hk] at h
      rcases hres : _getData_PVUnion (getSubFieldOffset_PVUnion strct ptr.offset)
        data payloadSize with ⟨o, d, sz⟩
      rw [hres] at h
      cases o <;> simp at h
      exact ⟨_, h.1⟩

theorem getData_array_returned (strct : PVStructure) (ptr : PVFieldPtr) (a : PVScalarArray)
    (data data1 : List Nat) (payloadSize size1 : Nat) (shape : List Nat)
    (hf : getSubField strct "value" = some ptr)
    (hk : ptr.field = .scalarArray a ∨ ∃ n, ptr.field = .union_ n (some (.scalarArray a)))
    (h : getData ⟨some strct⟩ data payloadSize = (.returned shape, data1, size1)) :
    _getDimensions ⟨some strct⟩ a.values.length = .returned shape := by
  have hoff := getSubFieldOffset_of_getSubField strct "value" ptr hf
  rcases hk with hk | ⟨n, hk⟩
  · simp only [getData, hf, hk, PVField.getType, getSubFieldOffset_PVScalarArray, hoff,
      Option.some_bind, PVField.asPVScalarArray] at h
    rcases hres : _getData_PVScalarArray (some a) data payloadSize with ⟨o, d, sz⟩
    rw [hres] at h
    cases o <;> simp at h
    rw [← _getData_PVScalarArray_returned a data d payloadSize sz _ hres]
    exact h.1
  · simp only [getData, hf, hk, PVField.getType, getSubFieldOffset_PVUnion, hoff,
      Option.some_bind, PVField.asPVUnion] at h
    by_cases hn : n = 1
    · subst hn
      have hu : _getData_PVUnion (some ⟨1, some (.scalarArray a)⟩) data payloadSize
          = _getData_PVScalarArray (some a) data payloadSize := rfl
      rw [hu] at h
      rcases hres : _getData_PVScalarArray (some a) data payloadSize with ⟨o, d, sz⟩
      rw [hres] at h
      cases o <;> simp at h
      rw [← _getData_PVScalarArray_returned a data d payloadSize sz _ hres]
      exact h.1
    · rw [_getData_PVUnion_of_count ⟨n, _⟩ data payloadSize hn] at h
      simp at h

/-- Claim C14: whenever `getParams("value")` returns 0 and `getData` returns a shape on
the same record tree, the rank stored by `getParams` is the length of that shape; when
"value" is a plain Scalar the rank is 0, the shape is empty and the element count is
1. -/
theorem rank_eq_shape_length (self : PvMonitorBase) (p q : Params)
    (data data1 : List Nat) (payloadSize size1 : Nat) (shape : List Nat)
    (hp : getParams self "value" p = (.returned 0, q))
    (hd : getData self data payloadSize = (.returned shape, data1, size1)) :
    q.rank = shape.length ∧
      (∀ strct ptr s, self._strct = some strct → getSubField strct "value" = some ptr →
        ptr.field = .scalar s → q.rank = 0 ∧ shape = [] ∧ q.nelem = 1) := by
  obtain ⟨strct0⟩ := self
  rcases strct0 with _ | strct
  · simp [getParams] at hp
  obtain ⟨ptr, hf, hcases⟩ := getParams_returned_zero strct "value" p q hp
  obtain ⟨ptr1, hf1, hshape⟩ := getData_returned strct data data1 payloadSize size1 shape hd
  rw [hf] at hf1
  obtain rfl := Option.some.inj hf1
  have hrank : q.rank = shape.length := by
    rcases hcases with ⟨s, hk, -, hq⟩ | ⟨a, hk, -, hq⟩
    · rcases hshape with ⟨-, hsh⟩ | ⟨hne, -⟩
      · rw [hq, hsh]; rfl
      · exact absurd (by rw [hk]; rfl) hne
    · rcases hshape with ⟨hsc, -⟩ | ⟨-, count, hdim⟩
      · rcases hk with hk | ⟨n, hk⟩ <;> simp [hk, PVField.getType] at hsc
      · rw [hq, (_getDimensions_shape strct count shape hdim).1]
  refine ⟨hrank, ?_⟩
  intro strct1 ptr1 s hs1 hf2 hk
  simp only [Option.some.injEq] at hs1
  subst hs1
  rw [hf] at hf2
  obtain rfl := Option.some.inj hf2
  rcases hcases with ⟨s1, hk1, -, hq⟩ | ⟨a, hk1, -, -⟩
  · rcases hshape with ⟨-, hsh⟩ | ⟨hne, -⟩
    · rw [hq]; exact ⟨rfl, hsh, rfl⟩
    · exact absurd (by rw [hk]; rfl) hne
  · rcases hk1 with hk1 | ⟨n, hk1⟩ <;> simp [hk] at hk1

/-- The 2 x 3 image has rank 2 and shape [3, 2]; the plain scalar has rank 0, an empty
shape and one element. -/
theorem rank_eq_shape_length_witness :
    getParams ⟨some sampleArray⟩ "value" ⟨.pvString, 9, 9⟩
        = (.returned 0, ⟨.pvShort, 6, 2⟩) ∧
      getData ⟨some sampleArray⟩ (List.replicate 12 9) 12
        = (.returned [3, 2], [1, 0, 2, 0, 3, 0, 4, 0, 5, 0, 250, 255], 12) ∧
      (2 : Nat) = [3, 2].length ∧
      getParams ⟨some sampleScalar⟩ "value" ⟨.pvString, 9, 9⟩
        = (.returned 0, ⟨.pvInt, 1, 0⟩) ∧
      getData ⟨some sampleScalar⟩ [9, 9, 9, 9] 4 = (.returned [], [5, 0, 0, 0], 4) :=
  ⟨by decide, by decide,
   (rank_eq_shape_length ⟨some sampleArray⟩ ⟨.pvString, 9, 9⟩ ⟨.pvShort, 6, 2⟩
      (List.replicate 12 9) [1, 0, 2, 0, 3, 0, 4, 0, 5, 0, 250, 255] 12 12 [3, 2]
      (by decide) (by decide)).1,
   by decide, by decide⟩

/-- Claim C15, on six `int16` elements under axes of sizes 2 and 2: `getData` succeeds
with the count 6 and the shape [2, 2], whose product is 4. -/
theorem getData_shape_product_counterexample :
    (_getData_PVScalarArray (some ⟨.pvShort, [1, 2, 3, 4, 5, 6]⟩) (List.replicate 12 9) 12).1
        = .returned 6 ∧
      getData ⟨some sampleMismatch⟩ (List.replicate 12 9) 12
        = (.returned [2, 2], [1, 0, 2, 0, 3, 0, 4, 0, 5, 0, 6, 0], 12) ∧
      ([2, 2] : List Nat).prod ≠ 6 := by
  refine ⟨by decide, by decide, by decide⟩

/-- Claim C15, as amended: when "value" is a ScalarArray, or a Union holding one, and
`getData` succeeds, the returned shape is a sequence of `uint32_t` values (non-negative
integers below 2^32).  With a "dimension" structure array (of fewer than 2^32 axes, each
carrying an integer `size`) the shape is the stored sizes, reversed and converted to
`uint32_t`, whatever the decoded element count is.  Without one the shape is the
element count narrowed to `uint32_t`, which is exactly [elementCount] for a count below
2^32. -/
theorem getData_array_shape (strct : PVStructure) (ptr : PVFieldPtr) (a : PVScalarArray)
    (data data1 : List Nat) (payloadSize size1 : Nat) (shape : List Nat)
    (hf : getSubField strct "value" = some ptr)
    (hk : ptr.field = .scalarArray a ∨ ∃ n, ptr.field = .union_ n (some (.scalarArray a)))
    (hd : getData ⟨some strct⟩ data payloadSize = (.returned shape, data1, size1)) :
    (∀ x ∈ shape, x < 2 ^ 32) ∧
      (∀ (es : List (Option PVStructure)) (sizes : List Int),
        getSubField_PVStructureArray strct "dimension" = some es →
        es.length < 2 ^ 32 → es.map descriptorSize = sizes.map some →
        shape = sizes.reverse.map (wrapUnsigned 32)) ∧
      (getSubField_PVStructureArray strct "dimension" = none →
        shape = [a.values.length % 2 ^ 32] ∧
        (a.values.length < 2 ^ 32 → shape = [a.values.length])) := by
  have hdim := getData_array_returned strct ptr a data data1 payloadSize size1 shape hf hk hd
  refine ⟨(_getDimensions_shape strct _ shape hdim).2, ?_, ?_⟩
  · intro es sizes hes hn hsz
    simp only [_getDimensions, hes, List.length_replicate] at hdim
    rw [_getDimensions.loop_eq es sizes hsz hn es.length 0 _ (by omega) (by simp)] at hdim
    rw [List.map_reverse]
    exact (Outcome.returned.inj hdim).symm
  · intro hnone
    rw [_getDimensions_of_absent strct _ hnone] at hdim
    have hsh : shape = [a.values.length % 2 ^ 32] := (Outcome.returned.inj hdim).symm
    refine ⟨hsh, fun hlt => ?_⟩
    rw [hsh, Nat.mod_eq_of_lt hlt]

/-- The six elements under the axes 2 and 2 get the shape [2, 2]; three elements
without dimension metadata get the shape [3]. -/
theorem getData_array_shape_witness :
    getData ⟨some sampleMismatch⟩ (List.replicate 12 9) 12
        = (.returned [2, 2], [1, 0, 2, 0, 3, 0, 4, 0, 5, 0, 6, 0], 12) ∧
      [2, 2] = ([2, 2] : List Int).reverse.map (wrapUnsigned 32) ∧
      getData ⟨some [("value", .scalarArray ⟨.pvUByte, [7, 8, 9]⟩)]⟩ [0, 0, 0] 3
        = (.returned [3], [7, 8, 9], 3) ∧
      [3] = [([7, 8, 9] : List Int).length] :=
  ⟨by decide,
   (getData_array_shape sampleMismatch ⟨1, .scalarArray ⟨.pvShort, [1, 2, 3, 4, 5, 6]⟩⟩
      ⟨.pvShort, [1, 2, 3, 4, 5, 6]⟩ (List.replicate 12 9)
      [1, 0, 2, 0, 3, 0, 4, 0, 5, 0, 6, 0] 12 12 [2, 2] rfl (Or.inl rfl)
      (by decide)).2.1 _ [2, 2] rfl (by decide) (by decide),
   by decide,
   ((getData_array_shape [("value", .scalarArray ⟨.pvUByte, [7, 8, 9]⟩)]
      ⟨1, .scalarArray ⟨.pvUByte, [7, 8, 9]⟩⟩ ⟨.pvUByte, [7, 8, 9]⟩ [0, 0, 0] [7, 8, 9] 3 3 [3]
      rfl (Or.inl rfl) (by decide)).2.2 rfl).2 (by decide)⟩

/-! ## Missing fields -/

theorem _getDimensions.body_of_descriptor (es : List (Option PVStructure)) (i : Nat)
    (counts : List Nat) (hi : i < es.length) (hc : counts.length = es.length) :
    _getDimensions.body es i counts =
      match descriptorSize (es.get ⟨es.length - 1 - i, by omega⟩) with
      | some v => .returned (counts.set i (wrapUnsigned 32 v))
      | none => .nullDeref := by
  have hj : es.length - 1 - i < es.length := by omega
  simp only [_getDimensions.body, hc, List.get?_eq_getElem?, List.getElem?_eq_getElem hj,
    List.get_eq_getElem]
  cases es[es.length - 1 - i] with
  | none => simp [descriptorSize]
  | some elem =>
    simp only [descriptorSize, Option.some_bind]

theorem _getDimensions.loop_of_missing (es : List (Option PVStructure))
    (hn : es.length < 2 ^ 32) :
    ∀ (k i : Nat) (counts : List Nat), i + k = es.length → counts.length = es.length →
      (∃ m, ∃ h : m < es.length, i ≤ m ∧
        descriptorSize (es.get ⟨es.length - 1 - m, by omega⟩) = none) →
      forUnsigned (_getDimensions.body es) k i counts = .nullDeref := by
  intro k
  induction k with
  | zero =>
    intro i counts hik hc hbad
    obtain ⟨m, hm, him, -⟩ := hbad
    omega
  | succ k ih =>
    intro i counts hik hc hbad
    simp only [forUnsigned]
    rw [_getDimensions.body_of_descriptor es i counts (by omega) hc]
    cases hsz : descriptorSize (es.get ⟨es.length - 1 - i, by omega⟩) with
    | none => rfl
    | some v =>
      simp only []
      rw [if_neg (by omega)]
      apply ih (i + 1) _ (by omega) (by simpa using hc)
      obtain ⟨m, hm, him, hmbad⟩ := hbad
      refine ⟨m, hm, ?_, hmbad⟩
      rcases Nat.eq_or_lt_of_le him with heq | hlt
      · subst heq
        rw [hsz] at hmbad
        simp at hmbad
      · omega

/-- Claim C16, when some per-axis descriptor of the "dimension" structure array (of
fewer than 2^32 axes) lacks an integer `size`: `_getDimensions` dereferences the null
pointer that `getSubField<PVInt>("size")` returns.  It returns no shape, so none with
a substituted default, but it throws no error either. -/
theorem getDimensions_missing_size (strct : PVStructure) (es : List (Option PVStructure))
    (count : Nat)
    (hd : getSubField_PVStructureArray strct "dimension" = some es)
    (hn : es.length < 2 ^ 32)
    (hbad : ∃ e ∈ es, descriptorSize e = none) :
    _getDimensions ⟨some strct⟩ count = .nullDeref := by
  simp only [_getDimensions, hd, List.length_replicate]
  apply _getDimensions.loop_of_missing es hn es.length 0 _ (by omega) (by simp)
  obtain ⟨e, hmem, he⟩ := hbad
  obtain ⟨j, hj, hje⟩ := List.getElem_of_mem hmem
  refine ⟨es.length - 1 - j, by omega, Nat.zero_le _, ?_⟩
  have : es.length - 1 - (es.length - 1 - j) = j := by omega
  simp only [List.get_eq_getElem, this, hje, he]

/-- The 2 x 2 image whose second axis descriptor has no `size`. -/
theorem getDimensions_missing_size_witness :
    getSubField_PVStructureArray sampleNoSize "dimension"
        = some [some [("size", .scalar ⟨.pvInt, 2⟩)], some [("offset", .scalar ⟨.pvInt, 0⟩)]] ∧
      descriptorSize (some [("offset", .scalar ⟨.pvInt, 0⟩)]) = none ∧
      _getDimensions ⟨some sampleNoSize⟩ 4 = .nullDeref :=
  ⟨rfl, by decide,
   getDimensions_missing_size sampleNoSize _ 4 rfl (by decide)
     ⟨some [("offset", .scalar ⟨.pvInt, 0⟩)], by simp, by decide⟩⟩

/-- Claim C17, when timeStamp.secondsPastEpoch is absent, or is an integer while
timeStamp.nanoseconds is absent: `getTimestamp` dereferences the null pointer that
`getSubField<PVScalar>` returns.  It returns no pair, but it throws no error either; in
the second case `seconds` has already been overwritten. -/
theorem getTimestamp_missing (conv : Nat → PVScalar → Outcome Int) (m_epochDiff : Int)
    (strct : PVStructure) (seconds nanoseconds : Int) :
    (getSubField_PVScalar strct "timeStamp.secondsPastEpoch" = none →
        getTimestamp conv m_epochDiff ⟨some strct⟩ seconds nanoseconds
          = (.nullDeref, seconds, nanoseconds)) ∧
      (∀ sE, getSubField_PVScalar strct "timeStamp.secondsPastEpoch" = some sE →
        sE.scalarType.isIntegral = true →
        getSubField_PVScalar strct "timeStamp.nanoseconds" = none →
        getTimestamp conv m_epochDiff ⟨some strct⟩ seconds nanoseconds
          = (.nullDeref, wrapSigned 64 sE.value, nanoseconds)) := by
  constructor
  · intro h1
    simp only [getTimestamp, h1]
  · intro sE h1 hi h2
    simp only [getTimestamp, h1, h2, getAs, hi, if_true]

/-- A record without "timeStamp", and one whose "timeStamp" has no nanoseconds. -/
theorem getTimestamp_missing_witness :
    getSubField sampleNoTimeStamp "timeStamp.secondsPastEpoch" = none ∧
      getTimestamp (fun _ _ => .returned 0) 631152000 ⟨some sampleNoTimeStamp⟩ 1 2
        = (.nullDeref, 1, 2) ∧
      getSubField sampleNoNanoseconds "timeStamp.nanoseconds" = none ∧
      getTimestamp (fun _ _ => .returned 0) 631152000 ⟨some sampleNoNanoseconds⟩ 1 2
        = (.nullDeref, 631152010, 2) :=
  ⟨rfl,
   (getTimestamp_missing (fun _ _ => .returned 0) 631152000 sampleNoTimeStamp 1 2).1 rfl,
   rfl,
   ((getTimestamp_missing (fun _ _ => .returned 0) 631152000 sampleNoNanoseconds 1 2).2
      ⟨.pvLong, 631152010⟩ rfl rfl rfl).trans (by decide)⟩

/-! ## What the extractor writes -/

theorem toBytes_length : ∀ (w n : Nat), (toBytes w n).length = w := by
  intro w
  induction w with
  | zero => intro n; rfl
  | succ w ih => intro n; simp [toBytes, ih]

theorem toBytes_lt : ∀ (w n b : Nat), b ∈ toBytes w n → b < 256 := by
  intro w
  induction w with
  | zero => intro n b h; simp [toBytes] at h
  | succ w ih =>
    intro n b h
    simp only [toBytes, List.mem_cons] at h
    rcases h with h | h
    · rw [h]; exact Nat.mod_lt _ (by norm_num)
    · exact ih _ b h

theorem fromBytes_toBytes : ∀ (w n : Nat), fromBytes (toBytes w n) = n % 256 ^ w := by
  intro w
  induction w with
  | zero => intro n; simp [toBytes, fromBytes, Nat.mod_one]
  | succ w ih =>
    intro n
    simp only [toBytes, fromBytes, ih]
    rw [pow_succ', Nat.mod_mul]

theorem wrapUnsigned_cast (bits : Nat) (v : Int) :
    ((wrapUnsigned bits v : Nat) : Int) = v % 2 ^ bits := by
  simp only [wrapUnsigned]
  exact Int.toNat_of_nonneg (Int.emod_nonneg _ (by positivity))

theorem wrapUnsigned_lt_pow (bits : Nat) (v : Int) : wrapUnsigned bits v < 2 ^ bits := by
  have h := wrapUnsigned_cast bits v
  have h2 : v % 2 ^ bits < 2 ^ bits := Int.emod_lt_of_pos _ (by positivity)
  have h3 : ((wrapUnsigned bits v : Nat) : Int) < ((2 ^ bits : Nat) : Int) := by
    rw [h]; exact_mod_cast h2
  exact_mod_cast h3

theorem representation_length (w : Nat) (v : Int) : (representation w v).length = w :=
  toBytes_length _ _

theorem fromBytes_representation (w : Nat) (v : Int) :
    fromBytes (representation w v) = wrapUnsigned (8 * w) v := by
  simp only [representation, fromBytes_toBytes]
  apply Nat.mod_eq_of_lt
  have h := wrapUnsigned_lt_pow (8 * w) v
  rwa [pow_mul] at h

theorem _getScalar_of_capacity (T : CType) (s : PVScalar) (data : List Nat) (size : Nat)
    (h : T.sizeof ≤ size) :
    _getScalar T s data size
      = (.returned 1, representation T.sizeof s.value ++ data.drop T.sizeof, T.sizeof) := by
  simp [_getScalar, store, encode, representation, toBytes_length, Nat.not_lt.mpr h]

theorem _getScalar_of_small (T : CType) (s : PVScalar) (data : List Nat) (size : Nat)
    (h : size < T.sizeof) :
    _getScalar T s data size = (.thrown "BufferTooSmallError", data, size) := by
  simp [_getScalar, h]

theorem _getData_PVScalar_eq (s : PVScalar) (data : List Nat) (size : Nat)
    (hty : s.scalarType ≠ .pvString) :
    ∃ T, _getData_PVScalar (some s) data size = _getScalar T s data size ∧
      T.sizeof = encodingWidth s.scalarType := by
  obtain ⟨t, v⟩ := s
  cases t <;> first
    | exact absurd rfl hty
    | exact ⟨_, rfl, rfl⟩

/-- Claim C18: on a Scalar node of any of the eleven encodings, given room for it,
`_getData` writes exactly the width of the encoding in bytes (1 for bool, int8, uint8;
2 for int16, uint16; 4 for int32, uint32, float32; 8 for int64, uint64, float64), these
bytes are the stored value's representation at that width, and that byte count is
reported as the size. -/
theorem getData_scalar_bytes (s : PVScalar) (data : List Nat) (size : Nat)
    (hty : s.scalarType ≠ .pvString)
    (hcap : encodingWidth s.scalarType ≤ size) :
    _getData_PVScalar (some s) data size
        = (.returned 1,
           representation (encodingWidth s.scalarType) s.value
             ++ data.drop (encodingWidth s.scalarType),
           encodingWidth s.scalarType) ∧
      (representation (encodingWidth s.scalarType) s.value).length
        = encodingWidth s.scalarType ∧
      (∀ b ∈ representation (encodingWidth s.scalarType) s.value, b < 256) ∧
      ((fromBytes (representation (encodingWidth s.scalarType) s.value) : Nat) : Int)
        = s.value % 2 ^ (8 * encodingWidth s.scalarType) ∧
      (0 ≤ s.value ∧ s.value < 2 ^ (8 * encodingWidth s.scalarType) →
        ((fromBytes (representation (encodingWidth s.scalarType) s.value) : Nat) : Int)
          = s.value) ∧
      (-2 ^ (8 * encodingWidth s.scalarType - 1) ≤ s.value ∧
          s.value < 2 ^ (8 * encodingWidth s.scalarType - 1) →
        wrapSigned (8 * encodingWidth s.scalarType)
            (fromBytes (representation (encodingWidth s.scalarType) s.value) : Nat)
          = s.value) := by
  obtain ⟨T, hdisp, hT⟩ := _getData_PVScalar_eq s data size hty
  have hmod : ((fromBytes (representation (encodingWidth s.scalarType) s.value) : Nat) : Int)
      = s.value % 2 ^ (8 * encodingWidth s.scalarType) := by
    rw [fromBytes_representation, wrapUnsigned_cast]
  have hpos : 0 < encodingWidth s.scalarType := by
    obtain ⟨t, v⟩ := s
    cases t <;> first
      | exact absurd rfl hty
      | (simp [encodingWidth])
  refine ⟨?_, representation_length _ _, fun b hb => toBytes_lt _ _ b hb, hmod, ?_, ?_⟩
  · rw [hdisp, _getScalar_of_capacity T s data size (hT ▸ hcap), hT]
  · intro ⟨h0, h1⟩
    rw [hmod]
    exact Int.emod_eq_of_lt h0 h1
  · intro ⟨h0, h1⟩
    rw [hmod]
    simp only [wrapSigned]
    have hsplit : (2 : Int) ^ (8 * encodingWidth s.scalarType)
        = 2 * 2 ^ (8 * encodingWidth s.scalarType - 1) := by
      rw [← pow_succ']
      congr 1
      omega
    have hp : (0 : Int) < 2 ^ (8 * encodingWidth s.scalarType - 1) := by positivity
    rw [Int.emod_add_emod, hsplit]
    generalize (2 : Int) ^ (8 * encodingWidth s.scalarType - 1) = H at h0 h1 hp ⊢
    rw [Int.emod_eq_of_lt (by omega) (by omega)]
    omega

/-- The `int32` -2 is written as FE FF FF FF into a six-byte buffer, the `float64` 1.0
(bit pattern 0x3FF0000000000000) as eight bytes, and -2 is read back from its bytes. -/
theorem getData_scalar_bytes_witness :
    _getData_PVScalar (some ⟨.pvInt, -2⟩) [9, 9, 9, 9, 9, 9] 6
        = (.returned 1, [254, 255, 255, 255, 9, 9], 4) ∧
      _getData_PVScalar (some ⟨.pvDouble, 4607182418800017408⟩) [9, 9, 9, 9, 9, 9, 9, 9] 8
        = (.returned 1, [0, 0, 0, 0, 0, 0, 240, 63], 8) ∧
      wrapSigned 32 (fromBytes [254, 255, 255, 255] : Nat) = -2 :=
  ⟨(getData_scalar_bytes ⟨.pvInt, -2⟩ [9, 9, 9, 9, 9, 9] 6 (by decide) (by decide)).1.trans
      (by decide),
   (getData_scalar_bytes ⟨.pvDouble, 4607182418800017408⟩ [9, 9, 9, 9, 9, 9, 9, 9] 8
      (by decide) (by decide)).1.trans rfl,
   by decide⟩

theorem flatten_representation_length (w : Nat) (vs : List Int) :
    ((vs.map (representation w)).flatten).length = vs.length * w := by
  induction vs with
  | nil => simp
  | cons v vs ih =>
    simp only [List.map_cons, List.flatten_cons, List.length_append, ih,
      representation_length, List.length_cons]
    ring

theorem _getArray_of_capacity (T : CType) (a : PVScalarArray) (data : List Nat) (size : Nat)
    (h : a.values.length * T.sizeof ≤ size) :
    _getArray T a data size
      = (.returned a.values.length,
         (a.values.map (representation T.sizeof)).flatten
           ++ data.drop (a.values.length * T.sizeof),
         a.values.length * T.sizeof) := by
  have henc : encode T = representation T.sizeof := by
    funext v
    rfl
  simp only [_getArray, store, henc, flatten_representation_length, Nat.not_lt.mpr h,
    if_false]

theorem _getArray_of_small (T : CType) (a : PVScalarArray) (data : List Nat) (size : Nat)
    (h : size < a.values.length * T.sizeof) :
    _getArray T a data size = (.thrown "BufferTooSmallError", data, size) := by
  simp [_getArray, h]

theorem _getData_PVScalarArray_eq (a : PVScalarArray) (data : List Nat) (size : Nat)
    (hty : a.elementType ≠ .pvString) :
    ∃ T, _getData_PVScalarArray (some a) data size = _getArray T a data size ∧
      T.sizeof = encodingWidth a.elementType := by
  obtain ⟨t, vs⟩ := a
  cases t <;> first
    | exact absurd rfl hty
    | exact ⟨_, rfl, rfl⟩

theorem elements_flatten (w : Nat) (vs : List Int) (rest : List Nat) :
    elements w vs.length ((vs.map (representation w)).flatten ++ rest)
      = vs.map (wrapUnsigned (8 * w)) := by
  induction vs with
  | nil => rfl
  | cons v vs ih =>
    simp only [List.map_cons, List.flatten_cons, List.length_cons, elements,
      List.append_assoc]
    have hl := representation_length w v
    rw [List.take_left' hl, List.drop_left' hl, ih, fromBytes_representation]

/-- Claim C19: on a ScalarArray node of length N whose element type is one of the
eleven encodings, given a destination with room for it, `_getData` reports N times the
element width as the bytes written, returns the count N, and the bytes written are the
representations of the source elements in source order, so that reading them back gives
the source sequence; `getData` on a record whose "value" is that array hands the same
bytes and size to its caller. -/
theorem getData_array_bytes (a : PVScalarArray) (data : List Nat) (size : Nat)
    (hty : a.elementType ≠ .pvString)
    (hcap : a.values.length * encodingWidth a.elementType ≤ size) :
    _getData_PVScalarArray (some a) data size
        = (.returned a.values.length,
           (a.values.map (representation (encodingWidth a.elementType))).flatten
             ++ data.drop (a.values.length * encodingWidth a.elementType),
           a.values.length * encodingWidth a.elementType) ∧
      ((a.values.map (representation (encodingWidth a.elementType))).flatten).length
        = a.values.length * encodingWidth a.elementType ∧
      elements (encodingWidth a.elementType) a.values.length
          ((a.values.map (representation (encodingWidth a.elementType))).flatten
            ++ data.drop (a.values.length * encodingWidth a.elementType))
        = a.values.map (wrapUnsigned (8 * encodingWidth a.elementType)) ∧
      (∀ (strct : PVStructure) (ptr : PVFieldPtr),
        getSubField strct "value" = some ptr → ptr.field = .scalarArray a →
        getData ⟨some strct⟩ data size
          = (_getDimensions ⟨some strct⟩ a.values.length,
             (a.values.map (representation (encodingWidth a.elementType))).flatten
               ++ data.drop (a.values.length * encodingWidth a.elementType),
             a.values.length * encodingWidth a.elementType)) := by
  obtain ⟨T, hdisp, hT⟩ := _getData_PVScalarArray_eq a data size hty
  have hres : _getData_PVScalarArray (some a) data size
      = (.returned a.values.length,
         (a.values.map (representation (encodingWidth a.elementType))).flatten
           ++ data.drop (a.values.length * encodingWidth a.elementType),
         a.values.length * encodingWidth a.elementType) := by
    rw [hdisp, _getArray_of_capacity T a data size (hT ▸ hcap), hT]
  refine ⟨hres, flatten_representation_length _ _, elements_flatten _ _ _, ?_⟩
  intro strct ptr hf hk
  have hoff := getSubFieldOffset_of_getSubField strct "value" ptr hf
  simp only [getData, hf, hk, PVField.getType, getSubFieldOffset_PVScalarArray, hoff,
    Option.some_bind, PVField.asPVScalarArray, hres]

/-- The `float32` values 1.0, 2.0, 3.0 and 4.0 under the axes 2 and 2: sixteen bytes,
the IEEE-754 encodings in order, and the shape [2, 2]. -/
theorem getData_array_bytes_witness :
    _getData_PVScalarArray
        (some ⟨.pvFloat, [1065353216, 1073741824, 1077936128, 1082130432]⟩)
        (List.replicate 16 9) 16
        = (.returned 4, [0, 0, 128, 63, 0, 0, 0, 64, 0, 0, 64, 64, 0, 0, 128, 64], 16) ∧
      getData ⟨some sampleFloatImage⟩ (List.replicate 16 9) 16
        = (.returned [2, 2], [0, 0, 128, 63, 0, 0, 0, 64, 0, 0, 64, 64, 0, 0, 128, 64], 16) ∧
      elements 4 4 [0, 0, 128, 63, 0, 0, 0, 64, 0, 0, 64, 64, 0, 0, 128, 64]
        = [1065353216, 1073741824, 1077936128, 1082130432] :=
  ⟨(getData_array_bytes ⟨.pvFloat, [1065353216, 1073741824, 1077936128, 1082130432]⟩
      (List.replicate 16 9) 16 (by decide) (by decide)).1.trans (by decide),
   ((getData_array_bytes ⟨.pvFloat, [1065353216, 1073741824, 1077936128, 1082130432]⟩
      (List.replicate 16 9) 16 (by decide) (by decide)).2.2.2 sampleFloatImage
      ⟨1, .scalarArray ⟨.pvFloat, [1065353216, 1073741824, 1077936128, 1082130432]⟩⟩
      rfl rfl).trans (by decide),
   by decide⟩

/-! ## A destination that is too small -/

/-- Claim C20: on a record whose "value" resolves to a payload (a Scalar or ScalarArray
of one of the eleven encodings, or a Union reporting one field that holds one), a
destination capacity, the incoming payloadSize, below the bytes the payload needs makes
`getData` throw "BufferTooSmallError"; the destination and payloadSize are as they were,
so nothing is written, not even a part. -/
theorem getData_buffer_too_small (self : PvMonitorBase) (strct : PVStructure)
    (ptr : PVFieldPtr) (need : Nat) (data : List Nat) (payloadSize : Nat)
    (hs : self._strct = some strct)
    (hf : getSubField strct "value" = some ptr)
    (hneed : ptr.field.payloadBytes = some need)
    (hlt : payloadSize < need) :
    getData self data payloadSize = (.thrown "BufferTooSmallError", data, payloadSize) := by
  have hoff := getSubFieldOffset_of_getSubField strct "value" ptr hf
  have hS : ∀ s : PVScalar, s.scalarType ≠ .pvString →
      payloadSize < encodingWidth s.scalarType →
      _getData_PVScalar (some s) data payloadSize
        = (.thrown "BufferTooSmallError", data, payloadSize) := by
    intro s hty h
    obtain ⟨T, hdisp, hT⟩ := _getData_PVScalar_eq s data payloadSize hty
    rw [hdisp, _getScalar_of_small T s data payloadSize (hT ▸ h)]
  have hA : ∀ a : PVScalarArray, a.elementType ≠ .pvString →
      payloadSize < a.values.length * encodingWidth a.elementType →
      _getData_PVScalarArray (some a) data payloadSize
        = (.thrown "BufferTooSmallError", data, payloadSize) := by
    intro a hty h
    obtain ⟨T, hdisp, hT⟩ := _getData_PVScalarArray_eq a data payloadSize hty
    rw [hdisp, _getArray_of_small T a data payloadSize (hT ▸ h)]
  obtain ⟨o, f⟩ := ptr
  simp only at hneed hoff
  rcases f with s | a | ⟨n, v⟩ | fs | es
  · by_cases hty : s.scalarType = .pvString
    · simp [PVField.payloadBytes, hty] at hneed
    · simp only [PVField.payloadBytes, hty, if_false, Option.some.injEq] at hneed
      subst hneed
      simp only [getData, hs, hf, PVField.getType, getSubFieldOffset_PVScalar, hoff,
        Option.some_bind, PVField.asPVScalar, hS s hty hlt]
  · by_cases hty : a.elementType = .pvString
    · simp [PVField.payloadBytes, hty] at hneed
    · simp only [PVField.payloadBytes, hty, if_false, Option.some.injEq] at hneed
      subst hneed
      simp only [getData, hs, hf, PVField.getType, getSubFieldOffset_PVScalarArray, hoff,
        Option.some_bind, PVField.asPVScalarArray, hA a hty hlt]
  · rcases v with _ | f
    · simp [PVField.payloadBytes] at hneed
    · rcases f with s | a | ⟨n1, v1⟩ | fs | es
      · by_cases hc : n = 1 ∧ s.scalarType ≠ .pvString
        · simp only [PVField.payloadBytes, hc, and_self, if_true, Option.some.injEq,
            ne_eq, not_false_eq_true] at hneed
          subst hneed
          obtain ⟨rfl, hty⟩ := hc
          have hu : _getData_PVUnion (some ⟨1, some (.scalar s)⟩) data payloadSize
              = _getData_PVScalar (some s) data payloadSize := rfl
          simp only [getData, hs, hf, PVField.getType, getSubFieldOffset_PVUnion, hoff,
            Option.some_bind, PVField.asPVUnion, hu, hS s hty hlt]
        · simp [PVField.payloadBytes, hc] at hneed
      · by_cases hc : n = 1 ∧ a.elementType ≠ .pvString
        · simp only [PVField.payloadBytes, hc, and_self, if_true, Option.some.injEq,
            ne_eq, not_false_eq_true] at hneed
          subst hneed
          obtain ⟨rfl, hty⟩ := hc
          have hu : _getData_PVUnion (some ⟨1, some (.scalarArray a)⟩) data payloadSize
              = _getData_PVScalarArray (some a) data payloadSize := rfl
          simp only [getData, hs, hf, PVField.getType, getSubFieldOffset_PVUnion, hoff,
            Option.some_bind, PVField.asPVUnion, hu, hA a hty hlt]
        · simp [PVField.payloadBytes, hc] at hneed
      · simp [PVField.payloadBytes] at hneed
      · simp [PVField.payloadBytes] at hneed
      · simp [PVField.payloadBytes] at hneed
  · simp [PVField.payloadBytes] at hneed
  · simp [PVField.payloadBytes] at hneed

/-- Fifteen bytes for the sixteen of the `float32` image, three bytes for an `int32`
scalar, and five bytes for the six pixels held in a union. -/
theorem getData_buffer_too_small_witness :
    getData ⟨some sampleFloatImage⟩ (List.replicate 16 9) 15
        = (.thrown "BufferTooSmallError", List.replicate 16 9, 15) ∧
      getData ⟨some sampleScalar⟩ [9, 9, 9, 9] 3
        = (.thrown "BufferTooSmallError", [9, 9, 9, 9], 3) ∧
      getData ⟨some sampleNDArray⟩ [9, 9, 9, 9, 9, 9] 5
        = (.thrown "BufferTooSmallError", [9, 9, 9, 9, 9, 9], 5) :=
  ⟨getData_buffer_too_small ⟨some sampleFloatImage⟩ sampleFloatImage
      ⟨1, .scalarArray ⟨.pvFloat, [1065353216, 1073741824, 1077936128, 1082130432]⟩⟩ 16
      _ 15 rfl rfl rfl (by decide),
   getData_buffer_too_small ⟨some sampleScalar⟩ sampleScalar ⟨1, .scalar ⟨.pvInt, 5⟩⟩ 4
      _ 3 rfl rfl rfl (by decide),
   getData_buffer_too_small ⟨some sampleNDArray⟩ sampleNDArray
      ⟨1, .union_ 1 (some (.scalarArray ⟨.pvUByte, [10, 20, 30, 40, 50, 60]⟩))⟩ 6
      _ 5 rfl rfl rfl (by decide)⟩

/-! ## `getParams` on a field that is not a leaf -/

/-- Claim C24: when the name resolves to a field of kind Structure or StructureArray,
`getParams` returns the failure code 1 without throwing; type and nelem are as they
were, while rank has already been overwritten with the length of the "dimension"
structure array, or 1 without one. -/
theorem getParams_structure (self : PvMonitorBase) (strct : PVStructure) (name : String)
    (ptr : PVFieldPtr) (p : Params)
    (hs : self._strct = some strct)
    (hf : getSubField strct name = some ptr)
    (hk : ptr.field.getType = .structure ∨ ptr.field.getType = .structureArray) :
    (∀ es, getSubField_PVStructureArray strct "dimension" = some es →
        getParams self name p = (.returned 1, ⟨p.type, p.nelem, es.length⟩)) ∧
      (getSubField_PVStructureArray strct "dimension" = none →
        getParams self name p = (.returned 1, ⟨p.type, p.nelem, 1⟩)) := by
  constructor
  · intro es hd
    rcases hk with hk | hk <;> simp [getParams, hs, hf, hk, hd]
  · intro hd
    rcases hk with hk | hk <;> simp [getParams, hs, hf, hk, hd]

/-- Asking for "timeStamp", a structure, and for "dimension", a structure array, in
the 2 x 3 image record; asking for "timeStamp" in a record without dimensions. -/
theorem getParams_structure_witness :
    getParams ⟨some sampleArray⟩ "timeStamp" ⟨.pvBoolean, 9, 9⟩
        = (.returned 1, ⟨.pvBoolean, 9, 2⟩) ∧
      getParams ⟨some sampleArray⟩ "dimension" ⟨.pvBoolean, 9, 9⟩
        = (.returned 1, ⟨.pvBoolean, 9, 2⟩) ∧
      getParams ⟨some sampleScalar⟩ "timeStamp" ⟨.pvBoolean, 9, 9⟩
        = (.returned 1, ⟨.pvBoolean, 9, 1⟩) :=
  ⟨(getParams_structure ⟨some sampleArray⟩ sampleArray "timeStamp" ⟨2, sampleTimeStamp⟩ _
      rfl rfl (Or.inl rfl)).1 _ rfl,
   (getParams_structure ⟨some sampleArray⟩ sampleArray "dimension"
      ⟨6, .structureArray
        [some [("size", .scalar ⟨.pvInt, 2⟩), ("offset", .scalar ⟨.pvInt, 0⟩)],
         some [("size", .scalar ⟨.pvInt, 3⟩), ("offset", .scalar ⟨.pvInt, 0⟩)]]⟩ _
      rfl rfl (Or.inr rfl)).1 _ rfl,
   (getParams_structure ⟨some sampleScalar⟩ sampleScalar "timeStamp" ⟨2, sampleTimeStamp⟩ _
      rfl rfl (Or.inl rfl)).2 rfl⟩

/-! ## From `getParams` to `getData` -/

theorem forUnsigned_not_thrown {σ : Type} (body : Nat → σ → Outcome σ)
    (hb : ∀ i s w, body i s ≠ .thrown w) :
    ∀ (k i : Nat) (s : σ) (w : String), forUnsigned body k i s ≠ .thrown w := by
  intro k
  induction k with
  | zero => intro i s w h; simp [forUnsigned] at h
  | succ k ih =>
    intro i s w h
    simp only [forUnsigned] at h
    cases hbody : body i s with
    | returned s1 =>
      simp only [hbody] at h
      by_cases hw : i + 1 = 2 ^ 32
      · simp [hw] at h
      · simp only [hw, if_false] at h
        exact ih _ _ _ h
    | thrown w1 => exact hb i s w1 hbody
    | nullDeref => simp [hbody] at h
    | diverges => simp [hbody] at h

theorem _getDimensions_not_thrown (self : PvMonitorBase) (count : Nat) (w : String) :
    _getDimensions self count ≠ .thrown w := by
  simp only [_getDimensions]
  split
  · simp
  · split
    · apply forUnsigned_not_thrown
      intro i s w1 h
      simp only [_getDimensions.body] at h
      split at h
      · split at h <;> simp at h
      · simp at h
    · simp

theorem _getScalar_thrown (T : CType) (s : PVScalar) (data : List Nat) (size : Nat)
    (w : String) (h : (_getScalar T s data size).1 = .thrown w) :
    w = "BufferTooSmallError" := by
  by_contra hne
  exact _getScalar_not_unsupported T s data size w hne h

theorem _getArray_thrown (T : CType) (a : PVScalarArray) (data : List Nat) (size : Nat)
    (w : String) (h : (_getArray T a data size).1 = .thrown w) :
    w = "BufferTooSmallError" := by
  by_contra hne
  exact _getArray_not_unsupported T a data size w hne h

/-- Claim C25: when `getParams("value")` returns 0, the value is a Scalar, a
ScalarArray or a Union holding a ScalarArray, with one of the eleven encodings, and,
a Union reporting exactly one field, the dispatch of `getData` on the same tree reaches
the template instance of that encoding: `getData` throws none of the unsupported-kind,
unsupported-type or field-count errors (the only throw left is that of a destination
too small). -/
theorem getData_after_getParams (self : PvMonitorBase) (strct : PVStructure)
    (p q : Params) (data : List Nat) (payloadSize : Nat)
    (hs : self._strct = some strct)
    (hp : getParams self "value" p = (.returned 0, q))
    (hu : ∀ ptr n v, getSubField strct "value" = some ptr → ptr.field = .union_ n v → n = 1) :
    (∃ ptr, getSubField strct "value" = some ptr ∧
      ((∃ s T, ptr.field = .scalar s ∧ s.scalarType ≠ .pvString ∧
          _getData_PVScalar (getSubFieldOffset_PVScalar strct ptr.offset) data payloadSize
            = _getScalar T s data payloadSize) ∨
       (∃ a T, ptr.field = .scalarArray a ∧ a.elementType ≠ .pvString ∧
          _getData_PVScalarArray (getSubFieldOffset_PVScalarArray strct ptr.offset)
              data payloadSize
            = _getArray T a data payloadSize) ∨
       (∃ a T, ptr.field = .union_ 1 (some (.scalarArray a)) ∧ a.elementType ≠ .pvString ∧
          _getData_PVUnion (getSubFieldOffset_PVUnion strct ptr.offset) data payloadSize
            = _getArray T a data payloadSize))) ∧
      (∀ w, (getData self data payloadSize).1 = .thrown w → w = "BufferTooSmallError") := by
  obtain ⟨strct0⟩ := self
  simp only at hs
  subst hs
  obtain ⟨ptr, hf, hcases⟩ := getParams_returned_zero strct "value" p q hp
  have hoff := getSubFieldOffset_of_getSubField strct "value" ptr hf
  rcases hcases with ⟨s, hk, hty, -⟩ | ⟨a, hk | ⟨n, hk⟩, hty, -⟩
  · obtain ⟨T, hT, -⟩ := _getData_PVScalar_eq s data payloadSize hty
    have hdisp : _getData_PVScalar (getSubFieldOffset_PVScalar strct ptr.offset) data
        payloadSize = _getScalar T s data payloadSize := by
      simp only [getSubFieldOffset_PVScalar, hoff, hk, Option.some_bind,
        PVField.asPVScalar, hT]
    refine ⟨⟨ptr, hf, Or.inl ⟨s, T, hk, hty, hdisp⟩⟩, ?_⟩
    intro w hw
    simp only [getData, hf, hk, PVField.getType, hdisp] at hw
    rcases hres : _getScalar T s data payloadSize with ⟨o, d, sz⟩
    rw [hres] at hw
    cases o <;> simp at hw
    apply _getScalar_thrown T s data payloadSize w
    rw [hres, hw]
  · obtain ⟨T, hT, -⟩ := _getData_PVScalarArray_eq a data payloadSize hty
    have hdisp : _getData_PVScalarArray (getSubFieldOffset_PVScalarArray strct ptr.offset)
        data payloadSize = _getArray T a data payloadSize := by
      simp only [getSubFieldOffset_PVScalarArray, hoff, hk, Option.some_bind,
        PVField.asPVScalarArray, hT]
    refine ⟨⟨ptr, hf, Or.inr (Or.inl ⟨a, T, hk, hty, hdisp⟩)⟩, ?_⟩
    intro w hw
    simp only [getData, hf, hk, PVField.getType, hdisp] at hw
    rcases hres : _getArray T a data payloadSize with ⟨o, d, sz⟩
    rw [hres] at hw
    cases o <;> simp at hw
    · exact absurd hw (_getDimensions_not_thrown _ _ w)
    · apply _getArray_thrown T a data payloadSize w
      rw [hres, hw]
  · obtain rfl := hu ptr n _ hf hk
    obtain ⟨T, hT, -⟩ := _getData_PVScalarArray_eq a data payloadSize hty
    have hdisp : _getData_PVUnion (getSubFieldOffset_PVUnion strct ptr.offset)
        data payloadSize = _getArray T a data payloadSize := by
      simp only [getSubFieldOffset_PVUnion, hoff, hk, Option.some_bind,
        PVField.asPVUnion, ← hT]
      rfl
    refine ⟨⟨ptr, hf, Or.inr (Or.inr ⟨a, T, hk, hty, hdisp⟩)⟩, ?_⟩
    intro w hw
    simp only [getData, hf, hk, PVField.getType, hdisp] at hw
    rcases hres : _getArray T a data payloadSize with ⟨o, d, sz⟩
    rw [hres] at hw
    cases o <;> simp at hw
    · exact absurd hw (_getDimensions_not_thrown _ _ w)
    · apply _getArray_thrown T a data payloadSize w
      rw [hres, hw]

/-- The area-detector record: `getParams` returns 0 and `getData` reaches the `uint8`
instance, which refuses a destination of five bytes and gets nothing else wrong. -/
theorem getData_after_getParams_witness :
    getParams ⟨some sampleNDArray⟩ "value" ⟨.pvString, 9, 9⟩
        = (.returned 0, ⟨.pvUByte, 6, 2⟩) ∧
      getData ⟨some sampleNDArray⟩ [9, 9, 9, 9, 9, 9] 6
        = (.returned [2, 3], [10, 20, 30, 40, 50, 60], 6) ∧
      (∀ w, (getData ⟨some sampleNDArray⟩ [9, 9, 9, 9, 9, 9] 5).1 = .thrown w →
        w = "BufferTooSmallError") :=
  ⟨by decide, by decide,
   (getData_after_getParams ⟨some sampleNDArray⟩ sampleNDArray ⟨.pvString, 9, 9⟩
      ⟨.pvUByte, 6, 2⟩ [9, 9, 9, 9, 9, 9] 5 rfl (by decide)
      (by
        intro ptr n v hf hk
        have h : getSubField sampleNDArray "value"
            = some ⟨1, .union_ 1 (some (.scalarArray ⟨.pvUByte, [10, 20, 30, 40, 50, 60]⟩))⟩ :=
          rfl
        rw [h] at hf
        obtain rfl := Option.some.inj hf
        simp only [PVField.union_.injEq] at hk
        exact hk.1.symm)).2⟩

/-! ## Sequencing and loops of the structure walker -/

theorem andThen_inl {σ τ ρ : Type} (r : Run σ ρ) (f : σ → Run τ ρ) (t : τ)
    (L : List Event) (h : andThen r f = (.returned (.inl t), L)) :
    ∃ s L1 L2, r = (.returned (.inl s), L1) ∧ f s = (.returned (.inl t), L2) ∧
      L = L1 ++ L2 := by
  obtain ⟨o, es⟩ := r
  rcases o with (s | x) | w | _ | _
  · simp only [andThen] at h
    rcases hf : f s with ⟨o2, es2⟩
    rw [hf] at h
    simp only [Prod.mk.injEq] at h
    exact ⟨s, es, es2, rfl, by rw [hf, h.1], h.2.symm⟩
  · simp [andThen] at h
  · simp [andThen] at h
  · simp [andThen] at h
  · simp [andThen] at h

theorem andThen_of_inl {σ τ ρ : Type} (r : Run σ ρ) (f : σ → Run τ ρ) (s : σ)
    (L1 : List Event) (hr : r = (.returned (.inl s), L1)) :
    andThen r f = ((f s).1, L1 ++ (f s).2) := by
  subst hr
  rfl

theorem forUnsignedOver_cons_inl {α σ ρ : Type} (body : Nat → α → σ → Run σ ρ)
    (i : Nat) (a : α) (as : List α) (s t : σ) (L : List Event)
    (h : forUnsignedOver body i (a :: as) s = (.returned (.inl t), L)) :
    ∃ s1 L1 L2, body i a s = (.returned (.inl s1), L1) ∧ i + 1 ≠ 2 ^ 32 ∧
      forUnsignedOver body (i + 1) as s1 = (.returned (.inl t), L2) ∧ L = L1 ++ L2 := by
  simp only [forUnsignedOver] at h
  obtain ⟨s1, L1, L2, h1, h2, h3⟩ := andThen_inl _ _ t L h
  by_cases hw : i + 1 = 2 ^ 32
  · simp [hw] at h2
  · simp only [hw, if_false] at h2
    exact ⟨s1, L1, L2, h1, hw, h2, h3⟩

theorem forUnsignedOver_cons_of {α σ ρ : Type} (body : Nat → α → σ → Run σ ρ)
    (i : Nat) (a : α) (as : List α) (s s1 : σ) (L1 : List Event)
    (hb : body i a s = (.returned (.inl s1), L1)) (hw : i + 1 ≠ 2 ^ 32) :
    forUnsignedOver body i (a :: as) s
      = ((forUnsignedOver body (i + 1) as s1).1,
         L1 ++ (forUnsignedOver body (i + 1) as s1).2) := by
  simp only [forUnsignedOver]
  rw [andThen_of_inl _ _ s1 L1 hb]
  simp only [hw, if_false]

theorem forUnsignedOver_lines {α σ ρ : Type} (body : Nat → α → σ → Run σ ρ)
    (lines : Nat → α → List Event)
    (hb : ∀ i a s s1 L, body i a s = (.returned (.inl s1), L) → L = lines i a) :
    ∀ (l : List α) (i : Nat) (s t : σ) (L : List Event),
      forUnsignedOver body i l s = (.returned (.inl t), L) → L = linesFrom lines i l := by
  intro l
  induction l with
  | nil =>
    intro i s t L h
    simp only [forUnsignedOver, Prod.mk.injEq] at h
    rw [← h.2]
    rfl
  | cons a as ih =>
    intro i s t L h
    obtain ⟨s1, L1, L2, h1, -, h2, h3⟩ := forUnsignedOver_cons_inl body i a as s t L h
    rw [h3, hb i a s s1 L1 h1, ih (i + 1) s1 t L2 h2]
    rfl

theorem andThen_plain {σ τ : Type} (r : Run σ Nat) (f : σ → Run τ Nat)
    (hr : r.plain) (hf : ∀ s, (f s).plain) : (andThen r f).plain := by
  obtain ⟨o, es⟩ := r
  rcases o with (s | x) | w | _ | _
  · simp only [andThen]
    exact hf s
  · rcases hr with ⟨s, h⟩ | h | h | h
    · simp at h
    · right; left; simpa [andThen] using h
    · simp at h
    · simp at h
  · rcases hr with ⟨s, h⟩ | h | h | h <;> simp at h
  · right; right; left; rfl
  · right; right; right; rfl

theorem forUnsignedOver_plain {α σ : Type} (body : Nat → α → σ → Run σ Nat)
    (hb : ∀ i a s, (body i a s).plain) :
    ∀ (l : List α) (i : Nat) (s : σ), (forUnsignedOver body i l s).plain := by
  intro l
  induction l with
  | nil => intro i s; exact Or.inl ⟨s, rfl⟩
  | cons a as ih =>
    intro i s
    simp only [forUnsignedOver]
    apply andThen_plain _ _ (hb i a s)
    intro s1
    by_cases hw : i + 1 = 2 ^ 32
    · simp only [hw, if_true]
      right; right; right; rfl
    · simp only [hw, if_false]
      exact ih (i + 1) s1

theorem plain_inl {σ : Type} (s : σ) (es : List Event) :
    Run.plain ((.returned (.inl s), es) : Run σ Nat) := Or.inl ⟨s, rfl⟩

theorem plain_ret {σ : Type} (es : List Event) :
    Run.plain ((.returned (.inr 1), es) : Run σ Nat) := Or.inr (Or.inl rfl)

theorem plain_null {σ : Type} (es : List Event) :
    Run.plain ((.nullDeref, es) : Run σ Nat) := Or.inr (Or.inr (Or.inl rfl))

theorem printStructure.structureArray_plain (name : String)
    (es : List (Option PVStructure)) : (printStructure.structureArray name es).plain := by
  simp only [printStructure.structureArray]
  apply andThen_plain _ _ (plain_inl _ _)
  intro _
  apply andThen_plain
  · apply forUnsignedOver_plain
    intro j e sizes
    cases e with
    | none => exact plain_null _
    | some elem =>
      simp only [printStructure.element]
      apply andThen_plain _ _ (plain_inl _ _)
      intro sz
      apply forUnsignedOver_plain
      intro k nm st
      simp only [printStructure.elementField]
      split
      · exact plain_ret _
      · split
        · exact plain_inl _ _
        · exact plain_inl _ _
  · intro sizes
    split
    · apply forUnsignedOver_plain
      intro j v u
      exact plain_inl _ _
    · exact plain_inl _ _

theorem printStructure.field_plain (strct : PVStructure) (i : Nat)
    (nf : String × FieldType) (u : Unit) : (printStructure.field strct i nf u).plain := by
  simp only [printStructure.field]
  split
  · exact plain_ret _
  · apply andThen_plain _ _ (plain_inl _ _)
    intro _
    split
    · split
      · exact plain_ret _
      · exact plain_inl _ _
    · split
      · exact plain_ret _
      · exact plain_inl _ _
    · split
      · exact plain_ret _
      · apply andThen_plain _ _ (plain_inl _ _)
        intro _
        split
        · exact plain_ret _
        · apply andThen_plain _ _ (plain_inl _ _)
          intro _
          split
          · exact plain_ret _
          · exact plain_inl _ _
    · split
      · exact plain_ret _
      · apply forUnsignedOver_plain
        intro k nm u1
        simp only [printStructure.child]
        split
        · exact plain_null _
        · exact plain_inl _ _
    · split
      · exact plain_ret _
      · exact printStructure.structureArray_plain _ _

theorem printStructure_status (self : PvMonitorBase) :
    (printStructure self).1 = .returned 0 ∨ (printStructure self).1 = .returned 1 ∨
      (printStructure self).1 = .nullDeref ∨ (printStructure self).1 = .diverges := by
  simp only [printStructure]
  cases self._strct with
  | none => right; left; rfl
  | some strct =>
    simp only []
    have hp := forUnsignedOver_plain (printStructure.field strct)
      (printStructure.field_plain strct) (strct.map fun nf => (nf.1, nf.2.getType)) 0 ()
    rcases hres : forUnsignedOver (printStructure.field strct) 0
      (strct.map fun nf => (nf.1, nf.2.getType)) () with ⟨o, es⟩
    rw [hres] at hp
    rw [hres]
    rcases hp with ⟨s, h⟩ | h | h | h <;> simp only at h <;> subst h <;> simp

/-- Claim C21, at a record whose "dimension" structure array has a null element:
`printStructure` dereferences the null element (`pvStructure[j]->getStructure()`) and
returns no status.  It returns 1 on a null tree, and on every tree it either returns 0
or 1, dereferences a null pointer or does not leave a loop: it never throws. -/
theorem printStructure_null_element :
    (printStructure ⟨some sampleNullElement⟩).1 = .nullDeref ∧
      (printStructure ⟨none⟩).1 = .returned 1 ∧
      (∀ self : PvMonitorBase,
        (printStructure self).1 = .returned 0 ∨ (printStructure self).1 = .returned 1 ∨
          (printStructure self).1 = .nullDeref ∨ (printStructure self).1 = .diverges) :=
  ⟨by decide, rfl, printStructure_status⟩

/-! ## What the structure walker reports -/

theorem printStructure.elementField_line (name : String) (j : Nat) (elem : PVStructure)
    (k : Nat) (fieldName : String) (st st1 : List Int) (L : List Event)
    (h : printStructure.elementField name j elem k fieldName st = (.returned (.inl st1), L)) :
    st1 = (if name = "dimension" ∧ fieldName = "size" then st.set j (readSize elem) else st) ∧
      L = elementFieldLine name elem k fieldName := by
  simp only [printStructure.elementField] at h
  simp only [elementFieldLine]
  cases hg : getSubField elem fieldName with
  | none => simp [hg] at h
  | some p =>
    simp only [hg] at h
    by_cases hc : name = "dimension" ∧ fieldName = "size"
    · rw [if_pos hc] at h
      simp only [Prod.mk.injEq, Outcome.returned.injEq, Sum.inl.injEq] at h
      rw [if_pos hc, if_pos hc]
      exact ⟨h.1.symm, h.2.symm⟩
    · rw [if_neg hc] at h
      simp only [Prod.mk.injEq, Outcome.returned.injEq, Sum.inl.injEq] at h
      rw [if_neg hc, if_neg hc]
      exact ⟨h.1.symm, h.2.symm⟩

theorem printStructure.elementField_loop (name : String) (j : Nat) (elem : PVStructure) :
    ∀ (ns : List String) (k : Nat) (st st1 : List Int) (L : List Event),
      forUnsignedOver (printStructure.elementField name j elem) k ns st
        = (.returned (.inl st1), L) →
      st1 = (if name = "dimension" ∧ "size" ∈ ns then st.set j (readSize elem) else st) := by
  intro ns
  induction ns with
  | nil =>
    intro k st st1 L h
    simp only [forUnsignedOver, Prod.mk.injEq, Outcome.returned.injEq, Sum.inl.injEq] at h
    simp [h.1]
  | cons nm ns ih =>
    intro k st st1 L h
    obtain ⟨s1, L1, L2, h1, -, h2, -⟩ := forUnsignedOver_cons_inl _ k nm ns st st1 L h
    have hs1 := (printStructure.elementField_line name j elem k nm st s1 L1 h1).1
    have hst1 := ih (k + 1) s1 st1 L2 h2
    rw [hst1, hs1]
    by_cases hn : name = "dimension"
    · by_cases hm : nm = "size"
      · by_cases hr : "size" ∈ ns
        · simp [hn, hm, hr]
        · simp [hn, hm, hr]
      · have hm1 : ¬ "size" = nm := fun e => hm e.symm
        by_cases hr : "size" ∈ ns
        · simp [hn, hm, hm1, hr]
        · simp [hn, hm, hm1, hr]
    · simp [hn]

theorem printStructure.element_line (name : String) (j : Nat) (e : Option PVStructure)
    (st st1 : List Int) (L : List Event)
    (h : printStructure.element name j e st = (.returned (.inl st1), L)) :
    (∃ elem, e = some elem ∧
      st1 = (if name = "dimension" ∧ "size" ∈ elem.map Prod.fst
             then st.set j (readSize elem) else st)) ∧
      L = elementLines name j e := by
  cases e with
  | none => simp [printStructure.element] at h
  | some elem =>
    simp only [printStructure.element] at h
    obtain ⟨s, L1, L2, h1, h2, h3⟩ := andThen_inl _ _ _ _ h
    simp only [Prod.mk.injEq, Outcome.returned.injEq, Sum.inl.injEq] at h1
    obtain ⟨hs, hL1⟩ := h1
    subst hs
    subst hL1
    refine ⟨⟨elem, rfl, printStructure.elementField_loop name j elem _ 0 st st1 L2 h2⟩, ?_⟩
    rw [h3, forUnsignedOver_lines _ (elementFieldLine name elem)
      (fun k a s s1 L hb => (printStructure.elementField_line name j elem k a s s1 L hb).2)
      _ 0 st st1 L2 h2]
    rfl

theorem printStructure.element_loop (name : String) :
    ∀ (es : List (Option PVStructure)) (j : Nat) (done st1 : List Int) (L : List Event),
      done.length = j →
      forUnsignedOver (printStructure.element name) j es
        (done ++ List.replicate es.length 0) = (.returned (.inl st1), L) →
      st1 = done ++ es.map (collectedSize name) := by
  intro es
  induction es with
  | nil =>
    intro j done st1 L _ h
    simp only [forUnsignedOver, Prod.mk.injEq, Outcome.returned.injEq, Sum.inl.injEq] at h
    simpa using h.1.symm
  | cons e es ih =>
    intro j done st1 L hj h
    obtain ⟨s1, L1, L2, h1, -, h2, -⟩ := forUnsignedOver_cons_inl _ j e es _ st1 L h
    obtain ⟨⟨elem, he, hs1⟩, -⟩ := printStructure.element_line name j e _ s1 L1 h1
    subst he
    have hs2 : s1 = (done ++ [collectedSize name (some elem)]) ++ List.replicate es.length 0 := by
      rw [hs1]
      simp only [collectedSize]
      by_cases hc : name = "dimension" ∧ "size" ∈ elem.map Prod.fst
      · rw [if_pos hc, if_pos hc, ← hj]
        simp [List.replicate_succ]
      · rw [if_neg hc, if_neg hc]
        simp [List.replicate_succ]
    rw [hs2] at h2
    have := ih (j + 1) (done ++ [collectedSize name (some elem)]) st1 L2 (by simp [hj]) h2
    rw [this]
    simp

theorem printStructure.structureArray_lines (name : String)
    (es : List (Option PVStructure)) (u : Unit) (L : List Event)
    (h : printStructure.structureArray name es = (.returned (.inl u), L)) :
    L = structureArrayLines name es := by
  simp only [printStructure.structureArray] at h
  obtain ⟨_, L1, L2, h1, h2, h3⟩ := andThen_inl _ _ _ _ h
  obtain ⟨sizes, L3, L4, h4, h5, h6⟩ := andThen_inl _ _ _ _ h2
  simp only [Prod.mk.injEq] at h1
  have hsizes := printStructure.element_loop name es 0 [] sizes L3 rfl (by simpa using h4)
  have hL3 := forUnsignedOver_lines _ (elementLines name)
    (fun j e s s1 L hb => (printStructure.element_line name j e s s1 L hb).2) _ 0 _ sizes L3 h4
  simp only [List.nil_append] at hsizes
  rw [h3, ← h1.2, h6, hL3]
  simp only [structureArrayLines, List.singleton_append, List.cons_append, List.nil_append]
  congr 2
  by_cases hn : name = "dimension"
  · rw [if_pos hn] at h5
    rw [if_pos hn, ← hsizes]
    exact forUnsignedOver_lines _ (fun j v => [.size j v])
      (fun j v s s1 L hb => by
        simp only [printStructure.sizeLine, Prod.mk.injEq] at hb
        exact hb.2.symm) _ 0 () u L4 h5
  · rw [if_neg hn] at h5
    rw [if_neg hn]
    simp only [Prod.mk.injEq] at h5
    exact h5.2.symm

theorem printStructure.child_line (offset : Nat) (fs : PVStructure) (k : Nat)
    (name : String) (u u1 : Unit) (L : List Event)
    (h : printStructure.child offset fs k name u = (.returned (.inl u1), L)) :
    L = childLine offset fs k name := by
  simp only [printStructure.child] at h
  simp only [childLine]
  cases hg : getSubFieldImpl (offset + 1) fs [] name.data with
  | none => simp [hg] at h
  | some p =>
    simp only [hg, Prod.mk.injEq] at h
    exact h.2.symm

theorem printStructure.field_lines (strct : PVStructure) (i : Nat)
    (nf : String × FieldType) (u u1 : Unit) (L : List Event)
    (h : printStructure.field strct i nf u = (.returned (.inl u1), L)) :
    L = fieldLines strct i nf := by
  simp only [printStructure.field] at h
  simp only [fieldLines]
  cases hg : getSubField strct nf.1 with
  | none => simp [hg] at h
  | some p =>
    have ho := getSubFieldOffset_of_getSubField strct nf.1 p hg
    simp only [hg] at h
    obtain ⟨_, L1, L2, h1, h2, h3⟩ := andThen_inl _ _ _ _ h
    simp only [Prod.mk.injEq] at h1
    rw [h3, ← h1.2]
    simp only [List.cons_append, List.nil_append]
    congr 2
    clear h h1 h3 hg
    obtain ⟨o, f⟩ := p
    simp only at ho h2 ⊢
    rcases hk : nf.2 with _ | _ | _ | _ | _
    · simp only [hk, getSubFieldOffset_PVScalar, ho, Option.bind_some] at h2
      rcases f with s | a | ⟨n, v⟩ | fs | es
      all_goals simp only [PVField.asPVScalar] at h2 ⊢
      all_goals try simp at h2
      exact h2.symm
    · simp only [hk, getSubFieldOffset_PVScalarArray, ho, Option.bind_some] at h2
      rcases f with s | a | ⟨n, v⟩ | fs | es
      all_goals simp only [PVField.asPVScalarArray] at h2 ⊢
      all_goals try simp at h2
      exact h2.symm
    · simp only [hk, getSubFieldOffset_PVStructure, ho, Option.bind_some] at h2
      rcases f with s | a | ⟨n, v⟩ | fs | es
      all_goals simp only [PVField.asPVStructure] at h2 ⊢
      all_goals try simp at h2
      exact forUnsignedOver_lines _ (childLine o fs)
        (fun k a s s1 L hb => printStructure.child_line o fs k a s s1 L hb)
        _ 0 () u1 L2 h2
    · simp only [hk, getSubFieldOffset_PVStructureArray, ho, Option.bind_some] at h2
      rcases f with s | a | ⟨n, v⟩ | fs | es
      all_goals simp only [PVField.asPVStructureArray] at h2 ⊢
      all_goals try simp at h2
      exact printStructure.structureArray_lines nf.1 es u1 L2 h2
    · simp only [hk, getSubFieldOffset_PVUnion, ho, Option.bind_some] at h2
      rcases f with s | a | ⟨n, v⟩ | fs | es
      all_goals simp only [PVField.asPVUnion] at h2 ⊢
      all_goals try simp at h2
      obtain ⟨_, L3, L4, h4, h5, h6⟩ := andThen_inl _ _ _ _ h2
      simp only [Prod.mk.injEq] at h4
      rw [h6, ← h4.2]
      simp only [List.singleton_append]
      congr 1
      cases v with
      | none => simp at h5
      | some g =>
        simp only at h5 ⊢
        obtain ⟨_, L5, L6, h7, h8, h9⟩ := andThen_inl _ _ _ _ h5
        simp only [Prod.mk.injEq] at h7
        rw [h9, ← h7.2]
        simp only [List.singleton_append]
        congr 1
        rcases g with s | a | ⟨n, v⟩ | fs | es
        all_goals simp only [PVUnion.get_PVScalarArray, PVField.asPVScalarArray] at h8 ⊢
        all_goals try simp at h8
        exact h8.symm

theorem printStructure_lines (strct : PVStructure) (L : List Event)
    (h : printStructure ⟨some strct⟩ = (.returned 0, L)) : L = report strct := by
  simp only [printStructure] at h
  have hp := forUnsignedOver_plain (printStructure.field strct)
    (printStructure.field_plain strct) (strct.map fun nf => (nf.1, nf.2.getType)) 0 ()
  rcases hres : forUnsignedOver (printStructure.field strct) 0
    (strct.map fun nf => (nf.1, nf.2.getType)) () with ⟨o, es⟩
  rw [hres] at hp h
  rcases o with (s | x) | w | _ | _
  · simp only [Prod.mk.injEq] at h
    rw [← h.2]
    exact forUnsignedOver_lines _ (fieldLines strct)
      (fun k a s s1 L hb => printStructure.field_lines strct k a s s1 L hb) _ 0 () s es hres
  · simp only [Prod.mk.injEq, Outcome.returned.injEq] at h
    rcases hp with ⟨s, hp⟩ | hp | hp | hp <;> simp at hp
    omega
  · simp at h
  · simp at h
  · simp at h

/-! ## The sizes collected for "dimension" -/

theorem getSubField_size (elem : PVStructure) :
    getSubField elem "size" = findField "size" 1 elem := rfl

theorem getSubField_dimension (strct : PVStructure) :
    getSubField strct "dimension" = findField "dimension" 1 strct := rfl

theorem findField_mem (name : String) : ∀ (fs : PVStructure) (o : Nat) (p : PVFieldPtr),
    findField name o fs = some p → (name, p.field) ∈ fs := by
  intro fs
  induction fs with
  | nil => intro o p h; simp [findField] at h
  | cons nf fs ih =>
    intro o p h
    obtain ⟨n, f⟩ := nf
    simp only [findField] at h
    by_cases hn : n = name
    · rw [if_pos hn] at h
      simp only [Option.some.injEq] at h
      subst h
      subst hn
      simp
    · rw [if_neg hn] at h
      exact List.mem_cons_of_mem _ (ih _ p h)

theorem sizesOf_append (a b : List Event) : sizesOf (a ++ b) = sizesOf a ++ sizesOf b := by
  induction a with
  | nil => rfl
  | cons e a ih => cases e <;> simp [sizesOf, ih]

theorem sizesOf_linesFrom_nil {α : Type} (lines : Nat → α → List Event)
    (h : ∀ i a, sizesOf (lines i a) = []) :
    ∀ (l : List α) (i : Nat), sizesOf (linesFrom lines i l) = [] := by
  intro l
  induction l with
  | nil => intro i; rfl
  | cons a as ih =>
    intro i
    simp only [linesFrom, sizesOf_append, h, ih, List.append_nil]

theorem sizesOf_sizeLines : ∀ (vs : List Int) (j : Nat),
    sizesOf (linesFrom (fun j v => [Event.size j v]) j vs) = vs := by
  intro vs
  induction vs with
  | nil => intro j; rfl
  | cons v vs ih =>
    intro j
    show v :: sizesOf (linesFrom (fun j v => [Event.size j v]) (j + 1) vs) = v :: vs
    rw [ih]

theorem sizesOf_elementLines (name : String) (j : Nat) (e : Option PVStructure) :
    sizesOf (elementLines name j e) = [] := by
  cases e with
  | none => rfl
  | some elem =>
    simp only [elementLines, sizesOf]
    apply sizesOf_linesFrom_nil
    intro k nm
    simp only [elementFieldLine]
    split
    · rfl
    · split <;> rfl

theorem sizesOf_structureArrayLines (name : String) (es : List (Option PVStructure)) :
    sizesOf (structureArrayLines name es)
      = if name = "dimension" then es.map (collectedSize name) else [] := by
  show sizesOf (linesFrom (elementLines name) 0 es ++
    (if name = "dimension" then
      linesFrom (fun j v => [Event.size j v]) 0 (es.map (collectedSize name)) else [])) = _
  rw [sizesOf_append, sizesOf_linesFrom_nil _ (sizesOf_elementLines name), List.nil_append]
  split
  · exact sizesOf_sizeLines _ 0
  · rfl

theorem collectedSize_of_descriptors : ∀ (es : List (Option PVStructure)) (sizes : List Int),
    es.map descriptorSize = sizes.map some → (∀ v ∈ sizes, 0 ≤ v ∧ v < 2 ^ 31) →
    es.map (collectedSize "dimension") = sizes := by
  intro es
  induction es with
  | nil =>
    intro sizes h _
    cases sizes with
    | nil => rfl
    | cons v vs => simp at h
  | cons e es ih =>
    intro sizes h hv
    cases sizes with
    | nil => simp at h
    | cons v vs =>
      simp only [List.map_cons, List.cons.injEq] at h
      obtain ⟨h1, h2⟩ := h
      simp only [List.map_cons, List.cons.injEq]
      refine ⟨?_, ih vs h2 (fun x hx => hv x (List.mem_cons_of_mem _ hx))⟩
      cases e with
      | none => simp [descriptorSize] at h1
      | some elem =>
        replace h1 : getSubField_PVInt elem "size" = some v := h1
        have hmem : "size" ∈ elem.map Prod.fst := by
          simp only [getSubField_PVInt, getSubField_size] at h1
          cases hf : findField "size" 1 elem with
          | none => simp [hf] at h1
          | some p => exact List.mem_map_of_mem Prod.fst (findField_mem "size" elem 1 p hf)
        obtain ⟨h0, h31⟩ := hv v (List.mem_cons_self _ _)
        simp only [collectedSize, readSize, hmem, and_self, if_true]
        rw [h1]
        exact wrapSigned_32_of_range v ⟨by omega, h31⟩

theorem printStructure.elementField_falls (name : String) (j : Nat) (elem : PVStructure) :
    ∀ (ns : List String) (k : Nat) (st : List Int),
      (∀ nm ∈ ns, (getSubField elem nm).isSome = true) → k + ns.length < 2 ^ 32 →
      ∃ st1 L, forUnsignedOver (printStructure.elementField name j elem) k ns st
        = (.returned (.inl st1), L) := by
  intro ns
  induction ns with
  | nil => intro k st _ _; exact ⟨st, [], rfl⟩
  | cons nm ns ih =>
    intro k st hr hk
    simp only [List.length_cons] at hk
    have hnm := hr nm (List.mem_cons_self _ _)
    obtain ⟨s1, L1, hb⟩ : ∃ s1 L1, printStructure.elementField name j elem k nm st
        = (.returned (.inl s1), L1) := by
      simp only [printStructure.elementField]
      cases hg : getSubField elem nm with
      | none => simp [hg] at hnm
      | some p =>
        simp only []
        split
        · exact ⟨_, _, rfl⟩
        · exact ⟨_, _, rfl⟩
    obtain ⟨st1, L2, h2⟩ := ih (k + 1) s1 (fun x hx => hr x (List.mem_cons_of_mem _ hx))
      (by omega)
    rw [forUnsignedOver_cons_of _ k nm ns st s1 L1 hb (by omega), h2]
    exact ⟨_, _, rfl⟩

theorem printStructure.element_falls (name : String) :
    ∀ (es : List (Option PVStructure)) (j : Nat) (st : List Int),
      (∀ e ∈ es, ∃ elem, e = some elem ∧ resolvable elem) → j + es.length < 2 ^ 32 →
      ∃ st1 L, forUnsignedOver (printStructure.element name) j es st
        = (.returned (.inl st1), L) := by
  intro es
  induction es with
  | nil => intro j st _ _; exact ⟨st, [], rfl⟩
  | cons e es ih =>
    intro j st hr hj
    simp only [List.length_cons] at hj
    obtain ⟨elem, he, hlen, hres⟩ := hr e (List.mem_cons_self _ _)
    subst he
    obtain ⟨s1, L1, hb⟩ : ∃ s1 L1, printStructure.element name j (some elem) st
        = (.returned (.inl s1), L1) := by
      obtain ⟨s1, L1, h1⟩ := printStructure.elementField_falls name j elem
        (elem.map Prod.fst) 0 st
        (by
          intro nm hnm
          obtain ⟨nf, hnf, rfl⟩ := List.mem_map.mp hnm
          exact hres nf hnf)
        (by simpa using hlen)
      simp only [printStructure.element]
      rw [andThen_of_inl _ _ st [.element j] rfl, h1]
      exact ⟨_, _, rfl⟩
    obtain ⟨st1, L2, h2⟩ := ih (j + 1) s1 (fun x hx => hr x (List.mem_cons_of_mem _ hx))
      (by omega)
    rw [forUnsignedOver_cons_of _ j (some elem) es st s1 L1 hb (by omega), h2]
    exact ⟨_, _, rfl⟩

theorem printStructure.sizeLine_falls : ∀ (vs : List Int) (j : Nat),
    j + vs.length < 2 ^ 32 →
    ∃ L, forUnsignedOver printStructure.sizeLine j vs () = (.returned (.inl ()), L) := by
  intro vs
  induction vs with
  | nil => intro j _; exact ⟨[], rfl⟩
  | cons v vs ih =>
    intro j hj
    simp only [List.length_cons] at hj
    obtain ⟨L2, h2⟩ := ih (j + 1) (by omega)
    rw [forUnsignedOver_cons_of _ j v vs () () [.size j v] rfl (by omega), h2]
    exact ⟨_, rfl⟩

theorem printStructure.structureArray_falls (name : String)
    (es : List (Option PVStructure)) (hn : es.length < 2 ^ 32)
    (hr : ∀ e ∈ es, ∃ elem, e = some elem ∧ resolvable elem) :
    ∃ L, printStructure.structureArray name es = (.returned (.inl ()), L) := by
  obtain ⟨sizes, L1, h1⟩ := printStructure.element_falls name es 0
    (List.replicate es.length 0) hr (by omega)
  have hsizes := printStructure.element_loop name es 0 [] sizes L1 rfl (by simpa using h1)
  simp only [printStructure.structureArray]
  rw [andThen_of_inl _ _ () [.length es.length] rfl]
  rw [andThen_of_inl _ _ sizes L1 h1]
  by_cases hd : name = "dimension"
  · obtain ⟨L2, h2⟩ := printStructure.sizeLine_falls sizes 0
      (by rw [hsizes]; simpa using hn)
    simp only [hd, if_true] at h2 ⊢
    rw [h2]
    exact ⟨_, rfl⟩
  · simp only [hd, if_false]
    exact ⟨_, rfl⟩

theorem _getDimensions_of_descriptors (self : PvMonitorBase) (strct : PVStructure)
    (es : List (Option PVStructure)) (sizes : List Int) (count : Nat)
    (hs : self._strct = some strct)
    (hd : getSubField_PVStructureArray strct "dimension" = some es)
    (hn : es.length < 2 ^ 32)
    (hsz : es.map descriptorSize = sizes.map some) :
    _getDimensions self count = .returned (sizes.map (wrapUnsigned 32)).reverse := by
  simp only [_getDimensions, hs, hd, List.length_replicate]
  exact _getDimensions.loop_eq es sizes hsz hn es.length 0 _ (by omega) (by simp)

theorem ofNat_wrapUnsigned_of_range (sizes : List Int)
    (hv : ∀ v ∈ sizes, 0 ≤ v ∧ v < 2 ^ 31) :
    ((sizes.map (wrapUnsigned 32)).reverse.reverse).map Int.ofNat = sizes := by
  rw [List.reverse_reverse, List.map_map]
  have : ∀ v ∈ sizes, (Int.ofNat ∘ wrapUnsigned 32) v = id v := by
    intro v hmem
    obtain ⟨h0, h1⟩ := hv v hmem
    simp only [Function.comp, wrapUnsigned, id]
    rw [Int.emod_eq_of_lt h0 (by norm_num; omega)]
    exact Int.toNat_of_nonneg h0
  rw [List.map_congr_left this, List.map_id]

theorem sizesOf_fieldLines (strct : PVStructure) (es : List (Option PVStructure))
    (hd : getSubField_PVStructureArray strct "dimension" = some es)
    (i : Nat) (nf : String × FieldType) :
    sizesOf (fieldLines strct i nf)
      = if nf.1 = "dimension" then es.map (collectedSize "dimension") else [] := by
  simp only [fieldLines]
  cases hg : getSubField strct nf.1 with
  | none =>
    by_cases hn : nf.1 = "dimension"
    · rw [hn] at hg
      simp [getSubField_PVStructureArray, hg] at hd
    · simp only [hn, if_false]
      rfl
  | some p =>
    obtain ⟨o, f⟩ := p
    simp only [sizesOf]
    by_cases hn : nf.1 = "dimension"
    · rw [hn] at hg
      simp only [getSubField_PVStructureArray, hg, Option.bind_some] at hd
      rcases f with s | a | ⟨n, v⟩ | fs | es1
      all_goals simp only [PVField.asPVStructureArray] at hd
      all_goals try simp at hd
      subst hd
      simp only [hn, if_true]
      rw [sizesOf_structureArrayLines, if_pos rfl]
    · simp only [hn, if_false]
      rcases f with s | a | ⟨n, v⟩ | fs | es1
      · rfl
      · rfl
      · cases v with
        | none => rfl
        | some g => cases g <;> rfl
      · apply sizesOf_linesFrom_nil
        intro k nm
        simp only [childLine]
        split <;> rfl
      · simp only []
        rw [sizesOf_structureArrayLines, if_neg hn]

theorem sizesOf_fieldLines_loop (strct : PVStructure) (es : List (Option PVStructure))
    (hd : getSubField_PVStructureArray strct "dimension" = some es) :
    ∀ (l : List (String × FieldType)) (i : Nat), (l.map Prod.fst).Nodup →
      sizesOf (linesFrom (fieldLines strct) i l)
        = if "dimension" ∈ l.map Prod.fst then es.map (collectedSize "dimension") else [] := by
  intro l
  induction l with
  | nil => intro i _; rfl
  | cons nf l ih =>
    intro i hnd
    simp only [List.map_cons, List.nodup_cons] at hnd
    simp only [linesFrom, sizesOf_append, sizesOf_fieldLines strct es hd, ih (i + 1) hnd.2,
      List.map_cons, List.mem_cons]
    by_cases hn : nf.1 = "dimension"
    · have : "dimension" ∉ l.map Prod.fst := hn ▸ hnd.1
      simp [hn, this]
    · have hn1 : ¬ "dimension" = nf.1 := fun e => hn e.symm
      simp only [hn, hn1, if_false, false_or, List.nil_append]

theorem sizesOf_report (strct : PVStructure) (es : List (Option PVStructure))
    (hd : getSubField_PVStructureArray strct "dimension" = some es)
    (hnd : (strct.map Prod.fst).Nodup) :
    sizesOf (report strct) = es.map (collectedSize "dimension") := by
  have hmap : (strct.map fun nf => (nf.1, nf.2.getType)).map Prod.fst = strct.map Prod.fst := by
    simp [List.map_map, Function.comp]
  have hmem : "dimension" ∈ strct.map Prod.fst := by
    simp only [getSubField_PVStructureArray, getSubField_dimension] at hd
    cases hf : findField "dimension" 1 strct with
    | none => simp [hf] at hd
    | some p => exact List.mem_map_of_mem Prod.fst (findField_mem "dimension" strct 1 p hf)
  simp only [report]
  rw [sizesOf_fieldLines_loop strct es hd _ 0 (by rw [hmap]; exact hnd), hmap, if_pos hmem]

theorem printStructure.dimension_falls (strct : PVStructure)
    (es : List (Option PVStructure)) (i : Nat)
    (hd : getSubField_PVStructureArray strct "dimension" = some es)
    (hn : es.length < 2 ^ 32)
    (hr : ∀ e ∈ es, ∃ elem, e = some elem ∧ resolvable elem) :
    ∃ L, printStructure.field strct i ("dimension", .structureArray) ()
      = (.returned (.inl ()), L) := by
  obtain ⟨L2, h2⟩ := printStructure.structureArray_falls "dimension" es hn hr
  simp only [getSubField_PVStructureArray] at hd
  cases hg : getSubField strct "dimension" with
  | none => simp [hg] at hd
  | some p =>
    have ho := getSubFieldOffset_of_getSubField strct "dimension" p hg
    simp only [hg, Option.bind_some] at hd
    simp only [printStructure.field, hg, getSubFieldOffset_PVStructureArray, ho,
      Option.bind_some, hd]
    rw [andThen_of_inl _ _ () _ rfl, h2]
    exact ⟨_, rfl⟩

theorem descriptors_present (es : List (Option PVStructure)) (sizes : List Int)
    (hsz : es.map descriptorSize = sizes.map some) :
    ∀ e ∈ es, ∃ elem, e = some elem := by
  intro e he
  have h1 : descriptorSize e ∈ sizes.map some := hsz ▸ List.mem_map_of_mem descriptorSize he
  obtain ⟨v, -, hv⟩ := List.mem_map.mp h1
  cases e with
  | none => simp [descriptorSize] at hv
  | some elem => exact ⟨elem, rfl⟩

/-- Claim C22: for a record whose "dimension" structure array holds well-formed axis
descriptors (fewer than 2^32 of them, each with a non-negative `int` size and with
fields found under their names), `_getDimensions` returns a shape and the "dimension"
case of `printStructure` falls through; the sizes it prints, in element order, are the
stored sizes, and they are the reverse of that shape.  So are the sizes in the report
of every run of `printStructure` that returns 0 on a record with distinct field names.
-/
theorem printStructure_dimension_sizes (self : PvMonitorBase) (strct : PVStructure)
    (es : List (Option PVStructure)) (sizes : List Int) (count i : Nat)
    (hs : self._strct = some strct)
    (hd : getSubField_PVStructureArray strct "dimension" = some es)
    (hn : es.length < 2 ^ 32)
    (hsz : es.map descriptorSize = sizes.map some)
    (hv : ∀ v ∈ sizes, 0 ≤ v ∧ v < 2 ^ 31)
    (hr : ∀ elem, some elem ∈ es → resolvable elem) :
    ∃ shape L, _getDimensions self count = .returned shape ∧
      printStructure.field strct i ("dimension", .structureArray) ()
        = (.returned (.inl ()), L) ∧
      sizesOf L = sizes ∧ sizesOf L = shape.reverse.map Int.ofNat ∧
      (∀ L1, (strct.map Prod.fst).Nodup → printStructure self = (.returned 0, L1) →
        sizesOf L1 = shape.reverse.map Int.ofNat) := by
  have hshape := _getDimensions_of_descriptors self strct es sizes count hs hd hn hsz
  have hrev := ofNat_wrapUnsigned_of_range sizes hv
  have hcol := collectedSize_of_descriptors es sizes hsz hv
  obtain ⟨L, hL⟩ := printStructure.dimension_falls strct es i hd hn (by
    intro e he
    obtain ⟨elem, rfl⟩ := descriptors_present es sizes hsz e he
    exact ⟨elem, rfl, hr elem he⟩)
  have hlines := printStructure.field_lines strct i _ () () L hL
  have hsizes : sizesOf L = sizes := by
    rw [hlines, sizesOf_fieldLines strct es hd, if_pos rfl, hcol]
  refine ⟨_, L, hshape, hL, hsizes, by rw [hsizes, hrev], ?_⟩
  intro L1 hnd h1
  obtain ⟨s⟩ := self
  simp only at hs
  subst hs
  rw [printStructure_lines strct L1 h1, sizesOf_report strct es hd hnd, hcol, hrev]

/-- Witness for C22 on the sample two-axis array record, whose descriptors hold the
sizes 2 and 3: the report of the whole run prints 2 and 3, the shape is 3 by 2. -/
theorem printStructure_dimension_sizes_witness :
    _getDimensions ⟨some sampleArray⟩ 6 = .returned [3, 2] ∧
      sizesOf (printStructure ⟨some sampleArray⟩).2 = [2, 3] ∧
      ∃ shape L, _getDimensions ⟨some sampleArray⟩ 6 = .returned shape ∧
        printStructure.field sampleArray 1 ("dimension", .structureArray) ()
          = (.returned (.inl ()), L) ∧
        sizesOf L = [2, 3] ∧ sizesOf L = shape.reverse.map Int.ofNat ∧
        (∀ L1, (sampleArray.map Prod.fst).Nodup →
          printStructure ⟨some sampleArray⟩ = (.returned 0, L1) →
          sizesOf L1 = shape.reverse.map Int.ofNat) :=
  ⟨by decide, by decide,
    printStructure_dimension_sizes ⟨some sampleArray⟩ sampleArray
      [some [("size", .scalar ⟨.pvInt, 2⟩), ("offset", .scalar ⟨.pvInt, 0⟩)],
       some [("size", .scalar ⟨.pvInt, 3⟩), ("offset", .scalar ⟨.pvInt, 0⟩)]]
      [2, 3] 6 1 rfl rfl (by simp) rfl (by decide) (by
        intro elem he
        simp only [List.mem_cons, Option.some.injEq, List.mem_singleton] at he
        rcases he with rfl | rfl | he
        · exact ⟨by simp, by decide⟩
        · exact ⟨by simp, by decide⟩
        · simp at he)⟩

/-! ## The report covers the top level only -/

/-- Counterexample to C23 as stated: in the sample nested record the field "a.b.c" is
reached through two structures and sits at offset 3, yet the run of `printStructure`,
which returns 0, writes no line for it, and it lists the structure "b" by name and
offset only, without kind or element type. -/
theorem printStructure_nested_counterexample :
    (getSubField sampleNested "a.b.c").map PVFieldPtr.offset = some 3 ∧
      printStructure ⟨some sampleNested⟩
        = (.returned 0,
           [.field "a" 1 .structure, .fieldType .structure, .child "b" 2, .child "d" 4,
            .field "value" 5 .scalar, .fieldType .scalar, .scalarType .pvInt]) :=
  ⟨by decide, by decide⟩

/-- Claim C23, as amended: when `printStructure` returns 0 its report is, for each
top-level field in order, the name, offset and kind of the field, followed by the
element type of a scalar or scalar array, by the field count, selected kind and element
type of a union of a scalar array, by the name and offset of each direct child of a
structure, or by the length of a structure array and the name and offset of each field
of each element (for "dimension" the sizes are collected and printed instead).  No
field below a direct child is read. -/
theorem printStructure_report (self : PvMonitorBase) (strct : PVStructure)
    (L : List Event) (hs : self._strct = some strct)
    (h : printStructure self = (.returned 0, L)) : L = report strct := by
  obtain ⟨s⟩ := self
  simp only at hs
  subst hs
  exact printStructure_lines strct L h

/-- Witness for C23 on the sample two-axis array record: the run returns 0 and its
report is the one described, with the three children of "timeStamp" by name and offset
and the sizes 2 and 3 of "dimension" at the end. -/
theorem printStructure_report_witness :
    printStructure ⟨some sampleArray⟩
        = (.returned 0,
           [.field "value" 1 .scalarArray, .fieldType .scalarArray, .scalarArrayType .pvShort,
            .field "timeStamp" 2 .structure, .fieldType .structure,
            .child "secondsPastEpoch" 3, .child "nanoseconds" 4, .child "userTag" 5,
            .field "dimension" 6 .structureArray, .fieldType .structureArray,
            .length 2, .element 0, .nonSize "offset" 2, .element 1, .nonSize "offset" 2,
            .size 0 2, .size 1 3]) ∧
      [.field "value" 1 .scalarArray, .fieldType .scalarArray, .scalarArrayType .pvShort,
       .field "timeStamp" 2 .structure, .fieldType .structure,
       .child "secondsPastEpoch" 3, .child "nanoseconds" 4, .child "userTag" 5,
       .field "dimension" 6 .structureArray, .fieldType .structureArray,
       .length 2, .element 0, .nonSize "offset" 2, .element 1, .nonSize "offset" 2,
       .size 0 2, .size 1 3] = report sampleArray :=
  ⟨by decide, printStructure_report ⟨some sampleArray⟩ sampleArray _ rfl (by decide)⟩

end Pds_Epics

namespace Drp

/-! ## The Si570 register round trip -/

theorem or_shift (a b k : Nat) (h : b < 2 ^ k) : (a <<< k) ||| b = a * 2 ^ k + b := by
  rw [Nat.shiftLeft_eq, Nat.mul_comm, Nat.mul_add_lt_is_or h]

theorem hsd_divn_get (c : Nat) (h : c < 8) :
    hsd_divn.get? c = some (if c = 4 ∨ c = 6 then 0 else c + 4) := by
  interval_cases c <;> rfl

theorem Si570_roundtrip_aux (c n1 rfreq : Nat) (hc : c < 8) (hn : n1 < 128)
    (hr : rfreq < 2 ^ 38) :
    (∀ w ∈ Si570.program.writes c n1 rfreq, w.2 < 256) ∧
      Si570.read (registersAfter (Si570.program.writes c n1 rfreq))
        = some ⟨if c = 4 ∨ c = 6 then 0 else c + 4, n1, rfreq⟩ := by
  have m31 : ∀ x : Nat, x &&& 0x1f = x % 2 ^ 5 := fun x => Nat.and_pow_two_sub_one_eq_mod x 5
  have m7 : ∀ x : Nat, x &&& 7 = x % 2 ^ 3 := fun x => Nat.and_pow_two_sub_one_eq_mod x 3
  have m3 : ∀ x : Nat, x &&& 3 = x % 2 ^ 2 := fun x => Nat.and_pow_two_sub_one_eq_mod x 2
  have m63 : ∀ x : Nat, x &&& 0x3f = x % 2 ^ 6 := fun x => Nat.and_pow_two_sub_one_eq_mod x 6
  have m255 : ∀ x : Nat, x &&& 0xff = x % 2 ^ 8 := fun x => Nat.and_pow_two_sub_one_eq_mod x 8
  have r7 : (((c &&& 7) <<< 5) % 2 ^ 32) ||| ((n1 >>> 2) &&& 0x1f) = c * 32 + n1 / 4 := by
    rw [m7, m31, Nat.shiftRight_eq_div_pow, Nat.shiftLeft_eq]
    have h1 : c % 2 ^ 3 * 2 ^ 5 % 2 ^ 32 = c * 2 ^ 5 := by omega
    rw [h1, ← Nat.shiftLeft_eq, or_shift _ _ 5 (Nat.mod_lt _ (by norm_num))]
    omega
  have r8 : ((((n1 &&& 3) <<< 6) % 2 ^ 32) ||| ((rfreq >>> 32) &&& 0x3f)) % 2 ^ 32
      = (n1 % 4) * 64 + rfreq / 2 ^ 32 := by
    rw [m3, m63, Nat.shiftRight_eq_div_pow, Nat.shiftLeft_eq]
    have h1 : n1 % 2 ^ 2 * 2 ^ 6 % 2 ^ 32 = (n1 % 4) * 2 ^ 6 := by omega
    rw [h1, ← Nat.shiftLeft_eq, or_shift _ _ 6 (Nat.mod_lt _ (by norm_num))]
    omega
  have r9 : ((rfreq >>> 24) &&& 0xff) % 2 ^ 32 = rfreq / 2 ^ 24 % 256 := by
    rw [m255, Nat.shiftRight_eq_div_pow]; omega
  have r10 : ((rfreq >>> 16) &&& 0xff) % 2 ^ 32 = rfreq / 2 ^ 16 % 256 := by
    rw [m255, Nat.shiftRight_eq_div_pow]; omega
  have r11 : ((rfreq >>> 8) &&& 0xff) % 2 ^ 32 = rfreq / 2 ^ 8 % 256 := by
    rw [m255, Nat.shiftRight_eq_div_pow]; omega
  have r12 : ((rfreq >>> 0) &&& 0xff) % 2 ^ 32 = rfreq % 256 := by
    rw [m255, Nat.shiftRight_eq_div_pow]; omega
  simp only [Si570.program.writes, r7, r8, r9, r10, r11, r12]
  constructor
  · intro w hw
    simp only [List.mem_cons, List.mem_singleton, List.not_mem_nil, or_false] at hw
    rcases hw with rfl | rfl | rfl | rfl | rfl | rfl <;> simp only <;> omega
  · simp only [Si570.read, registersAfter, List.find?, decide_True, decide_False,
      Nat.reduceEqDiff, List.foldl]
    have hidx : ((c * 32 + n1 / 4) % 2 ^ 32) >>> 5 &&& 7 = c := by
      rw [m7, Nat.shiftRight_eq_div_pow]; omega
    have hn1 : ((c * 32 + n1 / 4) % 2 ^ 32 &&& 31) <<< 2 % 2 ^ 32 |||
        ((n1 % 4 * 64 + rfreq / 2 ^ 32) % 2 ^ 32) >>> 6 &&& 3 = n1 := by
      rw [m31, m3, Nat.shiftRight_eq_div_pow, Nat.shiftLeft_eq]
      have h1 : (c * 32 + n1 / 4) % 2 ^ 32 % 2 ^ 5 * 2 ^ 2 % 2 ^ 32 = (n1 / 4) * 2 ^ 2 := by
        omega
      rw [h1, ← Nat.shiftLeft_eq, or_shift _ _ 2 (Nat.mod_lt _ (by norm_num))]
      omega
    have hstep : ∀ rf v : Nat, rf < 2 ^ 56 →
        ((rf <<< 8) % 2 ^ 64) ||| ((v % 2 ^ 32) &&& 255) = rf * 256 + v % 256 := by
      intro rf v hrf
      rw [m255, Nat.shiftLeft_eq]
      have h1 : rf * 2 ^ 8 % 2 ^ 64 = rf * 2 ^ 8 := by omega
      rw [h1, ← Nat.shiftLeft_eq, or_shift _ _ 8 (Nat.mod_lt _ (by norm_num))]
      omega
    have h0 : (n1 % 4 * 64 + rfreq / 2 ^ 32) % 2 ^ 32 &&& 63 = rfreq / 2 ^ 32 := by
      rw [m63]; omega
    have e1 : ((rfreq / 2 ^ 32) <<< 8 % 2 ^ 64) ||| ((rfreq / 2 ^ 24 % 256 % 2 ^ 32) &&& 255)
        = rfreq / 2 ^ 24 := by
      rw [hstep _ _ (by omega)]; omega
    have e2 : ((rfreq / 2 ^ 24) <<< 8 % 2 ^ 64) ||| ((rfreq / 2 ^ 16 % 256 % 2 ^ 32) &&& 255)
        = rfreq / 2 ^ 16 := by
      rw [hstep _ _ (by omega)]; omega
    have e3 : ((rfreq / 2 ^ 16) <<< 8 % 2 ^ 64) ||| ((rfreq / 2 ^ 8 % 256 % 2 ^ 32) &&& 255)
        = rfreq / 2 ^ 8 := by
      rw [hstep _ _ (by omega)]; omega
    have e4 : ((rfreq / 2 ^ 8) <<< 8 % 2 ^ 64) ||| ((rfreq % 256 % 2 ^ 32) &&& 255)
        = rfreq := by
      rw [hstep _ _ (by omega)]; omega
    rw [hidx, hn1, h0, hsd_divn_get c hc, e1, e2, e3, e4]

/-- Claim C26: for every code c below 8 of the three-bit divider field, every n1
below 128 and every rfreq below 2^38, the six values `program` writes to the registers
7 to 12 are each below 256, and `read`, decoding them, gives back n1 and rfreq unchanged
and the divider `hsd_divn[c]`. -/
theorem Si570_roundtrip (c n1 rfreq : Nat) (hc : c < 8) (hn : n1 < 128)
    (hr : rfreq < 2 ^ 38) :
    (Si570.program.writes c n1 rfreq).map Prod.fst = [7, 8, 9, 10, 11, 12] ∧
      (∀ w ∈ Si570.program.writes c n1 rfreq, w.2 < 256) ∧
      ∃ d, hsd_divn.get? c = some d ∧
        Si570.read (registersAfter (Si570.program.writes c n1 rfreq))
          = some ⟨d, n1, rfreq⟩ := by
  obtain ⟨h1, h2⟩ := Si570_roundtrip_aux c n1 rfreq hc hn hr
  exact ⟨rfl, h1, _, hsd_divn_get c hc, h2⟩

/-- The values `program` writes for its first table entries (code 7, n1 3) and an
rfreq of 12345678901 are read back as the divider 11, n1 3 and that rfreq. -/
theorem Si570_roundtrip_witness :
    Si570.program.writes 7 3 12345678901
        = [(7, 224), (8, 194), (9, 223), (10, 220), (11, 28), (12, 53)] ∧
      ∃ d, hsd_divn.get? 7 = some d ∧
        Si570.read (registersAfter (Si570.program.writes 7 3 12345678901))
          = some ⟨d, 3, 12345678901⟩ :=
  ⟨by decide,
   (Si570_roundtrip 7 3 12345678901 (by decide) (by decide) (by decide)).2.2⟩

/-- Claim C27: the index `(v>>5)&7` that `read` takes from register 7 is within the
eight entries of `hsd_divn` for every value v, so `read` never leaves the table; the
table gives code + 4 for the codes 0, 1, 2, 3, 5 and 7 and 0 for the reserved codes 4
and 6.  The lookups of `program` in its two-entry tables are in bounds exactly when
index is 0 or 1. -/
theorem Si570_table_bounds :
    (∀ v : Nat, (v >>> 5) &&& 7 < hsd_divn.length) ∧
      (∀ reg : Nat → Nat, (Si570.read reg).isSome = true) ∧
      (∀ c ∈ [0, 1, 2, 3, 5, 7], hsd_divn.get? c = some (c + 4)) ∧
      hsd_divn.get? 4 = some 0 ∧ hsd_divn.get? 6 = some 0 ∧
      (∀ index : Int,
        ((tableAt _hsd_div index).isSome = true ∧ (tableAt _n1 index).isSome = true ∧
          (tableAt _rfreq index).isSome = true) ↔ (index = 0 ∨ index = 1)) ∧
      (∀ (index : Int) (rfreq : Nat),
        (Si570.program index rfreq).isSome = true ↔ (index = 0 ∨ index = 1)) := by
  have hidx : ∀ v : Nat, (v >>> 5) &&& 7 < hsd_divn.length := by
    intro v
    have h := Nat.and_pow_two_sub_one_eq_mod (v >>> 5) 3
    simp only [Nat.reducePow, Nat.reduceSub] at h
    rw [h]
    simp only [hsd_divn, List.length_cons, List.length_nil]
    omega
  have htab : ∀ (t : List Nat), t.length = 2 → ∀ index : Int,
      (tableAt t index).isSome = true ↔ (index = 0 ∨ index = 1) := by
    intro t ht index
    simp only [tableAt]
    split
    · rw [List.get?_eq_getElem?, Option.isSome_iff_exists]
      constructor
      · rintro ⟨a, ha⟩
        have := (List.getElem?_eq_some.mp ha).1
        omega
      · intro h
        have hlt : index.toNat < t.length := by omega
        exact ⟨_, List.getElem?_eq_getElem hlt⟩
    · simp only [Option.isSome_none, Bool.false_eq_true, false_iff]
      omega
  refine ⟨hidx, ?_, by decide, rfl, rfl, ?_, ?_⟩
  · intro reg
    simp only [Si570.read]
    have h := hidx (reg 7 % 2 ^ 32)
    rw [List.get?_eq_getElem?, List.getElem?_eq_getElem h]
    rfl
  · intro index
    rw [htab _hsd_div rfl, htab _n1 rfl, htab _rfreq rfl]
    tauto
  · intro index rfreq
    have h1 := htab _hsd_div rfl index
    have h2 := htab _n1 rfl index
    have h3 := htab _rfreq rfl index
    simp only [Si570.program]
    constructor
    · intro h
      cases ha : tableAt _hsd_div index with
      | none => simp [ha] at h
      | some a => exact h1.mp (by simp [ha])
    · intro h
      obtain ⟨a, ha⟩ := Option.isSome_iff_exists.mp (h1.mpr h)
      obtain ⟨b, hb⟩ := Option.isSome_iff_exists.mp (h2.mpr h)
      obtain ⟨d, hd⟩ := Option.isSome_iff_exists.mp (h3.mpr h)
      simp [ha, hb, hd]

/-- The index 1 is in bounds, the indices 2 and -1 are not. -/
theorem Si570_table_bounds_witness :
    (Si570.program 1 0).isSome = true ∧ (Si570.program 2 0).isSome = false ∧
      (Si570.program (-1) 0).isSome = false ∧ hsd_divn.get? 5 = some 9 :=
  ⟨(Si570_table_bounds.2.2.2.2.2.2 1 0).mpr (Or.inr rfl), by decide, by decide,
   Si570_table_bounds.2.2.1 5 (by decide)⟩

end Drp
